import Mathlib

/-!
# The message classifier of `chat.js`

A shallow embedding of `detectCode`, `resolveConflicts`, `detectURL`, `detectFile`,
`getExtensionFromMime` and of the template choice of `addMessage`.

* A JavaScript string is the list of its UTF-16 code units (`Text`).
* A regular expression literal is a term of `Re`; `Re.run` is the backtracking
  matcher of ECMAScript (ordered alternation, greedy and lazy repetition, the
  empty-iteration check, negative lookahead, `\b`, `^`, `$`, the flags `i` and `m`).
  Every pattern below carries its source literal in the comment above it.
-/

namespace Chat

/-! ## Strings -/

/-- A JavaScript string: its UTF-16 code units. -/
abbrev Text := List Nat

/-- The code units of one character. -/
def utf16 (c : Char) : List Nat :=
  if c.toNat < 65536 then [c.toNat]
  else [55296 + (c.toNat - 65536) / 1024, 56320 + (c.toNat - 65536) % 1024]

/-- The JavaScript string written as a Lean string literal. -/
def js (s : String) : Text := s.toList.flatMap utf16

/-- Whether `p` is a prefix of `t`. -/
def startsWith : Text → Text → Bool
  | [], _ => true
  | _ :: _, [] => false
  | a :: p, b :: t => a == b && startsWith p t

/-- The method `String.prototype.includes`. -/
def includes (p : Text) : Text → Bool
  | [] => startsWith p []
  | x :: t => startsWith p (x :: t) || includes p t

/-- The method `String.prototype.indexOf` (none stands for -1). -/
def indexOf (p : Text) : Text → Option Nat
  | [] => if startsWith p [] then some 0 else none
  | x :: t => if startsWith p (x :: t) then some 0 else (indexOf p t).map (· + 1)

/-- The method `String.prototype.substring` for `0 ≤ a ≤ b`. -/
def substring (t : Text) (a b : Nat) : Text := (t.drop a).take (b - a)

/-- The number of pieces `text.split(sep)` has for a one-unit separator. -/
def splitLength (sep : Nat) (t : Text) : Nat := t.count sep + 1

/-- The last piece of `text.split(sep)` for a one-unit separator: `split(sep).pop()`. -/
def splitPop (sep : Nat) : Text → Text
  | [] => []
  | x :: t => if t.contains sep then splitPop sep t else if x == sep then t else x :: t

/-- The method `toUpperCase` on one code unit, for the ASCII letters (on the strings it is
applied to in this file, file extensions matched by an ASCII pattern, nothing else occurs). -/
def upperUnit (c : Nat) : Nat := if 97 ≤ c ∧ c ≤ 122 then c - 32 else c

/-- The method `toLowerCase` on one code unit, for the ASCII letters. -/
def lowerUnit (c : Nat) : Nat := if 65 ≤ c ∧ c ≤ 90 then c + 32 else c

def toUpperCase (t : Text) : Text := t.map upperUnit

def toLowerCase (t : Text) : Text := t.map lowerUnit

/-- The expression `lang.charAt(0).toUpperCase() + lang.slice(1)` on a language name
(the first letter of every name of the shipped tables is ASCII). -/
def capitalize (s : String) : String :=
  match s.toList with
  | [] => ""
  | c :: cs => String.mk (c.toUpper :: cs)

/-! ## Regular expressions -/

/-- One item of a character class. -/
inductive CItem where
  | c (ch : Char)
  | r (lo hi : Char)
  | space
  | nonspace
  | word

/-- The syntax of the regular expression literals of the source. `grp n` is the
capturing group number `n`; a non-capturing group is its body. -/
inductive Re where
  | eps
  | fail
  | lit (s : String)
  | set (neg : Bool) (items : List CItem)
  | dot
  | seq (a b : Re)
  | alt (a b : Re)
  | rep (min : Nat) (greedy : Bool) (r : Re)
  | opt (r : Re)
  | bol
  | eol
  | wordB
  | nla (r : Re)
  | grp (n : Nat) (r : Re)

/-- The class `\s`: WhiteSpace and LineTerminator. -/
def isSpace (c : Nat) : Bool :=
  (Nat.ble 9 c && Nat.ble c 13) || Nat.beq c 32 || Nat.beq c 160 || Nat.beq c 5760 ||
  (Nat.ble 8192 c && Nat.ble c 8202) || Nat.beq c 8232 || Nat.beq c 8233 ||
  Nat.beq c 8239 || Nat.beq c 8287 || Nat.beq c 12288 || Nat.beq c 65279

/-- The class `\w`. -/
def isWord (c : Nat) : Bool :=
  (Nat.ble 97 c && Nat.ble c 122) || (Nat.ble 65 c && Nat.ble c 90) ||
  (Nat.ble 48 c && Nat.ble c 57) || Nat.beq c 95

/-- LineTerminator: what `.` refuses and what `^` with the flag `m` looks for. -/
def isLineTerminator (c : Nat) : Bool :=
  Nat.beq c 10 || Nat.beq c 13 || Nat.beq c 8232 || Nat.beq c 8233

/-- Canonicalize under the flag `i`, for the comparison with the ASCII characters of a
pattern (a code unit above 127 is never canonicalized to an ASCII one). -/
def canon (c : Nat) : Nat :=
  if Nat.ble 97 c && Nat.ble c 122 then c - 32 else c

/-- Whether the code unit `x` of the text is the character `c` of the pattern. -/
def sameUnit (ci : Bool) (c x : Nat) : Bool :=
  if ci then Nat.beq (canon c) (canon x) else Nat.beq c x

def CItem.test (ci : Bool) (x : Nat) : CItem → Bool
  | .c ch => sameUnit ci ch.toNat x
  | .r lo hi =>
      (Nat.ble lo.toNat x && Nat.ble x hi.toNat) ||
      (ci &&
        ((Nat.ble 65 x && Nat.ble x 90 && Nat.ble lo.toNat (x + 32) && Nat.ble (x + 32) hi.toNat) ||
         (Nat.ble 97 x && Nat.ble x 122 && Nat.ble (lo.toNat + 32) x && Nat.ble x (hi.toNat + 32))))
  | .space => isSpace x
  | .nonspace => !isSpace x
  | .word => isWord x

/-- A state of the matcher: the code unit before the current index, the code units
from it on, and the captures made so far (latest first). -/
structure St where
  prev : Option Nat
  rest : Text
  caps : List (Nat × Text)

/-- A continuation of the matcher. -/
abbrev Cont := St → Option St

/-- The state one code unit further. -/
def St.adv (st : St) : Option St :=
  match st.rest with
  | [] => none
  | x :: xs => some ⟨some x, xs, st.caps⟩

/-- The capture of group `n`. -/
def St.cap (st : St) (n : Nat) : Option Text :=
  (st.caps.find? (fun p => p.1 == n)).map (fun p => p.2)

/-- Whether the first list is shorter than the second. -/
def shorter : Text → Text → Bool
  | _, [] => false
  | [], _ :: _ => true
  | _ :: a, _ :: b => shorter a b

/-- The code units of `a` before its suffix `b`. -/
def upTo (a b : Text) : Text := a.take (a.length - b.length)

/-- A run of literal characters. -/
def litGo (ci : Bool) : List Nat → Option Nat → Text → Option (Option Nat × Text)
  | [], prev, rest => some (prev, rest)
  | c :: cs, _, rest =>
    match rest with
    | [] => none
    | x :: xs => if sameUnit ci c x then litGo ci cs (some x) xs else none

def runLit (ci : Bool) (s : String) (st : St) (k : Cont) : Option St :=
  match litGo ci (js s) st.prev st.rest with
  | some (prev, rest) => k ⟨prev, rest, st.caps⟩
  | none => none

def runSet (ci neg : Bool) (items : List CItem) (st : St) (k : Cont) : Option St :=
  match st.rest with
  | [] => none
  | x :: xs => if (items.any (CItem.test ci x)) != neg then k ⟨some x, xs, st.caps⟩ else none

def runDot (st : St) (k : Cont) : Option St :=
  match st.rest with
  | [] => none
  | x :: xs => if isLineTerminator x then none else k ⟨some x, xs, st.caps⟩

def runBol (ml : Bool) (st : St) (k : Cont) : Option St :=
  match st.prev with
  | none => k st
  | some p => if ml && isLineTerminator p then k st else none

def runEol (ml : Bool) (st : St) (k : Cont) : Option St :=
  match st.rest with
  | [] => k st
  | x :: _ => if ml && isLineTerminator x then k st else none

/-- Whether the index of the state is a word boundary. -/
def atWordB (st : St) : Bool :=
  (match st.prev with
    | none => false
    | some p => isWord p) !=
  (match st.rest with
    | [] => false
    | x :: _ => isWord x)

def runWordB (st : St) (k : Cont) : Option St :=
  if atWordB st then k st else none

/-- The first of two attempts that succeeds. -/
def orElse (a : Option St) (b : Unit → Option St) : Option St :=
  match a with
  | some e => some e
  | none => b ()

/-- What follows an iteration of `r*`, `r*?` or `r?`: an iteration that consumed nothing
fails (the empty check of RepeatMatcher). -/
def ifProgress (st : St) (next : Cont) : Cont :=
  fun st1 => if shorter st1.rest st.rest then next st1 else none

/-- The iterations of `r*` and `r*?` after the mandatory ones. Every iteration consumes a
code unit, so the code units left bound the number of iterations. -/
def loopGo (step : St → Cont → Option St) (greedy : Bool) :
    List Nat → St → Cont → Option St
  | [], st, k => k st
  | _ :: fuel, st, k =>
    if greedy then
      orElse (step st (ifProgress st (fun st1 => loopGo step greedy fuel st1 k))) (fun _ => k st)
    else
      orElse (k st) (fun _ => step st (ifProgress st (fun st1 => loopGo step greedy fuel st1 k)))

/-- The quantifier `{min,}`. -/
def repGo (step : St → Cont → Option St) (greedy : Bool) :
    Nat → St → Cont → Option St
  | 0, st, k => loopGo step greedy st.rest st k
  | n + 1, st, k => step st (fun st1 => repGo step greedy n st1 k)

def runNla (r : Option St) (st : St) (k : Cont) : Option St :=
  match r with
  | some _ => none
  | none => k st

/-- The continuation that records the capture of group `n` opened at `st`. -/
def capture (n : Nat) (st : St) (k : Cont) : Cont :=
  fun st1 => k ⟨st1.prev, st1.rest, (n, upTo st.rest st1.rest) :: st1.caps⟩

/-- A matcher: what a pattern does at a state, given the continuation that follows it. -/
structure Matcher where
  run : St → Cont → Option St

/-- The backtracking matcher of a pattern, in continuation-passing style: the matcher of a
pattern is built from the matchers of its parts. -/
def Re.compile (ci ml : Bool) : Re → Matcher
  | .eps => ⟨fun st k => k st⟩
  | .fail => ⟨fun _ _ => none⟩
  | .lit s => ⟨runLit ci s⟩
  | .set neg items => ⟨runSet ci neg items⟩
  | .dot => ⟨runDot⟩
  | .seq a b => ⟨fun st k => (a.compile ci ml).run st (fun st1 => (b.compile ci ml).run st1 k)⟩
  | .alt a b =>
    ⟨fun st k => orElse ((a.compile ci ml).run st k) (fun _ => (b.compile ci ml).run st k)⟩
  | .rep min greedy r => ⟨repGo (r.compile ci ml).run greedy min⟩
  | .opt r => ⟨fun st k => orElse ((r.compile ci ml).run st (ifProgress st k)) (fun _ => k st)⟩
  | .bol => ⟨runBol ml⟩
  | .eol => ⟨runEol ml⟩
  | .wordB => ⟨runWordB⟩
  | .nla r => ⟨fun st k => runNla ((r.compile ci ml).run st some) st k⟩
  | .grp n r => ⟨fun st k => (r.compile ci ml).run st (capture n st k)⟩

/-- The first success, in the priority order of ECMAScript, of `r` at `st` followed
by `k`. -/
def Re.run (ci ml : Bool) (r : Re) (st : St) (k : Cont) : Option St :=
  (r.compile ci ml).run st k

/-- The number of capturing groups of a pattern. -/
def Re.groups : Re → Nat
  | .seq a b => a.groups + b.groups
  | .alt a b => a.groups + b.groups
  | .rep _ _ r => r.groups
  | .opt r => r.groups
  | .nla r => r.groups
  | .grp _ r => r.groups + 1
  | _ => 0

/-- The search of RegExpBuiltinExec: the first index, from the one before `rest` on, at
which the pattern matches, with the state at the start and at the end of the match;
`prev` is the code unit before `rest`. -/
def searchGo (ci ml : Bool) (re : Re) : Option Nat → Text → Option (St × St)
  | prev, [] =>
    match re.run ci ml ⟨prev, [], []⟩ some with
    | some e => some (⟨prev, [], []⟩, e)
    | none => none
  | prev, x :: t =>
    match re.run ci ml ⟨prev, x :: t, []⟩ some with
    | some e => some (⟨prev, x :: t, []⟩, e)
    | none => searchGo ci ml re (some x) t

/-- The call `re.exec(text)` of a pattern without the flag `g`. -/
def Re.exec (re : Re) (ci ml : Bool) (text : Text) : Option (St × St) :=
  searchGo ci ml re none text

/-- The call `re.test(text)`. -/
def Re.test (re : Re) (ci ml : Bool) (text : Text) : Bool :=
  (re.exec ci ml text).isSome

/-- The matched substring. -/
def matched (m : St × St) : Text := upTo m.1.rest m.2.rest

/-- The length of the array `text.match(re)` of a pattern without the flag `g`, 0 for
null: the match and one entry for each capturing group. -/
def matchLength (re : Re) (text : Text) : Nat :=
  if re.test false false text then 1 + re.groups else 0

/-- The loop of `text.match(re)` for a pattern with the flag `g`: the matched
substrings from left to right, `lastIndex` stepping over an empty match. -/
def matchAllGo (ci ml : Bool) (re : Re) : Nat → St → List Text
  | 0, _ => []
  | fuel + 1, st =>
    match searchGo ci ml re st.prev st.rest with
    | none => []
    | some (s, e) =>
      matched (s, e) ::
        (if shorter e.rest s.rest then matchAllGo ci ml re fuel ⟨e.prev, e.rest, []⟩
         else match e.adv with
           | some e1 => matchAllGo ci ml re fuel ⟨e1.prev, e1.rest, []⟩
           | none => [])

/-- The array `text.match(re)` of a pattern with the flag `g` (empty for null). -/
def matchAll (re : Re) (ci ml : Bool) (text : Text) : List Text :=
  matchAllGo ci ml re (text.length + 1) ⟨none, text, []⟩

/-! ### Pattern constructors -/

def lit (s : String) : Re := .lit s
def cls (items : List CItem) : Re := .set false items
def ncls (items : List CItem) : Re := .set true items
def ws : Re := .set false [.space]
def wd : Re := .set false [.word]
def star (r : Re) : Re := .rep 0 true r
def lazyStar (r : Re) : Re := .rep 0 false r
def plus (r : Re) : Re := .rep 1 true r
def atLeast (n : Nat) (r : Re) : Re := .rep n true r
def opt (r : Re) : Re := .opt r
def nla (r : Re) : Re := .nla r
def grp (n : Nat) (r : Re) : Re := .grp n r

/-- Concatenation. -/
def cat : List Re → Re
  | [] => .eps
  | [r] => r
  | r :: rs => .seq r (cat rs)

/-- Alternation, tried from left to right. -/
def alts : List Re → Re
  | [] => .fail
  | [r] => r
  | r :: rs => .alt r (alts rs)

/-- A pattern with its flag `i`. -/
structure Pat where
  re : Re
  ci : Bool

/-- The call `pattern.test(text)` of a signature pattern. -/
def Pat.test (p : Pat) (text : Text) : Bool := p.re.test p.ci false text

/-- Signature patterns of JavaScript (the entry of the table in detectCode). -/
def javaScriptPatterns : List Pat := [
  -- /\b(function|const|let|var|if|for|while|switch|case|break|return|export|as|async|await)\b/
  ⟨cat [.wordB, grp 1 (alts [lit "function", lit "const", lit "let", lit "var", lit "if", lit "for",
      lit "while", lit "switch", lit "case", lit "break", lit "return", lit "export", lit "as",
      lit "async", lit "await"]), .wordB], false⟩,
  -- /console\.(log|error|warn|info)/
  ⟨cat [lit "console.", grp 1 (alts [lit "log", lit "error", lit "warn", lit "info"])], false⟩,
  -- /=>\s*{/
  ⟨cat [lit "=>", star ws, lit "\x7b"], false⟩,
  -- /\b(true|false|null|undefined)\b/
  ⟨cat [.wordB, grp 1 (alts [lit "true", lit "false", lit "null", lit "undefined"]), .wordB],
      false⟩,
  -- /\.prototype\./
  ⟨lit ".prototype.", false⟩,
  -- /document\.|window\.|\$\(/
  ⟨alts [lit "document.", lit "window.", lit "$("], false⟩,
  -- /typeof\s+\w+/
  ⟨cat [lit "typeof", plus ws, plus wd], false⟩,
  -- /instanceof\s+\w+/
  ⟨cat [lit "instanceof", plus ws, plus wd], false⟩,
  -- /\.addEventListener\(/
  ⟨lit ".addEventListener(", false⟩,
  -- /fetch\(|Promise\.|\.then\(|\.catch\(/
  ⟨alts [lit "fetch(", lit "Promise.", lit ".then(", lit ".catch("], false⟩,
  -- /;\s*\/\/.*$/
  ⟨cat [lit ";", star ws, lit "//", star .dot, .eol], false⟩,
  -- /\/\*[\s\S]*?\*\//
  ⟨cat [lit "/*", lazyStar (cls [.space, .nonspace]), lit "*/"], false⟩,
  -- /\b(function\s+\w+\s*\(.*\)\s*{)/
  ⟨cat [.wordB, grp 1 (cat [lit "function", plus ws, plus wd, star ws, lit "(", star .dot, lit ")",
      star ws, lit "\x7b"])], false⟩,
  -- /\b(class\s+\w+\s*{)/
  ⟨cat [.wordB, grp 1 (cat [lit "class", plus ws, plus wd, star ws, lit "\x7b"])], false⟩,
  -- /\.js$/
  ⟨cat [lit ".js", .eol], false⟩,
  -- /\b(module\.exports|exports\.|require\()\b/
  ⟨cat [.wordB, grp 1 (alts [lit "module.exports", lit "exports.", lit "require("]), .wordB],
      false⟩,
  -- /\b(document|window|navigator|location|history)\./
  ⟨cat [.wordB, grp 1 (alts [lit "document", lit "window", lit "navigator", lit "location",
      lit "history"]), lit "."], false⟩,
  -- /\b(try\s*{.*}\s*catch\s*\(.*\)\s*{.*})\b/
  ⟨cat [.wordB, grp 1 (cat [lit "try", star ws, lit "\x7b", star .dot, lit "\x7d", star ws,
      lit "catch", star ws, lit "(", star .dot, lit ")", star ws, lit "\x7b", star .dot,
      lit "\x7d"]), .wordB], false⟩
]

/-- Signature patterns of TypeScript (the entry of the table in detectCode). -/
def typeScriptPatterns : List Pat := [
  -- /\b(function|const|let|var|if|for|while|switch|case|break|return|import|export|from|as|async|await)\b/
  ⟨cat [.wordB, grp 1 (alts [lit "function", lit "const", lit "let", lit "var", lit "if", lit "for",
      lit "while", lit "switch", lit "case", lit "break", lit "return", lit "import", lit "export",
      lit "from", lit "as", lit "async", lit "await"]), .wordB], false⟩,
  -- /console\.(log|error|warn|info)/
  ⟨cat [lit "console.", grp 1 (alts [lit "log", lit "error", lit "warn", lit "info"])], false⟩,
  -- /=>\s*{/
  ⟨cat [lit "=>", star ws, lit "\x7b"], false⟩,
  -- /\b(true|false|null|undefined)\b/
  ⟨cat [.wordB, grp 1 (alts [lit "true", lit "false", lit "null", lit "undefined"]), .wordB],
      false⟩,
  -- /\.prototype\./
  ⟨lit ".prototype.", false⟩,
  -- /document\.|window\.|\$\(/
  ⟨alts [lit "document.", lit "window.", lit "$("], false⟩,
  -- /typeof\s+\w+/
  ⟨cat [lit "typeof", plus ws, plus wd], false⟩,
  -- /instanceof\s+\w+/
  ⟨cat [lit "instanceof", plus ws, plus wd], false⟩,
  -- /\.addEventListener\(/
  ⟨lit ".addEventListener(", false⟩,
  -- /fetch\(|Promise\.|\.then\(|\.catch\(/
  ⟨alts [lit "fetch(", lit "Promise.", lit ".then(", lit ".catch("], false⟩,
  -- /;\s*\/\/.*$/
  ⟨cat [lit ";", star ws, lit "//", star .dot, .eol], false⟩,
  -- /\/\*[\s\S]*?\*\//
  ⟨cat [lit "/*", lazyStar (cls [.space, .nonspace]), lit "*/"], false⟩,
  -- /\b(var|let|const)\s+\w+\s*=\s*\w+;/
  ⟨cat [.wordB, grp 1 (alts [lit "var", lit "let", lit "const"]), plus ws, plus wd, star ws,
      lit "=", star ws, plus wd, lit ";"], false⟩,
  -- /\b(function\s+\w+\s*\(.*\)\s*{)/
  ⟨cat [.wordB, grp 1 (cat [lit "function", plus ws, plus wd, star ws, lit "(", star .dot, lit ")",
      star ws, lit "\x7b"])], false⟩,
  -- /\b(class\s+\w+\s*{)/
  ⟨cat [.wordB, grp 1 (cat [lit "class", plus ws, plus wd, star ws, lit "\x7b"])], false⟩,
  -- /\.ts$/
  ⟨cat [lit ".ts", .eol], false⟩,
  -- /:\s*(string|number|boolean|void|any|unknown|never|undefined|null|symbol|bigint|object|Function|Array|Promise|Map|Set)\b/
  ⟨cat [lit ":", star ws, grp 1 (alts [lit "string", lit "number", lit "boolean", lit "void",
      lit "any", lit "unknown", lit "never", lit "undefined", lit "null", lit "symbol",
      lit "bigint", lit "object", lit "Function", lit "Array", lit "Promise", lit "Map",
      lit "Set"]), .wordB], false⟩,
  -- /\b(interface\s+\w+)/
  ⟨cat [.wordB, grp 1 (cat [lit "interface", plus ws, plus wd])], false⟩,
  -- /\b(type\s+\w+\s*=)/
  ⟨cat [.wordB, grp 1 (cat [lit "type", plus ws, plus wd, star ws, lit "="])], false⟩,
  -- /\b(readonly\s+\w+)/
  ⟨cat [.wordB, grp 1 (cat [lit "readonly", plus ws, plus wd])], false⟩,
  -- /\b(generics<\w+>)/
  ⟨cat [.wordB, grp 1 (cat [lit "generics<", plus wd, lit ">"])], false⟩,
  -- /\b(declare\s+)/
  ⟨cat [.wordB, grp 1 (cat [lit "declare", plus ws])], false⟩
]

/-- Signature patterns of Python (the entry of the table in detectCode). -/
def pythonPatterns : List Pat := [
  -- /\b(def\s+\w+\s*\(.*\):|class\s+\w+\s*[:,])/
  ⟨cat [.wordB, grp 1 (alts [cat [lit "def", plus ws, plus wd, star ws, lit "(", star .dot,
      lit "):"], cat [lit "class", plus ws, plus wd, star ws, cls [.c ':', .c ',']]])], false⟩,
  -- /print\s*\(/
  ⟨cat [lit "print", star ws, lit "("], false⟩,
  -- /:\s*$/
  ⟨cat [lit ":", star ws, .eol], false⟩,
  -- /\b(True|False|None)\b/
  ⟨cat [.wordB, grp 1 (alts [lit "True", lit "False", lit "None"]), .wordB], false⟩,
  -- /__name__\s*==\s*['"]__main__['"]/
  ⟨cat [lit "__name__", star ws, lit "==", star ws, cls [.c '\'', .c '"'], lit "__main__",
      cls [.c '\'', .c '"']], false⟩,
  -- /\b(self\.)\b/
  ⟨cat [.wordB, grp 1 (lit "self."), .wordB], false⟩,
  -- /@\w+/
  ⟨cat [lit "@", plus wd], false⟩,
  -- /\b(lambda\s+.*:|yield\s+|with\s+|global\s+\w+|nonlocal\s+\w+)\b/
  ⟨cat [.wordB, grp 1 (alts [cat [lit "lambda", plus ws, star .dot, lit ":"], cat [lit "yield",
      plus ws], cat [lit "with", plus ws], cat [lit "global", plus ws, plus wd],
      cat [lit "nonlocal", plus ws, plus wd]]), .wordB], false⟩,
  -- /\b(elif\s+.*:|else:|try:|except\s+.*:|finally:|for\s+\w+\s+in\s+.*:|while\s+.*:|import\s+\w+|from\s+\w+\s+import\s+\w+)\b/
  ⟨cat [.wordB, grp 1 (alts [cat [lit "elif", plus ws, star .dot, lit ":"], lit "else:", lit "try:",
      cat [lit "except", plus ws, star .dot, lit ":"], lit "finally:", cat [lit "for", plus ws,
      plus wd, plus ws, lit "in", plus ws, star .dot, lit ":"], cat [lit "while", plus ws,
      star .dot, lit ":"], cat [lit "import", plus ws, plus wd], cat [lit "from", plus ws, plus wd,
      plus ws, lit "import", plus ws, plus wd]]), .wordB], false⟩,
  -- /\[.*\s+for\s+\w+\s+in\s+.*\]/
  ⟨cat [lit "[", star .dot, plus ws, lit "for", plus ws, plus wd, plus ws, lit "in", plus ws,
      star .dot, lit "]"], false⟩,
  -- /\b(len\(|range\(|enumerate\(|zip\(|map\(|filter\(|random\(|os\.)/
  ⟨cat [.wordB, grp 1 (alts [lit "len(", lit "range(", lit "enumerate(", lit "zip(", lit "map(",
      lit "filter(", lit "random(", lit "os."])], false⟩,
  -- /\b(import\s+random|import\s+os)\b/
  ⟨cat [.wordB, grp 1 (alts [cat [lit "import", plus ws, lit "random"], cat [lit "import", plus ws,
      lit "os"]]), .wordB], false⟩,
  -- /\s*:\s*#/
  ⟨cat [star ws, lit ":", star ws, lit "#"], false⟩,
  -- /\b(if\s+.*:|elif\s+.*:|else:)/
  ⟨cat [.wordB, grp 1 (alts [cat [lit "if", plus ws, star .dot, lit ":"], cat [lit "elif", plus ws,
      star .dot, lit ":"], lit "else:"])], false⟩
]

/-- Signature patterns of Java (the entry of the table in detectCode). -/
def javaPatterns : List Pat := [
  -- /\b(public|private|protected|class|interface|extends|implements|import|package|static|final|void|int|String|boolean|double|float|long|short|byte|char)\b/
  ⟨cat [.wordB, grp 1 (alts [lit "public", lit "private", lit "protected", lit "class",
      lit "interface", lit "extends", lit "implements", lit "import", lit "package", lit "static",
      lit "final", lit "void", lit "int", lit "String", lit "boolean", lit "double", lit "float",
      lit "long", lit "short", lit "byte", lit "char"]), .wordB], false⟩,
  -- /\b(System\.out\.print|System\.err\.print)\b/
  ⟨cat [.wordB, grp 1 (alts [lit "System.out.print", lit "System.err.print"]), .wordB], false⟩,
  -- /new\s+\w+\s*\(/
  ⟨cat [lit "new", plus ws, plus wd, star ws, lit "("], false⟩,
  -- /@Override|@Deprecated|@SuppressWarnings/
  ⟨alts [lit "@Override", lit "@Deprecated", lit "@SuppressWarnings"], false⟩,
  -- /throws\s+\w+Exception/
  ⟨cat [lit "throws", plus ws, plus wd, lit "Exception"], false⟩,
  -- /\.java$/
  ⟨cat [lit ".java", .eol], false⟩,
  -- /final\s+(class|void|int|String|boolean|double|float|long|short|byte|char)/
  ⟨cat [lit "final", plus ws, grp 1 (alts [lit "class", lit "void", lit "int", lit "String",
      lit "boolean", lit "double", lit "float", lit "long", lit "short", lit "byte", lit "char"])],
      false⟩,
  -- /public\s+static\s+void\s+main\s*\(\s*String\[\s*\]\s*\w+\s*\)/
  ⟨cat [lit "public", plus ws, lit "static", plus ws, lit "void", plus ws, lit "main", star ws,
      lit "(", star ws, lit "String[", star ws, lit "]", star ws, plus wd, star ws, lit ")"],
      false⟩,
  -- /System\.(out|err)\.(println|print)/
  ⟨cat [lit "System.", grp 1 (alts [lit "out", lit "err"]), lit ".", grp 2 (alts [lit "println",
      lit "print"])], false⟩
]

/-- Signature patterns of C# (the entry of the table in detectCode). -/
def cSharpPatterns : List Pat := [
  -- /\b(public|private|protected|class|interface|namespace|using|static|readonly|const|void|int|string|bool|double|float|long|short|byte|char|enum)\b/
  ⟨cat [.wordB, grp 1 (alts [lit "public", lit "private", lit "protected", lit "class",
      lit "interface", lit "namespace", lit "using", lit "static", lit "readonly", lit "const",
      lit "void", lit "int", lit "string", lit "bool", lit "double", lit "float", lit "long",
      lit "short", lit "byte", lit "char", lit "enum"]), .wordB], false⟩,
  -- /Console\.(Write|WriteLine)/
  ⟨cat [lit "Console.", grp 1 (alts [lit "Write", lit "WriteLine"])], false⟩,
  -- /new\s+\w+\s*\(/
  ⟨cat [lit "new", plus ws, plus wd, star ws, lit "("], false⟩,
  -- /#region|#endregion/
  ⟨alts [lit "#region", lit "#endregion"], false⟩,
  -- /async\s+|await\s+/
  ⟨alts [cat [lit "async", plus ws], cat [lit "await", plus ws]], false⟩,
  -- /\.cs$/
  ⟨cat [lit ".cs", .eol], false⟩,
  -- /List<\w+>|Dictionary<\w+,/
  ⟨alts [cat [lit "List<", plus wd, lit ">"], cat [lit "Dictionary<", plus wd, lit ","]], false⟩,
  -- /\b(string\[\s*\]\s*\w+|int\[\s*\]\s*\w+)\b/
  ⟨cat [.wordB, grp 1 (alts [cat [lit "string[", star ws, lit "]", star ws, plus wd],
      cat [lit "int[", star ws, lit "]", star ws, plus wd]]), .wordB], false⟩,
  -- /\b(var\s+\w+\s*=\s*new\s+)/
  ⟨cat [.wordB, grp 1 (cat [lit "var", plus ws, plus wd, star ws, lit "=", star ws, lit "new",
      plus ws])], false⟩,
  -- /\.NET\s+(Framework|Core)/
  ⟨cat [lit ".NET", plus ws, grp 1 (alts [lit "Framework", lit "Core"])], false⟩
]

/-- Signature patterns of PHP (the entry of the table in detectCode). -/
def pHPPatterns : List Pat := [
  -- /<\?php|<\?=|\?>/
  ⟨alts [lit "<?php", lit "<?=", lit "?>"], false⟩,
  -- /\$[a-zA-Z_][a-zA-Z0-9_]+\s*=|\$[a-zA-Z_][a-zA-Z0-9_]+\[.*\]\s*=|\$\w+\[.*\]/
  ⟨alts [
      cat [lit "$", cls [.r 'a' 'z', .r 'A' 'Z', .c '_'], plus (cls [.r 'a' 'z', .r 'A' 'Z',
          .r '0' '9', .c '_']), star ws, lit "="],
      cat [lit "$", cls [.r 'a' 'z', .r 'A' 'Z', .c '_'], plus (cls [.r 'a' 'z', .r 'A' 'Z',
          .r '0' '9', .c '_']), lit "[", star .dot, lit "]", star ws, lit "="],
      cat [lit "$", plus wd, lit "[", star .dot, lit "]"]], false⟩,
  -- /\becho\s+|\bprint\s+|\bprint_r\s*\(|\bvar_dump\s*\(/
  ⟨alts [
      cat [.wordB, lit "echo", plus ws], cat [.wordB, lit "print", plus ws],
      cat [.wordB, lit "print_r", star ws, lit "("],
      cat [.wordB, lit "var_dump", star ws, lit "("]], false⟩,
  -- /\bfunction\s+\w+\s*\(.*\)\s*\{/
  ⟨cat [.wordB, lit "function", plus ws, plus wd, star ws, lit "(", star .dot, lit ")", star ws,
      lit "\x7b"], false⟩,
  -- /\bclass\s+\w+\s*(extends|implements)?\s*\w*\s*\{/
  ⟨cat [.wordB, lit "class", plus ws, plus wd, star ws, opt (grp 1 (alts [lit "extends",
      lit "implements"])), star ws, star wd, star ws, lit "\x7b"], false⟩,
  -- /\b(public|private|protected)\s+function/
  ⟨cat [.wordB, grp 1 (alts [lit "public", lit "private", lit "protected"]), plus ws,
      lit "function"], false⟩,
  -- /\$this->|\bthis->/
  ⟨alts [lit "$this->", cat [.wordB, lit "this->"]], false⟩,
  -- /->\w+\s*\(|->\w+\s*=|::\w+/
  ⟨alts [
      cat [lit "->", plus wd, star ws, lit "("], cat [lit "->", plus wd, star ws, lit "="],
      cat [lit "::", plus wd]], false⟩,
  -- /\bnamespace\s+[A-Za-z0-9_\\]+;/
  ⟨cat [.wordB, lit "namespace", plus ws, plus (cls [.r 'A' 'Z', .r 'a' 'z', .r '0' '9', .c '_',
      .c '\\']), lit ";"], false⟩,
  -- /\buse\s+[A-Za-z0-9_\\]+;/
  ⟨cat [.wordB, lit "use", plus ws, plus (cls [.r 'A' 'Z', .r 'a' 'z', .r '0' '9', .c '_',
      .c '\\']), lit ";"], false⟩,
  -- /\brequire(_once)?\s*[\("']|\binclude(_once)?\s*[\("']/
  ⟨alts [
      cat [.wordB, lit "require", opt (grp 1 (lit "_once")), star ws, cls [.c '(', .c '"',
          .c '\'']],
      cat [.wordB, lit "include", opt (grp 2 (lit "_once")), star ws, cls [.c '(', .c '"',
          .c '\'']]], false⟩,
  -- /\bnew\s+\w+\s*\(.*\)/
  ⟨cat [.wordB, lit "new", plus ws, plus wd, star ws, lit "(", star .dot, lit ")"], false⟩,
  -- /\bextends\s+\w+|\bimplements\s+\w+/
  ⟨alts [
      cat [.wordB, lit "extends", plus ws, plus wd],
      cat [.wordB, lit "implements", plus ws, plus wd]], false⟩,
  -- /\barray\s*\(.*\)|\[.*\]/
  ⟨alts [
      cat [.wordB, lit "array", star ws, lit "(", star .dot, lit ")"],
      cat [lit "[", star .dot, lit "]"]], false⟩,
  -- /\b(foreach|endif|endwhile|endfor|elseif|endforeach)\b/
  ⟨cat [.wordB, grp 1 (alts [lit "foreach", lit "endif", lit "endwhile", lit "endfor", lit "elseif",
      lit "endforeach"]), .wordB], false⟩,
  -- /=>/
  ⟨lit "=>", false⟩,
  -- /\$\w+\[|\$\w+\s*\.\=|\$\w+\+\+|\$\w+\-\-|\$\w+\s*\+\=|\$\w+\s*\-\=/
  ⟨alts [
      cat [lit "$", plus wd, lit "["], cat [lit "$", plus wd, star ws, lit ".="],
      cat [lit "$", plus wd, lit "++"], cat [lit "$", plus wd, lit "--"],
      cat [lit "$", plus wd, star ws, lit "+="], cat [lit "$", plus wd, star ws, lit "-="]], false⟩,
  -- /\bisset\s*\(|empty\s*\(|unset\s*\(|mysql_|mysqli_|PDO/
  ⟨alts [
      cat [.wordB, lit "isset", star ws, lit "("], cat [lit "empty", star ws, lit "("],
      cat [lit "unset", star ws, lit "("], lit "mysql_", lit "mysqli_", lit "PDO"], false⟩,
  -- /\$_(GET|POST|SESSION|COOKIE|SERVER|REQUEST|FILES)\b|define\s*\(|defined\s*\(|__FILE__|__LINE__|__DIR__|__FUNCTION__|__CLASS__|__TRAIT__|__METHOD__|__NAMESPACE__/
  ⟨alts [
      cat [lit "$_", grp 1 (alts [lit "GET", lit "POST", lit "SESSION", lit "COOKIE", lit "SERVER",
          lit "REQUEST", lit "FILES"]), .wordB],
      cat [lit "define", star ws, lit "("], cat [lit "defined", star ws, lit "("],
      lit "__FILE__", lit "__LINE__", lit "__DIR__", lit "__FUNCTION__", lit "__CLASS__",
      lit "__TRAIT__", lit "__METHOD__", lit "__NAMESPACE__"], false⟩
]

/-- Signature patterns of HTML (the entry of the table in detectCode). -/
def hTMLPatterns : List Pat := [
  -- /<html/i
  ⟨lit "<html", true⟩,
  -- /<\/html>/i
  ⟨lit "</html>", true⟩,
  -- /<div/i
  ⟨lit "<div", true⟩,
  -- /<\/div>/i
  ⟨lit "</div>", true⟩,
  -- /<!DOCTYPE html>/i
  ⟨lit "<!DOCTYPE html>", true⟩
]

/-- Signature patterns of CSS (the entry of the table in detectCode). -/
def cSSPatterns : List Pat := [
  -- /[a-zA-Z0-9\-_]+\s*{/
  ⟨cat [plus (cls [.r 'a' 'z', .r 'A' 'Z', .r '0' '9', .c '-', .c '_']), star ws, lit "\x7b"],
      false⟩,
  -- /:\s*[a-zA-Z0-9\-_#().]+;/
  ⟨cat [lit ":", star ws, plus (cls [.r 'a' 'z', .r 'A' 'Z', .r '0' '9', .c '-', .c '_', .c '#',
      .c '(', .c ')', .c '.']), lit ";"], false⟩,
  -- /@media|@import|@keyframes/
  ⟨alts [lit "@media", lit "@import", lit "@keyframes"], false⟩
]

/-- Signature patterns of SQL (the entry of the table in detectCode). -/
def sQLPatterns : List Pat := [
  -- /\b(SELECT|INSERT|UPDATE|DELETE|FROM|WHERE|JOIN|INNER|LEFT|RIGHT|ON|AS|TABLE|CREATE|DROP|ALTER|DISTINCT|HAVING|GROUP|ORDER|LIMIT|OFFSET|UNION|INTERSECT|EXCEPT)\b/i
  ⟨cat [.wordB, grp 1 (alts [lit "SELECT", lit "INSERT", lit "UPDATE", lit "DELETE", lit "FROM",
      lit "WHERE", lit "JOIN", lit "INNER", lit "LEFT", lit "RIGHT", lit "ON", lit "AS",
      lit "TABLE", lit "CREATE", lit "DROP", lit "ALTER", lit "DISTINCT", lit "HAVING", lit "GROUP",
      lit "ORDER", lit "LIMIT", lit "OFFSET", lit "UNION", lit "INTERSECT", lit "EXCEPT"]), .wordB],
      true⟩,
  -- /';'/
  ⟨lit "';'", false⟩,
  -- /--.*$/
  ⟨cat [lit "--", star .dot, .eol], false⟩,
  -- /\/\*[\s\S]*?\*\//
  ⟨cat [lit "/*", lazyStar (cls [.space, .nonspace]), lit "*/"], false⟩,
  -- /\b(AND|OR|NOT|BETWEEN|IN|LIKE|IS\s+NULL|IS\s+NOT\s+NULL)\b/i
  ⟨cat [.wordB, grp 1 (alts [lit "AND", lit "OR", lit "NOT", lit "BETWEEN", lit "IN", lit "LIKE",
      cat [lit "IS", plus ws, lit "NULL"], cat [lit "IS", plus ws, lit "NOT", plus ws,
      lit "NULL"]]), .wordB], true⟩,
  -- /\b(COUNT|SUM|AVG|MIN|MAX)\s*\(.*\)/i
  ⟨cat [.wordB, grp 1 (alts [lit "COUNT", lit "SUM", lit "AVG", lit "MIN", lit "MAX"]), star ws,
      lit "(", star .dot, lit ")"], true⟩,
  -- /\b(ASC|DESC)\b/i
  ⟨cat [.wordB, grp 1 (alts [lit "ASC", lit "DESC"]), .wordB], true⟩,
  -- /\b(PRIMARY\s+KEY|FOREIGN\s+KEY|REFERENCES|CONSTRAINT)\b/i
  ⟨cat [.wordB, grp 1 (alts [cat [lit "PRIMARY", plus ws, lit "KEY"], cat [lit "FOREIGN", plus ws,
      lit "KEY"], lit "REFERENCES", lit "CONSTRAINT"]), .wordB], true⟩,
  -- /\b(VARCHAR|CHAR|INT|INTEGER|FLOAT|DOUBLE|DATE|TIMESTAMP|BOOLEAN)\b/i
  ⟨cat [.wordB, grp 1 (alts [lit "VARCHAR", lit "CHAR", lit "INT", lit "INTEGER", lit "FLOAT",
      lit "DOUBLE", lit "DATE", lit "TIMESTAMP", lit "BOOLEAN"]), .wordB], true⟩,
  -- /\b(USE|DATABASE|SHOW\s+TABLES|DESCRIBE)\b/i
  ⟨cat [.wordB, grp 1 (alts [lit "USE", lit "DATABASE", cat [lit "SHOW", plus ws, lit "TABLES"],
      lit "DESCRIBE"]), .wordB], true⟩
]

/-- Signature patterns of Bash (the entry of the table in detectCode). -/
def bashPatterns : List Pat := [
  -- /#!\/(bin\/bash|usr\/bin\/env\s+bash)/
  ⟨cat [lit "#!/", grp 1 (alts [lit "bin/bash", cat [lit "usr/bin/env", plus ws, lit "bash"]])],
      false⟩,
  -- /\b(echo|printf|read|export|unset|let|declare|typeset)\b/
  ⟨cat [.wordB, grp 1 (alts [lit "echo", lit "printf", lit "read", lit "export", lit "unset",
      lit "let", lit "declare", lit "typeset"]), .wordB], false⟩,
  -- /\$\w+|\$\{\w+\}/
  ⟨alts [cat [lit "$", plus wd], cat [lit "$\x7b", plus wd, lit "\x7d"]], false⟩,
  -- /\$\(.*\)|\`.*\`/
  ⟨alts [cat [lit "$(", star .dot, lit ")"], cat [lit "`", star .dot, lit "`"]], false⟩,
  -- /\b(if|then|else|elif|fi|for|while|until|do|done|case|esac)\b/
  ⟨cat [.wordB, grp 1 (alts [lit "if", lit "then", lit "else", lit "elif", lit "fi", lit "for",
      lit "while", lit "until", lit "do", lit "done", lit "case", lit "esac"]), .wordB], false⟩,
  -- /\|\||&&|;/
  ⟨alts [lit "||", lit "&&", lit ";"], false⟩,
  -- /\[\s+.*\s+\]|\[\[\s+.*\s+\]\]/
  ⟨alts [
      cat [lit "[", plus ws, star .dot, plus ws, lit "]"],
      cat [lit "[[", plus ws, star .dot, plus ws, lit "]]"]], false⟩,
  -- /\b(function\s+\w+\s*\(\s*\)\s*\{)/
  ⟨cat [.wordB, grp 1 (cat [lit "function", plus ws, plus wd, star ws, lit "(", star ws, lit ")",
      star ws, lit "\x7b"])], false⟩
]

/-- Signature patterns of Ruby (the entry of the table in detectCode). -/
def rubyPatterns : List Pat := [
  -- /\bdef\s+\w+\s*$|\bdef\s+\w+\s*\|/
  ⟨alts [
      cat [.wordB, lit "def", plus ws, plus wd, star ws, .eol],
      cat [.wordB, lit "def", plus ws, plus wd, star ws, lit "|"]], false⟩,
  -- /\bend\b/
  ⟨cat [.wordB, lit "end", .wordB], false⟩,
  -- /\bclass\s+\w+\s*$/
  ⟨cat [.wordB, lit "class", plus ws, plus wd, star ws, .eol], false⟩,
  -- /\bmodule\s+\w+\s*$/
  ⟨cat [.wordB, lit "module", plus ws, plus wd, star ws, .eol], false⟩,
  -- /require\s+['"][^'"]+['"]|require_relative\s+['"][^'"]+['"]/
  ⟨alts [
      cat [lit "require", plus ws, cls [.c '\'', .c '"'], plus (ncls [.c '\'', .c '"']),
          cls [.c '\'', .c '"']],
      cat [lit "require_relative", plus ws, cls [.c '\'', .c '"'], plus (ncls [.c '\'', .c '"']),
          cls [.c '\'', .c '"']]], false⟩,
  -- /\bputs\b/
  ⟨cat [.wordB, lit "puts", .wordB], false⟩,
  -- /attr_accessor\s+:\w+/
  ⟨cat [lit "attr_accessor", plus ws, lit ":", plus wd], false⟩,
  -- /attr_reader\s+:\w+/
  ⟨cat [lit "attr_reader", plus ws, lit ":", plus wd], false⟩,
  -- /attr_writer\s+:\w+/
  ⟨cat [lit "attr_writer", plus ws, lit ":", plus wd], false⟩,
  -- /\bdo\s*\|\w+(,\s*\w+)*\|\s*$/
  ⟨cat [.wordB, lit "do", star ws, lit "|", plus wd, star (grp 1 (cat [lit ",", star ws, plus wd])),
      lit "|", star ws, .eol], false⟩,
  -- /\.rb$/
  ⟨cat [lit ".rb", .eol], false⟩,
  -- /#!.*ruby/
  ⟨cat [lit "#!", star .dot, lit "ruby"], false⟩,
  -- /\bbegin\b/
  ⟨cat [.wordB, lit "begin", .wordB], false⟩,
  -- /\brescue\b/
  ⟨cat [.wordB, lit "rescue", .wordB], false⟩,
  -- /\bensure\b/
  ⟨cat [.wordB, lit "ensure", .wordB], false⟩,
  -- /\braise\b/
  ⟨cat [.wordB, lit "raise", .wordB], false⟩,
  -- /:\w+\s*=>\s*\w+|:\w+\s*=>\s*\{/
  ⟨alts [
      cat [lit ":", plus wd, star ws, lit "=>", star ws, plus wd],
      cat [lit ":", plus wd, star ws, lit "=>", star ws, lit "\x7b"]], false⟩,
  -- /@\w+\s*=\s*\w+|@\w+\s*=\s*".*"|@\w+\s*=\s*'.*'/
  ⟨alts [
      cat [lit "@", plus wd, star ws, lit "=", star ws, plus wd],
      cat [lit "@", plus wd, star ws, lit "=", star ws, lit "\"", star .dot, lit "\""],
      cat [lit "@", plus wd, star ws, lit "=", star ws, lit "'", star .dot, lit "'"]], false⟩,
  -- /\$\w+\s*=\s*\w+/
  ⟨cat [lit "$", plus wd, star ws, lit "=", star ws, plus wd], false⟩,
  -- /\bmodule\b.*\bend\b/
  ⟨cat [.wordB, lit "module", .wordB, star .dot, .wordB, lit "end", .wordB], false⟩,
  -- /\bclass\b.*\bend\b/
  ⟨cat [.wordB, lit "class", .wordB, star .dot, .wordB, lit "end", .wordB], false⟩,
  -- /\|\w+\s*\|\s*->/
  ⟨cat [lit "|", plus wd, star ws, lit "|", star ws, lit "->"], false⟩,
  -- /\b(yield\s+\w*|block_given\?)\b/
  ⟨cat [.wordB, grp 1 (alts [cat [lit "yield", plus ws, star wd], lit "block_given?"]), .wordB],
      false⟩,
  -- /\b(self\.)\w+/
  ⟨cat [.wordB, grp 1 (lit "self."), plus wd], false⟩,
  -- /\b(include|extend)\s+\w+/
  ⟨cat [.wordB, grp 1 (alts [lit "include", lit "extend"]), plus ws, plus wd], false⟩,
  -- /\b(has_many|has_one|belongs_to)\s+:\w+/
  ⟨cat [.wordB, grp 1 (alts [lit "has_many", lit "has_one", lit "belongs_to"]), plus ws, lit ":",
      plus wd], false⟩,
  -- /#\s*.*$/
  ⟨cat [lit "#", star ws, star .dot, .eol], false⟩
]

/-- Signature patterns of Go (the entry of the table in detectCode). -/
def goPatterns : List Pat := [
  -- /\b(package|import|func|var|const|type|struct|interface|map|chan)\b/
  ⟨cat [.wordB, grp 1 (alts [lit "package", lit "import", lit "func", lit "var", lit "const",
      lit "type", lit "struct", lit "interface", lit "map", lit "chan"]), .wordB], false⟩,
  -- /fmt\./
  ⟨lit "fmt.", false⟩
]

/-- Signature patterns of Rust (the entry of the table in detectCode). -/
def rustPatterns : List Pat := [
  -- /\b(fn\s+main\s*\(\)|fn\s+\w+\s*\(.*\)\s*->\s*\w+)/
  ⟨cat [.wordB, grp 1 (alts [cat [lit "fn", plus ws, lit "main", star ws, lit "()"], cat [lit "fn",
      plus ws, plus wd, star ws, lit "(", star .dot, lit ")", star ws, lit "->", star ws,
      plus wd]])], false⟩,
  -- /\b(let\s+mut\s+\w+|let\s+\w+)/
  ⟨cat [.wordB, grp 1 (alts [cat [lit "let", plus ws, lit "mut", plus ws, plus wd], cat [lit "let",
      plus ws, plus wd]])], false⟩,
  -- /\b(println!|print!|panic!|assert!)/
  ⟨cat [.wordB, grp 1 (alts [lit "println!", lit "print!", lit "panic!", lit "assert!"])], false⟩,
  -- /\b(struct\s+\w+|enum\s+\w+|impl\s+\w+)/
  ⟨cat [.wordB, grp 1 (alts [cat [lit "struct", plus ws, plus wd], cat [lit "enum", plus ws,
      plus wd], cat [lit "impl", plus ws, plus wd]])], false⟩,
  -- /\b(pub\s+fn|pub\s+struct|pub\s+enum)/
  ⟨cat [.wordB, grp 1 (alts [cat [lit "pub", plus ws, lit "fn"], cat [lit "pub", plus ws,
      lit "struct"], cat [lit "pub", plus ws, lit "enum"]])], false⟩,
  -- /\b(use\s+std|use\s+crate)/
  ⟨cat [.wordB, grp 1 (alts [cat [lit "use", plus ws, lit "std"], cat [lit "use", plus ws,
      lit "crate"]])], false⟩,
  -- /\b(match\s+\w+\s*{)/
  ⟨cat [.wordB, grp 1 (cat [lit "match", plus ws, plus wd, star ws, lit "\x7b"])], false⟩,
  -- /\b(if\s+let\s+\w+)/
  ⟨cat [.wordB, grp 1 (cat [lit "if", plus ws, lit "let", plus ws, plus wd])], false⟩,
  -- /\.rs$/
  ⟨cat [lit ".rs", .eol], false⟩,
  -- /\/\/.*$/
  ⟨cat [lit "//", star .dot, .eol], false⟩,
  -- /\/\*[\s\S]*?\*\//
  ⟨cat [lit "/*", lazyStar (cls [.space, .nonspace]), lit "*/"], false⟩
]

/-- Signature patterns of C++ (the entry of the table in detectCode). -/
def cppPatterns : List Pat := [
  -- /#include\s*<[^>]+>|#include\s*"[^"]+"/
  ⟨alts [
      cat [lit "#include", star ws, lit "<", plus (ncls [.c '>']), lit ">"],
      cat [lit "#include", star ws, lit "\"", plus (ncls [.c '"']), lit "\""]], false⟩,
  -- /\b(std::|cout|cin|namespace)\b/
  ⟨cat [.wordB, grp 1 (alts [lit "std::", lit "cout", lit "cin", lit "namespace"]), .wordB], false⟩,
  -- /\b(using\s+namespace\s+\w+;)\b/
  ⟨cat [.wordB, grp 1 (cat [lit "using", plus ws, lit "namespace", plus ws, plus wd, lit ";"]),
      .wordB], false⟩,
  -- /\b(int|void|bool|char|float|double|long|short)\s+main\s*\(.*\)/
  ⟨cat [.wordB, grp 1 (alts [lit "int", lit "void", lit "bool", lit "char", lit "float",
      lit "double", lit "long", lit "short"]), plus ws, lit "main", star ws, lit "(", star .dot,
      lit ")"], false⟩,
  -- /\bvoid\s+setup\s*\(\s*\)/
  ⟨cat [.wordB, lit "void", plus ws, lit "setup", star ws, lit "(", star ws, lit ")"], false⟩,
  -- /\bvoid\s+loop\s*\(\s*\)/
  ⟨cat [.wordB, lit "void", plus ws, lit "loop", star ws, lit "(", star ws, lit ")"], false⟩,
  -- /\b(class|struct)\s+\w+\s*\{/
  ⟨cat [.wordB, grp 1 (alts [lit "class", lit "struct"]), plus ws, plus wd, star ws, lit "\x7b"],
      false⟩,
  -- /\b(public|private|protected):/
  ⟨cat [.wordB, grp 1 (alts [lit "public", lit "private", lit "protected"]), lit ":"], false⟩,
  -- /\b(std::cout|std::cin|std::endl)/
  ⟨cat [.wordB, grp 1 (alts [lit "std::cout", lit "std::cin", lit "std::endl"])], false⟩,
  -- /\.cpp$|\.ino$/
  ⟨alts [cat [lit ".cpp", .eol], cat [lit ".ino", .eol]], false⟩,
  -- /\b(int|void|bool|char|float|double|long|short)\s+\w+\s*\(.*\)\s*\{/
  ⟨cat [.wordB, grp 1 (alts [lit "int", lit "void", lit "bool", lit "char", lit "float",
      lit "double", lit "long", lit "short"]), plus ws, plus wd, star ws, lit "(", star .dot,
      lit ")", star ws, lit "\x7b"], false⟩,
  -- /\b\w+\s+\w+\s*\(/
  ⟨cat [.wordB, plus wd, plus ws, plus wd, star ws, lit "("], false⟩
]

/-- Signature patterns of Swift (the entry of the table in detectCode). -/
def swiftPatterns : List Pat := [
  -- /\b(func\s+\w+\s*\(.*\)\s*->\s*\w+|func\s+\w+\s*\(.*\))/
  ⟨cat [.wordB, grp 1 (alts [cat [lit "func", plus ws, plus wd, star ws, lit "(", star .dot,
      lit ")", star ws, lit "->", star ws, plus wd], cat [lit "func", plus ws, plus wd, star ws,
      lit "(", star .dot, lit ")"]])], false⟩,
  -- /\b(let\s+\w+|var\s+\w+)/
  ⟨cat [.wordB, grp 1 (alts [cat [lit "let", plus ws, plus wd], cat [lit "var", plus ws,
      plus wd]])], false⟩,
  -- /\b(struct\s+\w+|class\s+\w+|enum\s+\w+)/
  ⟨cat [.wordB, grp 1 (alts [cat [lit "struct", plus ws, plus wd], cat [lit "class", plus ws,
      plus wd], cat [lit "enum", plus ws, plus wd]])], false⟩,
  -- /\b(import\s+\w+)/
  ⟨cat [.wordB, grp 1 (cat [lit "import", plus ws, plus wd])], false⟩,
  -- /\b(if\s+let\s+\w+|guard\s+let\s+\w+)/
  ⟨cat [.wordB, grp 1 (alts [cat [lit "if", plus ws, lit "let", plus ws, plus wd], cat [lit "guard",
      plus ws, lit "let", plus ws, plus wd]])], false⟩,
  -- /\b(println\(|print\()/
  ⟨cat [.wordB, grp 1 (alts [lit "println(", lit "print("])], false⟩,
  -- /\.swift$/
  ⟨cat [lit ".swift", .eol], false⟩,
  -- /\/\/.*$/
  ⟨cat [lit "//", star .dot, .eol], false⟩,
  -- /\/\*[\s\S]*?\*\//
  ⟨cat [lit "/*", lazyStar (cls [.space, .nonspace]), lit "*/"], false⟩
]

/-- Signature patterns of Kotlin (the entry of the table in detectCode). -/
def kotlinPatterns : List Pat := [
  -- /\b(fun\s+main\s*\(.*\)|fun\s+\w+\s*\(.*\):\s*\w+)/
  ⟨cat [.wordB, grp 1 (alts [cat [lit "fun", plus ws, lit "main", star ws, lit "(", star .dot,
      lit ")"], cat [lit "fun", plus ws, plus wd, star ws, lit "(", star .dot, lit "):", star ws,
      plus wd]])], false⟩,
  -- /\b(val\s+\w+|var\s+\w+)/
  ⟨cat [.wordB, grp 1 (alts [cat [lit "val", plus ws, plus wd], cat [lit "var", plus ws,
      plus wd]])], false⟩,
  -- /\b(class\s+\w+|interface\s+\w+|object\s+\w+)/
  ⟨cat [.wordB, grp 1 (alts [cat [lit "class", plus ws, plus wd], cat [lit "interface", plus ws,
      plus wd], cat [lit "object", plus ws, plus wd]])], false⟩,
  -- /\b(import\s+kotlin|import\s+java)/
  ⟨cat [.wordB, grp 1 (alts [cat [lit "import", plus ws, lit "kotlin"], cat [lit "import", plus ws,
      lit "java"]])], false⟩,
  -- /\b(println\(|print\()/
  ⟨cat [.wordB, grp 1 (alts [lit "println(", lit "print("])], false⟩,
  -- /\.kt$/
  ⟨cat [lit ".kt", .eol], false⟩,
  -- /\/\/.*$/
  ⟨cat [lit "//", star .dot, .eol], false⟩,
  -- /\/\*[\s\S]*?\*\//
  ⟨cat [lit "/*", lazyStar (cls [.space, .nonspace]), lit "*/"], false⟩
]

/-- The table of detectCode, in the order of its keys. -/
def patterns : List (String × List Pat) := [
  ("JavaScript", javaScriptPatterns),
  ("TypeScript", typeScriptPatterns),
  ("Python", pythonPatterns),
  ("Java", javaPatterns),
  ("C#", cSharpPatterns),
  ("PHP", pHPPatterns),
  ("HTML", hTMLPatterns),
  ("CSS", cSSPatterns),
  ("SQL", sQLPatterns),
  ("Bash", bashPatterns),
  ("Ruby", rubyPatterns),
  ("Go", goPatterns),
  ("Rust", rustPatterns),
  ("C++", cppPatterns),
  ("Swift", swiftPatterns),
  ("Kotlin", kotlinPatterns)
]

-- /^\s{2,}/m
/-- The pattern of the gate of detectCode and of resolveConflicts (flag m). -/
def gateIndent : Re :=
  cat [.bol, atLeast 2 ws]

-- /(https?:\/\/[^\s]+\.(pdf|doc|docx|xls|xlsx|ppt|pptx|zip|rar|7z|tar|gz|txt|csv|json|xml|jpg|jpeg|png|gif|svg|webp|mp4|avi|mov|mp3|wav|ogg|stl|usdz))/i
/-- The pattern urlPattern of detectFile (flag i). -/
def fileUrlPattern : Re :=
  grp 1 (cat [lit "http", opt (lit "s"), lit "://", plus (ncls [.space]), lit ".",
      grp 2 (alts [lit "pdf", lit "doc", lit "docx", lit "xls", lit "xlsx", lit "ppt", lit "pptx",
      lit "zip", lit "rar", lit "7z", lit "tar", lit "gz", lit "txt", lit "csv", lit "json",
      lit "xml", lit "jpg", lit "jpeg", lit "png", lit "gif", lit "svg", lit "webp", lit "mp4",
      lit "avi", lit "mov", lit "mp3", lit "wav", lit "ogg", lit "stl", lit "usdz"])])

-- /^data:([a-zA-Z0-9]+\/[a-zA-Z0-9-.+]+);base64,([A-Za-z0-9+/=]{20,})/
/-- The pattern base64Pattern of detectFile. -/
def base64Pattern : Re :=
  cat [.bol, lit "data:", grp 1 (cat [plus (cls [.r 'a' 'z', .r 'A' 'Z', .r '0' '9']), lit "/",
      plus (cls [.r 'a' 'z', .r 'A' 'Z', .r '0' '9', .c '-', .c '.', .c '+'])]), lit ";base64,",
      grp 2 (atLeast 20 (cls [.r 'A' 'Z', .r 'a' 'z', .r '0' '9', .c '+', .c '/', .c '=']))]

-- /(?:(?:"|')(https?:\/\/[^\s"'>]+)(?:"|')|(https?:\/\/[^\s"'>]+))/gi
/-- The pattern urlPattern of detectURL (flags g and i). -/
def urlPattern : Re :=
  alts [cat [alts [lit "\"", lit "'"], grp 1 (cat [lit "http", opt (lit "s"), lit "://",
      plus (ncls [.space, .c '"', .c '\'', .c '>'])]), alts [lit "\"", lit "'"]],
      grp 2 (cat [lit "http", opt (lit "s"), lit "://", plus (ncls [.space, .c '"', .c '\'',
      .c '>'])])]

-- /^("|')(https?:\/\/[^\s"'>]+)("|')$/
/-- The pattern of quotedMatch in detectURL. -/
def quotedPattern : Re :=
  cat [.bol, grp 1 (alts [lit "\"", lit "'"]), grp 2 (cat [lit "http", opt (lit "s"), lit "://",
      plus (ncls [.space, .c '"', .c '\'', .c '>'])]), grp 3 (alts [lit "\"", lit "'"]), .eol]

-- /[\w\.=]/
/-- The test on beforeChar in detectURL. -/
def beforeCharPattern : Re :=
  cls [.word, .c '.', .c '=']

-- /\b(function|const|let|var|class|public|private|protected)\b/
/-- The first context test of detectURL. -/
def contextKeywords : Re :=
  cat [.wordB, grp 1 (alts [lit "function", lit "const", lit "let", lit "var", lit "class",
      lit "public", lit "private", lit "protected"]), .wordB]

-- /\b(import|require|include)\b/
/-- The second context test of detectURL. -/
def contextImports : Re :=
  cat [.wordB, grp 1 (alts [lit "import", lit "require", lit "include"]), .wordB]

-- /[{}();]/
/-- The third context test of detectURL. -/
def contextPunctuation : Re :=
  cls [.c '{', .c '}', .c '(', .c ')', .c ';']

-- /#region|#endregion|@\w+\s+=[^=]|\.cs$|\.csproj$|\.NET\s+Core|\.NET\s+Framework|Console\.(Write|WriteLine)|Debug\.(Write|WriteLine)|using\s+System|struct\s+\w+\s*{|;\s*\/\/|\/\*[\s\S]*?\*\/|public\s+class|internal\s+class|namespace\s+[A-Z]\w+/
/-- The lang1Specific pattern of the branch csharp / java of resolveConflicts. -/
def specific_csharp_java_1 : Re :=
  alts [
    lit "#region", lit "#endregion", cat [lit "@", plus wd, plus ws, lit "=", ncls [.c '=']],
    cat [lit ".cs", .eol], cat [lit ".csproj", .eol], cat [lit ".NET", plus ws, lit "Core"],
    cat [lit ".NET", plus ws, lit "Framework"],
    cat [lit "Console.", grp 1 (alts [lit "Write", lit "WriteLine"])],
    cat [lit "Debug.", grp 2 (alts [lit "Write", lit "WriteLine"])],
    cat [lit "using", plus ws, lit "System"],
    cat [lit "struct", plus ws, plus wd, star ws, lit "\x7b"],
    cat [lit ";", star ws, lit "//"],
    cat [lit "/*", lazyStar (cls [.space, .nonspace]), lit "*/"],
    cat [lit "public", plus ws, lit "class"], cat [lit "internal", plus ws, lit "class"],
    cat [lit "namespace", plus ws, cls [.r 'A' 'Z'], plus wd]]

-- /@Override|@Deprecated|@SuppressWarnings|\.java$|System\.(out|err)\.(print|println)|import\s+java\.|package\s+[a-z]|public\s+static\s+void\s+main\s*\(\s*String\[\]\s*\w+\s*\)/
/-- The lang2Specific pattern of the branch csharp / java of resolveConflicts. -/
def specific_csharp_java_2 : Re :=
  alts [
    lit "@Override", lit "@Deprecated", lit "@SuppressWarnings", cat [lit ".java", .eol],
    cat [lit "System.", grp 1 (alts [lit "out", lit "err"]), lit ".", grp 2 (alts [lit "print",
        lit "println"])],
    cat [lit "import", plus ws, lit "java."], cat [lit "package", plus ws, cls [.r 'a' 'z']],
    cat [lit "public", plus ws, lit "static", plus ws, lit "void", plus ws, lit "main", star ws,
        lit "(", star ws, lit "String[]", star ws, plus wd, star ws, lit ")"]]

-- /#region|#endregion|@\w+\s+=[^=]|\.cs$|\.csproj$|\.NET\s+Core|\.NET\s+Framework|Console\.(Write|WriteLine)|Debug\.(Write|WriteLine)|using\s+System|struct\s+\w+\s*{|;\s*\/\/|\/\*[\s\S]*?\*\/|public\s+class|internal\s+class|namespace\s+[A-Z]\w+/
/-- The lang1Specific pattern of the branch csharp / ruby of resolveConflicts. -/
def specific_csharp_ruby_1 : Re :=
  alts [
    lit "#region", lit "#endregion", cat [lit "@", plus wd, plus ws, lit "=", ncls [.c '=']],
    cat [lit ".cs", .eol], cat [lit ".csproj", .eol], cat [lit ".NET", plus ws, lit "Core"],
    cat [lit ".NET", plus ws, lit "Framework"],
    cat [lit "Console.", grp 1 (alts [lit "Write", lit "WriteLine"])],
    cat [lit "Debug.", grp 2 (alts [lit "Write", lit "WriteLine"])],
    cat [lit "using", plus ws, lit "System"],
    cat [lit "struct", plus ws, plus wd, star ws, lit "\x7b"],
    cat [lit ";", star ws, lit "//"],
    cat [lit "/*", lazyStar (cls [.space, .nonspace]), lit "*/"],
    cat [lit "public", plus ws, lit "class"], cat [lit "internal", plus ws, lit "class"],
    cat [lit "namespace", plus ws, cls [.r 'A' 'Z'], plus wd]]

-- /\b(def\s+\w+|end\b|class\s+\w+|module\s+\w+|require\s+['"][^'"]+['"]|puts\b|attr_accessor\s+:\w+|attr_reader\s+:\w+)\b|\bdo\s*\|\w+(,\s*\w+)*\|\s*$|\.rb$|#!.*ruby|\b(begin|rescue|ensure|raise)\b|:\w+\s*=>\s*|@\w+\s+=[^=]|\b(instance_variable_get|instance_variable_set)\b/
/-- The lang2Specific pattern of the branch csharp / ruby of resolveConflicts. -/
def specific_csharp_ruby_2 : Re :=
  alts [
    cat [.wordB, grp 1 (alts [cat [lit "def", plus ws, plus wd], cat [lit "end", .wordB],
        cat [lit "class", plus ws, plus wd], cat [lit "module", plus ws, plus wd],
        cat [lit "require", plus ws, cls [.c '\'', .c '"'], plus (ncls [.c '\'', .c '"']),
        cls [.c '\'', .c '"']], cat [lit "puts", .wordB], cat [lit "attr_accessor", plus ws,
        lit ":", plus wd], cat [lit "attr_reader", plus ws, lit ":", plus wd]]), .wordB],
    cat [.wordB, lit "do", star ws, lit "|", plus wd, star (grp 2 (cat [lit ",", star ws,
        plus wd])), lit "|", star ws, .eol],
    cat [lit ".rb", .eol], cat [lit "#!", star .dot, lit "ruby"],
    cat [.wordB, grp 3 (alts [lit "begin", lit "rescue", lit "ensure", lit "raise"]), .wordB],
    cat [lit ":", plus wd, star ws, lit "=>", star ws],
    cat [lit "@", plus wd, plus ws, lit "=", ncls [.c '=']],
    cat [.wordB, grp 4 (alts [lit "instance_variable_get", lit "instance_variable_set"]), .wordB]]

-- /@Override|@Deprecated|@SuppressWarnings|\.java$|System\.(out|err)\.(print|println)|import\s+java\.|package\s+[a-z]|public\s+static\s+void\s+main\s*\(\s*String\[\]\s*\w+\s*\)/
/-- The lang1Specific pattern of the branch java / ruby of resolveConflicts. -/
def specific_java_ruby_1 : Re :=
  alts [
    lit "@Override", lit "@Deprecated", lit "@SuppressWarnings", cat [lit ".java", .eol],
    cat [lit "System.", grp 1 (alts [lit "out", lit "err"]), lit ".", grp 2 (alts [lit "print",
        lit "println"])],
    cat [lit "import", plus ws, lit "java."], cat [lit "package", plus ws, cls [.r 'a' 'z']],
    cat [lit "public", plus ws, lit "static", plus ws, lit "void", plus ws, lit "main", star ws,
        lit "(", star ws, lit "String[]", star ws, plus wd, star ws, lit ")"]]

-- /\b(def\s+\w+|end\b|class\s+\w+|module\s+\w+|require\s+['"][^'"]+['"]|puts\b|attr_accessor\s+:\w+|attr_reader\s+:\w+)\b|\bdo\s*\|\w+(,\s*\w+)*\|\s*$|\.rb$|#!.*ruby|\b(begin|rescue|ensure|raise)\b|:\w+\s*=>\s*|@\w+\s+=[^=]|\b(instance_variable_get|instance_variable_set)\b/
/-- The lang2Specific pattern of the branch java / ruby of resolveConflicts. -/
def specific_java_ruby_2 : Re :=
  alts [
    cat [.wordB, grp 1 (alts [cat [lit "def", plus ws, plus wd], cat [lit "end", .wordB],
        cat [lit "class", plus ws, plus wd], cat [lit "module", plus ws, plus wd],
        cat [lit "require", plus ws, cls [.c '\'', .c '"'], plus (ncls [.c '\'', .c '"']),
        cls [.c '\'', .c '"']], cat [lit "puts", .wordB], cat [lit "attr_accessor", plus ws,
        lit ":", plus wd], cat [lit "attr_reader", plus ws, lit ":", plus wd]]), .wordB],
    cat [.wordB, lit "do", star ws, lit "|", plus wd, star (grp 2 (cat [lit ",", star ws,
        plus wd])), lit "|", star ws, .eol],
    cat [lit ".rb", .eol], cat [lit "#!", star .dot, lit "ruby"],
    cat [.wordB, grp 3 (alts [lit "begin", lit "rescue", lit "ensure", lit "raise"]), .wordB],
    cat [lit ":", plus wd, star ws, lit "=>", star ws],
    cat [lit "@", plus wd, plus ws, lit "=", ncls [.c '=']],
    cat [.wordB, grp 4 (alts [lit "instance_variable_get", lit "instance_variable_set"]), .wordB]]

-- /\b(def\s+\w+\s*\(\s*\w*\s*\)|class\s+\w+\s*[:,]|import\s+\w+|from\s+\w+\s+import|if\s+__name__\s*==\s*['"]__main__['"]|print\s*\(|range\s*\(|len\s*\(|str\s*\(|int\s*\(|float\s*\(|list\s*\(|dict\s*\(|tuple\s*\(|set\s*\(|lambda\s*:|self\.|__init__\s*\(|__str__\s*\(|__repr__\s*\(|@staticmethod|@classmethod|@property|with\s+open\s*\(|try\s*:|except\s+:|finally\s*:|raise\s+\w+|assert\s+\w+|yield\s+\w+|async\s+def|await\s+\w+|__name__\s*==\s*['"]__main__['"]|@\w+\s*\(|\[\s*\]\s*=|\.py$)\b|:\s*=\s*|\.\.\.|nonlocal\s+\w+|global\s+\w+|f['"].*['"]/
/-- The lang1Specific pattern of the branch python / ruby of resolveConflicts. -/
def specific_python_ruby_1 : Re :=
  alts [
    cat [.wordB, grp 1 (alts [cat [lit "def", plus ws, plus wd, star ws, lit "(", star ws, star wd,
        star ws, lit ")"], cat [lit "class", plus ws, plus wd, star ws, cls [.c ':', .c ',']],
        cat [lit "import", plus ws, plus wd], cat [lit "from", plus ws, plus wd, plus ws,
        lit "import"], cat [lit "if", plus ws, lit "__name__", star ws, lit "==", star ws,
        cls [.c '\'', .c '"'], lit "__main__", cls [.c '\'', .c '"']], cat [lit "print", star ws,
        lit "("], cat [lit "range", star ws, lit "("], cat [lit "len", star ws, lit "("],
        cat [lit "str", star ws, lit "("], cat [lit "int", star ws, lit "("], cat [lit "float",
        star ws, lit "("], cat [lit "list", star ws, lit "("], cat [lit "dict", star ws, lit "("],
        cat [lit "tuple", star ws, lit "("], cat [lit "set", star ws, lit "("], cat [lit "lambda",
        star ws, lit ":"], lit "self.", cat [lit "__init__", star ws, lit "("], cat [lit "__str__",
        star ws, lit "("], cat [lit "__repr__", star ws, lit "("], lit "@staticmethod",
        lit "@classmethod", lit "@property", cat [lit "with", plus ws, lit "open", star ws,
        lit "("], cat [lit "try", star ws, lit ":"], cat [lit "except", plus ws, lit ":"],
        cat [lit "finally", star ws, lit ":"], cat [lit "raise", plus ws, plus wd],
        cat [lit "assert", plus ws, plus wd], cat [lit "yield", plus ws, plus wd], cat [lit "async",
        plus ws, lit "def"], cat [lit "await", plus ws, plus wd], cat [lit "__name__", star ws,
        lit "==", star ws, cls [.c '\'', .c '"'], lit "__main__", cls [.c '\'', .c '"']],
        cat [lit "@", plus wd, star ws, lit "("], cat [lit "[", star ws, lit "]", star ws, lit "="],
        cat [lit ".py", .eol]]), .wordB],
    cat [lit ":", star ws, lit "=", star ws], lit "...",
    cat [lit "nonlocal", plus ws, plus wd], cat [lit "global", plus ws, plus wd],
    cat [lit "f", cls [.c '\'', .c '"'], star .dot, cls [.c '\'', .c '"']]]

-- /\b(def\s+\w+\s*\|[^|]*\|)\b|\bend\b|class\s+\w+\s*$|module\s+\w+|require\s+['"][^'"]+['"]|puts\b|attr_accessor\s+:\w+|attr_reader\s+:\w+|attr_writer\s+:\w+|\bdo\s*\|\w+(,\s*\w+)*\|\s*$|\.rb$|#!.*ruby|\b(begin|rescue|ensure|raise)\b|:\w+\s*=>\s*|@\w+\s+=[^=]|\b(instance_variable_get|instance_variable_set|define_method)\b|\$\w+\s*=|\b(yield\s+\w*|block_given\?)\b|\.new\s*\(|\b(module\s+\w+|attr_accessor|attr_reader|attr_writer)\b/
/-- The lang2Specific pattern of the branch python / ruby of resolveConflicts. -/
def specific_python_ruby_2 : Re :=
  alts [
    cat [.wordB, grp 1 (cat [lit "def", plus ws, plus wd, star ws, lit "|", star (ncls [.c '|']),
        lit "|"]), .wordB],
    cat [.wordB, lit "end", .wordB], cat [lit "class", plus ws, plus wd, star ws, .eol],
    cat [lit "module", plus ws, plus wd],
    cat [lit "require", plus ws, cls [.c '\'', .c '"'], plus (ncls [.c '\'', .c '"']), cls [.c '\'',
        .c '"']],
    cat [lit "puts", .wordB], cat [lit "attr_accessor", plus ws, lit ":", plus wd],
    cat [lit "attr_reader", plus ws, lit ":", plus wd],
    cat [lit "attr_writer", plus ws, lit ":", plus wd],
    cat [.wordB, lit "do", star ws, lit "|", plus wd, star (grp 2 (cat [lit ",", star ws,
        plus wd])), lit "|", star ws, .eol],
    cat [lit ".rb", .eol], cat [lit "#!", star .dot, lit "ruby"],
    cat [.wordB, grp 3 (alts [lit "begin", lit "rescue", lit "ensure", lit "raise"]), .wordB],
    cat [lit ":", plus wd, star ws, lit "=>", star ws],
    cat [lit "@", plus wd, plus ws, lit "=", ncls [.c '=']],
    cat [.wordB, grp 4 (alts [lit "instance_variable_get", lit "instance_variable_set",
        lit "define_method"]), .wordB],
    cat [lit "$", plus wd, star ws, lit "="],
    cat [.wordB, grp 5 (alts [cat [lit "yield", plus ws, star wd], lit "block_given?"]), .wordB],
    cat [lit ".new", star ws, lit "("],
    cat [.wordB, grp 6 (alts [cat [lit "module", plus ws, plus wd], lit "attr_accessor",
        lit "attr_reader", lit "attr_writer"]), .wordB]]

-- /<\?php|<\?=|\$[a-zA-Z_][a-zA-Z0-9_]+\s*=|\becho\b|\bprint\b|\bprint_r\b|\bvar_dump\b|\bfunction\s+\w+\s*\(|\bclass\s+\w+|\bpublic\s+function|\bprivate\s+function|\bprotected\s+function|->\w+|::\w+|\bnamespace\s+|\buse\s+.*\\|\brequire(_once)?\s*[\("']|\binclude(_once)?\s*[\("'](?![<"])|\$this->|\bnew\s+\w+\s*\(|\bextends\s+\w+|\bimplements\s+\w+|\barray\s*\(|\b(foreach|endif|endwhile|endfor|elseif)\b|=>|\?>/
/-- The lang1Specific pattern of the branch php / ruby of resolveConflicts. -/
def specific_php_ruby_1 : Re :=
  alts [
    lit "<?php", lit "<?=",
    cat [lit "$", cls [.r 'a' 'z', .r 'A' 'Z', .c '_'], plus (cls [.r 'a' 'z', .r 'A' 'Z',
        .r '0' '9', .c '_']), star ws, lit "="],
    cat [.wordB, lit "echo", .wordB], cat [.wordB, lit "print", .wordB],
    cat [.wordB, lit "print_r", .wordB], cat [.wordB, lit "var_dump", .wordB],
    cat [.wordB, lit "function", plus ws, plus wd, star ws, lit "("],
    cat [.wordB, lit "class", plus ws, plus wd],
    cat [.wordB, lit "public", plus ws, lit "function"],
    cat [.wordB, lit "private", plus ws, lit "function"],
    cat [.wordB, lit "protected", plus ws, lit "function"], cat [lit "->", plus wd],
    cat [lit "::", plus wd], cat [.wordB, lit "namespace", plus ws],
    cat [.wordB, lit "use", plus ws, star .dot, lit "\\"],
    cat [.wordB, lit "require", opt (grp 1 (lit "_once")), star ws, cls [.c '(', .c '"', .c '\'']],
    cat [.wordB, lit "include", opt (grp 2 (lit "_once")), star ws, cls [.c '(', .c '"', .c '\''],
        nla (cls [.c '<', .c '"'])],
    lit "$this->", cat [.wordB, lit "new", plus ws, plus wd, star ws, lit "("],
    cat [.wordB, lit "extends", plus ws, plus wd],
    cat [.wordB, lit "implements", plus ws, plus wd],
    cat [.wordB, lit "array", star ws, lit "("],
    cat [.wordB, grp 3 (alts [lit "foreach", lit "endif", lit "endwhile", lit "endfor",
        lit "elseif"]), .wordB],
    lit "=>", lit "?>"]

-- /\b(def\s+\w+\s*\|[^|]*\|)\b|\bend\b|class\s+\w+\s*$|module\s+\w+|require\s+['"][^'"]+['['"]|puts\b|attr_accessor\s+:\w+|attr_reader\s+:\w+|attr_writer\s+:\w+|\bdo\s*\|\w+(,\s*\w+)*\|\s*$|\.rb$|#!.*ruby|\b(begin|rescue|ensure|raise)\b|:\w+\s*=>\s*|@\w+\s+=[^=]|\b(instance_variable_get|instance_variable_set|define_method)\b|\$\w+\s*=|\b(yield\s+\w*|block_given\?)\b|\.new\s*\(|\b(module\s+\w+|attr_accessor|attr_reader|attr_writer)\b/
/-- The lang2Specific pattern of the branch php / ruby of resolveConflicts. -/
def specific_php_ruby_2 : Re :=
  alts [
    cat [.wordB, grp 1 (cat [lit "def", plus ws, plus wd, star ws, lit "|", star (ncls [.c '|']),
        lit "|"]), .wordB],
    cat [.wordB, lit "end", .wordB], cat [lit "class", plus ws, plus wd, star ws, .eol],
    cat [lit "module", plus ws, plus wd],
    cat [lit "require", plus ws, cls [.c '\'', .c '"'], plus (ncls [.c '\'', .c '"']), cls [.c '\'',
        .c '[', .c '\'', .c '"']],
    cat [lit "puts", .wordB], cat [lit "attr_accessor", plus ws, lit ":", plus wd],
    cat [lit "attr_reader", plus ws, lit ":", plus wd],
    cat [lit "attr_writer", plus ws, lit ":", plus wd],
    cat [.wordB, lit "do", star ws, lit "|", plus wd, star (grp 2 (cat [lit ",", star ws,
        plus wd])), lit "|", star ws, .eol],
    cat [lit ".rb", .eol], cat [lit "#!", star .dot, lit "ruby"],
    cat [.wordB, grp 3 (alts [lit "begin", lit "rescue", lit "ensure", lit "raise"]), .wordB],
    cat [lit ":", plus wd, star ws, lit "=>", star ws],
    cat [lit "@", plus wd, plus ws, lit "=", ncls [.c '=']],
    cat [.wordB, grp 4 (alts [lit "instance_variable_get", lit "instance_variable_set",
        lit "define_method"]), .wordB],
    cat [lit "$", plus wd, star ws, lit "="],
    cat [.wordB, grp 5 (alts [cat [lit "yield", plus ws, star wd], lit "block_given?"]), .wordB],
    cat [lit ".new", star ws, lit "("],
    cat [.wordB, grp 6 (alts [cat [lit "module", plus ws, plus wd], lit "attr_accessor",
        lit "attr_reader", lit "attr_writer"]), .wordB]]

-- /@Override|@Deprecated|@SuppressWarnings|\.java$|System\.(out|err)\.(print|println)|import\s+java\.|package\s+[a-z]|public\s+static\s+void\s+main\s*\(\s*String\[\]\s*\w+\s*\)|String\s+\w+\s*=|System\.(out|err)\.(print|println)|throws\s+\w+Exception|new\s+\w+Exception\(|Exception\s+\w+\s*=|final\s+(class|void|int|String|boolean|double|float|long|short|byte|char)|implements\s+\w+|throws\s+\w+Exception/
/-- The lang1Specific pattern of the branch java / php of resolveConflicts. -/
def specific_java_php_1 : Re :=
  alts [
    lit "@Override", lit "@Deprecated", lit "@SuppressWarnings", cat [lit ".java", .eol],
    cat [lit "System.", grp 1 (alts [lit "out", lit "err"]), lit ".", grp 2 (alts [lit "print",
        lit "println"])],
    cat [lit "import", plus ws, lit "java."], cat [lit "package", plus ws, cls [.r 'a' 'z']],
    cat [lit "public", plus ws, lit "static", plus ws, lit "void", plus ws, lit "main", star ws,
        lit "(", star ws, lit "String[]", star ws, plus wd, star ws, lit ")"],
    cat [lit "String", plus ws, plus wd, star ws, lit "="],
    cat [lit "System.", grp 3 (alts [lit "out", lit "err"]), lit ".", grp 4 (alts [lit "print",
        lit "println"])],
    cat [lit "throws", plus ws, plus wd, lit "Exception"],
    cat [lit "new", plus ws, plus wd, lit "Exception("],
    cat [lit "Exception", plus ws, plus wd, star ws, lit "="],
    cat [lit "final", plus ws, grp 5 (alts [lit "class", lit "void", lit "int", lit "String",
        lit "boolean", lit "double", lit "float", lit "long", lit "short", lit "byte",
        lit "char"])],
    cat [lit "implements", plus ws, plus wd],
    cat [lit "throws", plus ws, plus wd, lit "Exception"]]

-- /<\?php|<\?=|\$[a-zA-Z_][a-zA-Z0-9_]+\s*=|\becho\b|\bprint\b|\bprint_r\b|\bvar_dump\b|\bfunction\s+\w+\s*\(|\bclass\s+\w+|\bpublic\s+function|\bprivate\s+function|\bprotected\s+function|->\w+|::\w+|\bnamespace\s+|\buse\s+.*\\|\brequire(_once)?\s*[\("']|\binclude(_once)?\s*[\("'](?![<"])|\$this->|\bnew\s+\w+\s*\(|\bextends\s+\w+|\bimplements\s+\w+|\barray\s*\(|\b(foreach|endif|endwhile|endfor|elseif)\b|=>|\?>|\$\w+\[|\$\w+\s*\.\=|\$\w+\+\+|\$\w+\-\-|\$\w+\s*\+\=|\$\w+\s*\-\=|\bisset\(|empty\(|unset\(|mysql_|mysqli_|PDO|\$_(GET|POST|SESSION|COOKIE|SERVER|REQUEST|FILES)|define\(|defined\(|__FILE__|__LINE__|__DIR__|__FUNCTION__|__CLASS__|__TRAIT__|__METHOD__|__NAMESPACE__/
/-- The lang2Specific pattern of the branch java / php of resolveConflicts. -/
def specific_java_php_2 : Re :=
  alts [
    lit "<?php", lit "<?=",
    cat [lit "$", cls [.r 'a' 'z', .r 'A' 'Z', .c '_'], plus (cls [.r 'a' 'z', .r 'A' 'Z',
        .r '0' '9', .c '_']), star ws, lit "="],
    cat [.wordB, lit "echo", .wordB], cat [.wordB, lit "print", .wordB],
    cat [.wordB, lit "print_r", .wordB], cat [.wordB, lit "var_dump", .wordB],
    cat [.wordB, lit "function", plus ws, plus wd, star ws, lit "("],
    cat [.wordB, lit "class", plus ws, plus wd],
    cat [.wordB, lit "public", plus ws, lit "function"],
    cat [.wordB, lit "private", plus ws, lit "function"],
    cat [.wordB, lit "protected", plus ws, lit "function"], cat [lit "->", plus wd],
    cat [lit "::", plus wd], cat [.wordB, lit "namespace", plus ws],
    cat [.wordB, lit "use", plus ws, star .dot, lit "\\"],
    cat [.wordB, lit "require", opt (grp 1 (lit "_once")), star ws, cls [.c '(', .c '"', .c '\'']],
    cat [.wordB, lit "include", opt (grp 2 (lit "_once")), star ws, cls [.c '(', .c '"', .c '\''],
        nla (cls [.c '<', .c '"'])],
    lit "$this->", cat [.wordB, lit "new", plus ws, plus wd, star ws, lit "("],
    cat [.wordB, lit "extends", plus ws, plus wd],
    cat [.wordB, lit "implements", plus ws, plus wd],
    cat [.wordB, lit "array", star ws, lit "("],
    cat [.wordB, grp 3 (alts [lit "foreach", lit "endif", lit "endwhile", lit "endfor",
        lit "elseif"]), .wordB],
    lit "=>", lit "?>", cat [lit "$", plus wd, lit "["],
    cat [lit "$", plus wd, star ws, lit ".="], cat [lit "$", plus wd, lit "++"],
    cat [lit "$", plus wd, lit "--"], cat [lit "$", plus wd, star ws, lit "+="],
    cat [lit "$", plus wd, star ws, lit "-="], cat [.wordB, lit "isset("], lit "empty(",
    lit "unset(", lit "mysql_", lit "mysqli_", lit "PDO",
    cat [lit "$_", grp 4 (alts [lit "GET", lit "POST", lit "SESSION", lit "COOKIE", lit "SERVER",
        lit "REQUEST", lit "FILES"])],
    lit "define(", lit "defined(", lit "__FILE__", lit "__LINE__", lit "__DIR__",
    lit "__FUNCTION__", lit "__CLASS__", lit "__TRAIT__", lit "__METHOD__",
    lit "__NAMESPACE__"]

-- /#region|#endregion|@\w+\s+=[^=]|\.cs$|\.csproj$|\.NET\s+Core|\.NET\s+Framework|Console\.(Write|WriteLine)|Debug\.(Write|WriteLine)|using\s+System|struct\s+\w+\s*{|;\s*\/\/|\/\*[\s\S]*?\*\/|public\s+class|internal\s+class|namespace\s+[A-Z]\w+|string\s+\w+\s*=|var\s+\w+\s*=|\.cs$|\.csproj$|List<string>|Dictionary<string,|async\s+(Task|void)\s+\w+\s*\(|override\s+|:\s*\w+\s*\{|int\s+\w+\s*=|bool\s+\w+\s*=|double\s+\w+\s*=|float\s+\w+\s*=|char\s+\w+\s*=|decimal\s+\w+\s*=|long\s+\w+\s*=|short\s+\w+\s*=|byte\s+\w+\s*=|uint\s+\w+\s*=|ulong\s+\w+\s*=|ushort\s+\w+\s*=|sbyte\s+\w+\s*=|enum\s+\w+|interface\s+\w+|abstract\s+class|sealed\s+class|static\s+class|readonly\s+\w+|const\s+\w+\s*=|ref\s+\w+|out\s+\w+|in\s+\w+|params\s+\w+|base\.|this\.|new\s+\w+\(|base\(|typeof\s*\(|sizeof\s*\(|nameof\s*\(|default\s*\(|checked\s*\{|unchecked\s*\{|lock\s*\(|using\s*\(|fixed\s*\(|stackalloc\s*|unsafe\s*|fixed\s*|volatile\s+|event\s+|delegate\s+|operator\s+|implicit\s+|explicit\s+|get\s*{|set\s*{|add\s*{|remove\s*{|value\s*=|yield\s+return|yield\s+break|partial\s+class|partial\s+struct|partial\s+interface|where\s+\w+\s*:|new\s*\(\)|\.ctor\s*\(|\.cctor\s*\(|\[\w+\]\s*\{|\]\s*\{|\]\s*:\s*\w+/
/-- The lang1Specific pattern of the branch csharp / php of resolveConflicts. -/
def specific_csharp_php_1 : Re :=
  alts [
    lit "#region", lit "#endregion", cat [lit "@", plus wd, plus ws, lit "=", ncls [.c '=']],
    cat [lit ".cs", .eol], cat [lit ".csproj", .eol], cat [lit ".NET", plus ws, lit "Core"],
    cat [lit ".NET", plus ws, lit "Framework"],
    cat [lit "Console.", grp 1 (alts [lit "Write", lit "WriteLine"])],
    cat [lit "Debug.", grp 2 (alts [lit "Write", lit "WriteLine"])],
    cat [lit "using", plus ws, lit "System"],
    cat [lit "struct", plus ws, plus wd, star ws, lit "\x7b"],
    cat [lit ";", star ws, lit "//"],
    cat [lit "/*", lazyStar (cls [.space, .nonspace]), lit "*/"],
    cat [lit "public", plus ws, lit "class"], cat [lit "internal", plus ws, lit "class"],
    cat [lit "namespace", plus ws, cls [.r 'A' 'Z'], plus wd],
    cat [lit "string", plus ws, plus wd, star ws, lit "="],
    cat [lit "var", plus ws, plus wd, star ws, lit "="], cat [lit ".cs", .eol],
    cat [lit ".csproj", .eol], lit "List<string>", lit "Dictionary<string,",
    cat [lit "async", plus ws, grp 3 (alts [lit "Task", lit "void"]), plus ws, plus wd, star ws,
        lit "("],
    cat [lit "override", plus ws], cat [lit ":", star ws, plus wd, star ws, lit "\x7b"],
    cat [lit "int", plus ws, plus wd, star ws, lit "="],
    cat [lit "bool", plus ws, plus wd, star ws, lit "="],
    cat [lit "double", plus ws, plus wd, star ws, lit "="],
    cat [lit "float", plus ws, plus wd, star ws, lit "="],
    cat [lit "char", plus ws, plus wd, star ws, lit "="],
    cat [lit "decimal", plus ws, plus wd, star ws, lit "="],
    cat [lit "long", plus ws, plus wd, star ws, lit "="],
    cat [lit "short", plus ws, plus wd, star ws, lit "="],
    cat [lit "byte", plus ws, plus wd, star ws, lit "="],
    cat [lit "uint", plus ws, plus wd, star ws, lit "="],
    cat [lit "ulong", plus ws, plus wd, star ws, lit "="],
    cat [lit "ushort", plus ws, plus wd, star ws, lit "="],
    cat [lit "sbyte", plus ws, plus wd, star ws, lit "="], cat [lit "enum", plus ws, plus wd],
    cat [lit "interface", plus ws, plus wd], cat [lit "abstract", plus ws, lit "class"],
    cat [lit "sealed", plus ws, lit "class"], cat [lit "static", plus ws, lit "class"],
    cat [lit "readonly", plus ws, plus wd],
    cat [lit "const", plus ws, plus wd, star ws, lit "="], cat [lit "ref", plus ws, plus wd],
    cat [lit "out", plus ws, plus wd], cat [lit "in", plus ws, plus wd],
    cat [lit "params", plus ws, plus wd], lit "base.", lit "this.",
    cat [lit "new", plus ws, plus wd, lit "("], lit "base(",
    cat [lit "typeof", star ws, lit "("], cat [lit "sizeof", star ws, lit "("],
    cat [lit "nameof", star ws, lit "("], cat [lit "default", star ws, lit "("],
    cat [lit "checked", star ws, lit "\x7b"], cat [lit "unchecked", star ws, lit "\x7b"],
    cat [lit "lock", star ws, lit "("], cat [lit "using", star ws, lit "("],
    cat [lit "fixed", star ws, lit "("], cat [lit "stackalloc", star ws],
    cat [lit "unsafe", star ws], cat [lit "fixed", star ws], cat [lit "volatile", plus ws],
    cat [lit "event", plus ws], cat [lit "delegate", plus ws], cat [lit "operator", plus ws],
    cat [lit "implicit", plus ws], cat [lit "explicit", plus ws],
    cat [lit "get", star ws, lit "\x7b"], cat [lit "set", star ws, lit "\x7b"],
    cat [lit "add", star ws, lit "\x7b"], cat [lit "remove", star ws, lit "\x7b"],
    cat [lit "value", star ws, lit "="], cat [lit "yield", plus ws, lit "return"],
    cat [lit "yield", plus ws, lit "break"], cat [lit "partial", plus ws, lit "class"],
    cat [lit "partial", plus ws, lit "struct"], cat [lit "partial", plus ws, lit "interface"],
    cat [lit "where", plus ws, plus wd, star ws, lit ":"], cat [lit "new", star ws, lit "()"],
    cat [lit ".ctor", star ws, lit "("], cat [lit ".cctor", star ws, lit "("],
    cat [lit "[", plus wd, lit "]", star ws, lit "\x7b"], cat [lit "]", star ws, lit "\x7b"],
    cat [lit "]", star ws, lit ":", star ws, plus wd]]

-- /<\?php|<\?=|\$[a-zA-Z_][a-zA-Z0-9_]+\s*=|\becho\b|\bprint\b|\bprint_r\b|\bvar_dump\b|\bfunction\s+\w+\s*\(|\bclass\s+\w+|\bpublic\s+function|\bprivate\s+function|\bprotected\s+function|->\w+|::\w+|\bnamespace\s+|\buse\s+.*\\|\brequire(_once)?\s*[\("']|\binclude(_once)?\s*[\("'](?![<"])|\$this->|\bnew\s+\w+\s*\(|\bextends\s+\w+|\bimplements\s+\w+|\barray\s*\(|\b(foreach|endif|endwhile|endfor|elseif)\b|=>|\?>|\$\w+\[|\$\w+\s*\.\=|\$\w+\+\+|\$\w+\-\-|\$\w+\s*\+\=|\$\w+\s*\-\=|\bisset\(|empty\(|unset\(|mysql_|mysqli_|PDO|\$_(GET|POST|SESSION|COOKIE|SERVER|REQUEST|FILES)|define\(|defined\(|__FILE__|__LINE__|__DIR__|__FUNCTION__|__CLASS__|__TRAIT__|__METHOD__|__NAMESPACE__|\$this->|\$\w+\[|\$_[A-Z]+|echo\s+|print\s+|\barray\s*\(|\bforeach\s*\(|\bendif\b|\bendwhile\b|\bendfor\b|\belseif\b|=>|\?>|<\?php|<\?=/
/-- The lang2Specific pattern of the branch csharp / php of resolveConflicts. -/
def specific_csharp_php_2 : Re :=
  alts [
    lit "<?php", lit "<?=",
    cat [lit "$", cls [.r 'a' 'z', .r 'A' 'Z', .c '_'], plus (cls [.r 'a' 'z', .r 'A' 'Z',
        .r '0' '9', .c '_']), star ws, lit "="],
    cat [.wordB, lit "echo", .wordB], cat [.wordB, lit "print", .wordB],
    cat [.wordB, lit "print_r", .wordB], cat [.wordB, lit "var_dump", .wordB],
    cat [.wordB, lit "function", plus ws, plus wd, star ws, lit "("],
    cat [.wordB, lit "class", plus ws, plus wd],
    cat [.wordB, lit "public", plus ws, lit "function"],
    cat [.wordB, lit "private", plus ws, lit "function"],
    cat [.wordB, lit "protected", plus ws, lit "function"], cat [lit "->", plus wd],
    cat [lit "::", plus wd], cat [.wordB, lit "namespace", plus ws],
    cat [.wordB, lit "use", plus ws, star .dot, lit "\\"],
    cat [.wordB, lit "require", opt (grp 1 (lit "_once")), star ws, cls [.c '(', .c '"', .c '\'']],
    cat [.wordB, lit "include", opt (grp 2 (lit "_once")), star ws, cls [.c '(', .c '"', .c '\''],
        nla (cls [.c '<', .c '"'])],
    lit "$this->", cat [.wordB, lit "new", plus ws, plus wd, star ws, lit "("],
    cat [.wordB, lit "extends", plus ws, plus wd],
    cat [.wordB, lit "implements", plus ws, plus wd],
    cat [.wordB, lit "array", star ws, lit "("],
    cat [.wordB, grp 3 (alts [lit "foreach", lit "endif", lit "endwhile", lit "endfor",
        lit "elseif"]), .wordB],
    lit "=>", lit "?>", cat [lit "$", plus wd, lit "["],
    cat [lit "$", plus wd, star ws, lit ".="], cat [lit "$", plus wd, lit "++"],
    cat [lit "$", plus wd, lit "--"], cat [lit "$", plus wd, star ws, lit "+="],
    cat [lit "$", plus wd, star ws, lit "-="], cat [.wordB, lit "isset("], lit "empty(",
    lit "unset(", lit "mysql_", lit "mysqli_", lit "PDO",
    cat [lit "$_", grp 4 (alts [lit "GET", lit "POST", lit "SESSION", lit "COOKIE", lit "SERVER",
        lit "REQUEST", lit "FILES"])],
    lit "define(", lit "defined(", lit "__FILE__", lit "__LINE__", lit "__DIR__",
    lit "__FUNCTION__", lit "__CLASS__", lit "__TRAIT__", lit "__METHOD__",
    lit "__NAMESPACE__", lit "$this->", cat [lit "$", plus wd, lit "["],
    cat [lit "$_", plus (cls [.r 'A' 'Z'])], cat [lit "echo", plus ws],
    cat [lit "print", plus ws], cat [.wordB, lit "array", star ws, lit "("],
    cat [.wordB, lit "foreach", star ws, lit "("], cat [.wordB, lit "endif", .wordB],
    cat [.wordB, lit "endwhile", .wordB], cat [.wordB, lit "endfor", .wordB],
    cat [.wordB, lit "elseif", .wordB], lit "=>", lit "?>", lit "<?php", lit "<?="]

-- /\b(const|let|var)\s+\w+\s*=|\bfunction\s*\w*\s*\(|\s*=>\s*[{(]|\bconsole\.(log|error|warn)|\basync\s+function|\bawait\s+|document\.|window\.|\$\(|require\(|module\.exports|\.prototype\.|undefined|null|NaN|Infinity|\b(function|var|let|const|if|for|while|do|switch|case|default|break|continue|return|try|catch|finally|throw)\b.*\{|\.js$|typeof\s+\w+|instanceof\s+\w+|\.addEventListener\(|fetch\(|Promise\.|\.then\(|\.catch\(/
/-- The lang1Specific pattern of the branch javascript / csharp of resolveConflicts. -/
def specific_javascript_csharp_1 : Re :=
  alts [
    cat [.wordB, grp 1 (alts [lit "const", lit "let", lit "var"]), plus ws, plus wd, star ws,
        lit "="],
    cat [.wordB, lit "function", star ws, star wd, star ws, lit "("],
    cat [star ws, lit "=>", star ws, cls [.c '{', .c '(']],
    cat [.wordB, lit "console.", grp 2 (alts [lit "log", lit "error", lit "warn"])],
    cat [.wordB, lit "async", plus ws, lit "function"], cat [.wordB, lit "await", plus ws],
    lit "document.", lit "window.", lit "$(", lit "require(", lit "module.exports",
    lit ".prototype.", lit "undefined", lit "null", lit "NaN", lit "Infinity",
    cat [.wordB, grp 3 (alts [lit "function", lit "var", lit "let", lit "const", lit "if",
        lit "for", lit "while", lit "do", lit "switch", lit "case", lit "default", lit "break",
        lit "continue", lit "return", lit "try", lit "catch", lit "finally", lit "throw"]), .wordB,
        star .dot, lit "\x7b"],
    cat [lit ".js", .eol], cat [lit "typeof", plus ws, plus wd],
    cat [lit "instanceof", plus ws, plus wd], lit ".addEventListener(", lit "fetch(",
    lit "Promise.", lit ".then(", lit ".catch("]

-- /#region|#endregion|@\w+\s+=[^=]|\.cs$|\.csproj$|\.NET\s+Core|\.NET\s+Framework|Console\.(Write|WriteLine)|Debug\.(Write|WriteLine)|using\s+System|struct\s+\w+\s*{|;\s*\/\/|\/\*[\s\S]*?\*\/|public\s+class|internal\s+class|namespace\s+[A-Z]\w+|string\s+\w+\s*=|var\s+\w+\s*=|\.cs$|\.csproj$|List<string>|Dictionary<string,|async\s+(Task|void)\s+\w+\s*\(|override\s+|:\s*\w+\s*\{/
/-- The lang2Specific pattern of the branch javascript / csharp of resolveConflicts. -/
def specific_javascript_csharp_2 : Re :=
  alts [
    lit "#region", lit "#endregion", cat [lit "@", plus wd, plus ws, lit "=", ncls [.c '=']],
    cat [lit ".cs", .eol], cat [lit ".csproj", .eol], cat [lit ".NET", plus ws, lit "Core"],
    cat [lit ".NET", plus ws, lit "Framework"],
    cat [lit "Console.", grp 1 (alts [lit "Write", lit "WriteLine"])],
    cat [lit "Debug.", grp 2 (alts [lit "Write", lit "WriteLine"])],
    cat [lit "using", plus ws, lit "System"],
    cat [lit "struct", plus ws, plus wd, star ws, lit "\x7b"],
    cat [lit ";", star ws, lit "//"],
    cat [lit "/*", lazyStar (cls [.space, .nonspace]), lit "*/"],
    cat [lit "public", plus ws, lit "class"], cat [lit "internal", plus ws, lit "class"],
    cat [lit "namespace", plus ws, cls [.r 'A' 'Z'], plus wd],
    cat [lit "string", plus ws, plus wd, star ws, lit "="],
    cat [lit "var", plus ws, plus wd, star ws, lit "="], cat [lit ".cs", .eol],
    cat [lit ".csproj", .eol], lit "List<string>", lit "Dictionary<string,",
    cat [lit "async", plus ws, grp 3 (alts [lit "Task", lit "void"]), plus ws, plus wd, star ws,
        lit "("],
    cat [lit "override", plus ws], cat [lit ":", star ws, plus wd, star ws, lit "\x7b"]]

-- /\b(const|let|var)\s+\w+\s*=|\bfunction\s*\w*\s*\(|\s*=>\s*[{(]|\bconsole\.(log|error|warn)|\basync\s+function|\bawait\s+|document\.|window\.|\$\(|require\(|module\.exports|\.prototype\.|undefined|null|NaN|Infinity|\b(function|var|let|const|if|for|while|do|switch|case|default|break|continue|return|try|catch|finally|throw)\b.*\{|\.js$|typeof\s+\w+|instanceof\s+\w+|\.addEventListener\(|fetch\(|Promise\.|\.then\(|\.catch\(|{|}|\[|\]/
/-- The lang1Specific pattern of the branch javascript / ruby of resolveConflicts. -/
def specific_javascript_ruby_1 : Re :=
  alts [
    cat [.wordB, grp 1 (alts [lit "const", lit "let", lit "var"]), plus ws, plus wd, star ws,
        lit "="],
    cat [.wordB, lit "function", star ws, star wd, star ws, lit "("],
    cat [star ws, lit "=>", star ws, cls [.c '{', .c '(']],
    cat [.wordB, lit "console.", grp 2 (alts [lit "log", lit "error", lit "warn"])],
    cat [.wordB, lit "async", plus ws, lit "function"], cat [.wordB, lit "await", plus ws],
    lit "document.", lit "window.", lit "$(", lit "require(", lit "module.exports",
    lit ".prototype.", lit "undefined", lit "null", lit "NaN", lit "Infinity",
    cat [.wordB, grp 3 (alts [lit "function", lit "var", lit "let", lit "const", lit "if",
        lit "for", lit "while", lit "do", lit "switch", lit "case", lit "default", lit "break",
        lit "continue", lit "return", lit "try", lit "catch", lit "finally", lit "throw"]), .wordB,
        star .dot, lit "\x7b"],
    cat [lit ".js", .eol], cat [lit "typeof", plus ws, plus wd],
    cat [lit "instanceof", plus ws, plus wd], lit ".addEventListener(", lit "fetch(",
    lit "Promise.", lit ".then(", lit ".catch(", lit "\x7b", lit "\x7d", lit "[", lit "]"]

-- /\bdef\s+\w+\s*$|\bend\b|\bclass\s+\w+\s*$|\bmodule\s+\w+\s*$|require\s+['"][^'"]+['"]|\bputs\b|attr_accessor\s+:\w+|attr_reader\s+:\w+|attr_writer\s+:\w+|\bdo\s*\|\w+(,\s*\w+)*\|\s*$|\.rb$|#!.*ruby|\bbegin\b|\brescue\b|\bensure\b|\braise\b|:\w+\s*=>\s*|@\w+\s*=|\b(instance_variable_get|instance_variable_set|define_method)\b|\$(?!jQuery)(?:[a-zA-Z_][a-zA-Z0-9_]*)?\s*=|\b(yield\s+\w*|block_given\?)\b|\.new\s*\(|\bmodule\b.*\bend\b|\bclass\b.*\bend\b/
/-- The lang2Specific pattern of the branch javascript / ruby of resolveConflicts. -/
def specific_javascript_ruby_2 : Re :=
  alts [
    cat [.wordB, lit "def", plus ws, plus wd, star ws, .eol], cat [.wordB, lit "end", .wordB],
    cat [.wordB, lit "class", plus ws, plus wd, star ws, .eol],
    cat [.wordB, lit "module", plus ws, plus wd, star ws, .eol],
    cat [lit "require", plus ws, cls [.c '\'', .c '"'], plus (ncls [.c '\'', .c '"']), cls [.c '\'',
        .c '"']],
    cat [.wordB, lit "puts", .wordB], cat [lit "attr_accessor", plus ws, lit ":", plus wd],
    cat [lit "attr_reader", plus ws, lit ":", plus wd],
    cat [lit "attr_writer", plus ws, lit ":", plus wd],
    cat [.wordB, lit "do", star ws, lit "|", plus wd, star (grp 1 (cat [lit ",", star ws,
        plus wd])), lit "|", star ws, .eol],
    cat [lit ".rb", .eol], cat [lit "#!", star .dot, lit "ruby"],
    cat [.wordB, lit "begin", .wordB], cat [.wordB, lit "rescue", .wordB],
    cat [.wordB, lit "ensure", .wordB], cat [.wordB, lit "raise", .wordB],
    cat [lit ":", plus wd, star ws, lit "=>", star ws],
    cat [lit "@", plus wd, star ws, lit "="],
    cat [.wordB, grp 2 (alts [lit "instance_variable_get", lit "instance_variable_set",
        lit "define_method"]), .wordB],
    cat [lit "$", nla (lit "jQuery"), opt (cat [cls [.r 'a' 'z', .r 'A' 'Z', .c '_'],
        star (cls [.r 'a' 'z', .r 'A' 'Z', .r '0' '9', .c '_'])]), star ws, lit "="],
    cat [.wordB, grp 3 (alts [cat [lit "yield", plus ws, star wd], lit "block_given?"]), .wordB],
    cat [lit ".new", star ws, lit "("],
    cat [.wordB, lit "module", .wordB, star .dot, .wordB, lit "end", .wordB],
    cat [.wordB, lit "class", .wordB, star .dot, .wordB, lit "end", .wordB]]

-- /\b(const|let|var)\s+\w+\s*=|\bfunction\s*\w*\s*\(|\s*=>\s*[{(]|\bconsole\.(log|error|warn)|\basync\s+function|\bawait\s+|document\.|window\.|\$\(|require\(|module\.exports|\.prototype\.|undefined|null|NaN|Infinity|\b(function|var|let|const|if|for|while|do|switch|case|default|break|continue|return|try|catch|finally|throw)\b.*\{|\.js$|typeof\s+\w+|instanceof\s+\w+|\.addEventListener\(|fetch\(|Promise\.|\.then\(|\.catch\(|{|}|\[|\]/
/-- The lang1Specific pattern of the branch javascript / php of resolveConflicts. -/
def specific_javascript_php_1 : Re :=
  alts [
    cat [.wordB, grp 1 (alts [lit "const", lit "let", lit "var"]), plus ws, plus wd, star ws,
        lit "="],
    cat [.wordB, lit "function", star ws, star wd, star ws, lit "("],
    cat [star ws, lit "=>", star ws, cls [.c '{', .c '(']],
    cat [.wordB, lit "console.", grp 2 (alts [lit "log", lit "error", lit "warn"])],
    cat [.wordB, lit "async", plus ws, lit "function"], cat [.wordB, lit "await", plus ws],
    lit "document.", lit "window.", lit "$(", lit "require(", lit "module.exports",
    lit ".prototype.", lit "undefined", lit "null", lit "NaN", lit "Infinity",
    cat [.wordB, grp 3 (alts [lit "function", lit "var", lit "let", lit "const", lit "if",
        lit "for", lit "while", lit "do", lit "switch", lit "case", lit "default", lit "break",
        lit "continue", lit "return", lit "try", lit "catch", lit "finally", lit "throw"]), .wordB,
        star .dot, lit "\x7b"],
    cat [lit ".js", .eol], cat [lit "typeof", plus ws, plus wd],
    cat [lit "instanceof", plus ws, plus wd], lit ".addEventListener(", lit "fetch(",
    lit "Promise.", lit ".then(", lit ".catch(", lit "\x7b", lit "\x7d", lit "[", lit "]"]

-- /<\?php|<\?=|\$[a-zA-Z_][a-zA-Z0-9_]+\s*=|\becho\b|\bprint\b|\bprint_r\b|\bvar_dump\b|\bfunction\s+\w+\s*\(|\bclass\s+\w+|\bpublic\s+function|\bprivate\s+function|\bprotected\s+function|->\w+|::\w+|\bnamespace\s+|\buse\s+.*\\|\brequire(_once)?\s*[\("']|\binclude(_once)?\s*[\("'](?![<"])|\$this->|\bnew\s+\w+\s*\(|\bextends\s+\w+|\bimplements\s+\w+|\barray\s*\(|\b(foreach|endif|endwhile|endfor|elseif)\b|=>|\?>|\$\w+\[|\$\w+\s*\.\=|\$\w+\+\+|\$\w+\-\-|\$\w+\s*\+\=|\$\w+\s*\-\=|\bisset\(|empty\(|unset\(|mysql_|mysqli_|PDO|\$_(GET|POST|SESSION|COOKIE|SERVER|REQUEST|FILES)|define\(|defined\(|__FILE__|__LINE__|__DIR__|__FUNCTION__|__CLASS__|__TRAIT__|__METHOD__|__NAMESPACE__/
/-- The lang2Specific pattern of the branch javascript / php of resolveConflicts. -/
def specific_javascript_php_2 : Re :=
  alts [
    lit "<?php", lit "<?=",
    cat [lit "$", cls [.r 'a' 'z', .r 'A' 'Z', .c '_'], plus (cls [.r 'a' 'z', .r 'A' 'Z',
        .r '0' '9', .c '_']), star ws, lit "="],
    cat [.wordB, lit "echo", .wordB], cat [.wordB, lit "print", .wordB],
    cat [.wordB, lit "print_r", .wordB], cat [.wordB, lit "var_dump", .wordB],
    cat [.wordB, lit "function", plus ws, plus wd, star ws, lit "("],
    cat [.wordB, lit "class", plus ws, plus wd],
    cat [.wordB, lit "public", plus ws, lit "function"],
    cat [.wordB, lit "private", plus ws, lit "function"],
    cat [.wordB, lit "protected", plus ws, lit "function"], cat [lit "->", plus wd],
    cat [lit "::", plus wd], cat [.wordB, lit "namespace", plus ws],
    cat [.wordB, lit "use", plus ws, star .dot, lit "\\"],
    cat [.wordB, lit "require", opt (grp 1 (lit "_once")), star ws, cls [.c '(', .c '"', .c '\'']],
    cat [.wordB, lit "include", opt (grp 2 (lit "_once")), star ws, cls [.c '(', .c '"', .c '\''],
        nla (cls [.c '<', .c '"'])],
    lit "$this->", cat [.wordB, lit "new", plus ws, plus wd, star ws, lit "("],
    cat [.wordB, lit "extends", plus ws, plus wd],
    cat [.wordB, lit "implements", plus ws, plus wd],
    cat [.wordB, lit "array", star ws, lit "("],
    cat [.wordB, grp 3 (alts [lit "foreach", lit "endif", lit "endwhile", lit "endfor",
        lit "elseif"]), .wordB],
    lit "=>", lit "?>", cat [lit "$", plus wd, lit "["],
    cat [lit "$", plus wd, star ws, lit ".="], cat [lit "$", plus wd, lit "++"],
    cat [lit "$", plus wd, lit "--"], cat [lit "$", plus wd, star ws, lit "+="],
    cat [lit "$", plus wd, star ws, lit "-="], cat [.wordB, lit "isset("], lit "empty(",
    lit "unset(", lit "mysql_", lit "mysqli_", lit "PDO",
    cat [lit "$_", grp 4 (alts [lit "GET", lit "POST", lit "SESSION", lit "COOKIE", lit "SERVER",
        lit "REQUEST", lit "FILES"])],
    lit "define(", lit "defined(", lit "__FILE__", lit "__LINE__", lit "__DIR__",
    lit "__FUNCTION__", lit "__CLASS__", lit "__TRAIT__", lit "__METHOD__",
    lit "__NAMESPACE__"]

/-- The if-chain of resolveConflicts that selects lang1Specific and lang2Specific;
none when no branch applies (both variables stay undefined). -/
def specificPatterns (lang1 lang2 : String) : Option (Re × Re) :=
  if lang1 = "csharp" ∧ lang2 = "java" then some (specific_csharp_java_1, specific_csharp_java_2)
  else if lang1 = "csharp" ∧ lang2 = "ruby" then some (specific_csharp_ruby_1,
      specific_csharp_ruby_2)
  else if lang1 = "java" ∧ lang2 = "ruby" then some (specific_java_ruby_1, specific_java_ruby_2)
  else if lang1 = "python" ∧ lang2 = "ruby" then some (specific_python_ruby_1,
      specific_python_ruby_2)
  else if lang1 = "php" ∧ lang2 = "ruby" then some (specific_php_ruby_1, specific_php_ruby_2)
  else if lang1 = "java" ∧ lang2 = "php" then some (specific_java_php_1, specific_java_php_2)
  else if lang1 = "csharp" ∧ lang2 = "php" then some (specific_csharp_php_1, specific_csharp_php_2)
  else if lang1 = "javascript" ∧ lang2 = "csharp" then some (specific_javascript_csharp_1,
      specific_javascript_csharp_2)
  else if lang1 = "javascript" ∧ lang2 = "ruby" then some (specific_javascript_ruby_1,
      specific_javascript_ruby_2)
  else if lang1 = "javascript" ∧ lang2 = "php" then some (specific_javascript_php_1,
      specific_javascript_php_2)
  else none

/-! ## detectURL -/

/-- The result of detectURL: `{ isURL: false }`, `{ isURL: true, url, multiple: false }`
or `{ isURL: true, urls, multiple: true }`. -/
inductive URLResult where
  | noURL
  | single (url : Text)
  | multiple (urls : List Text)
  deriving DecidableEq

def URLResult.isURL : URLResult → Bool
  | .noURL => false
  | _ => true

/-- The field `multiple` as the template of addMessage reads it (undefined is falsy). -/
def URLResult.isMultiple : URLResult → Bool
  | .multiple _ => true
  | _ => false

/-- The callback of `matches.map`: the URL without its quotes when the whole match is a
quoted URL, the match itself otherwise. -/
def cleanUrl (m : Text) : Text :=
  match quotedPattern.exec false false m with
  | some (_, e) => (e.cap 2).getD []
  | none => m

/-- The callback of `.filter`: false for a URL that looks like a part of code. -/
def keepUrl (text url : Text) : Bool :=
  match indexOf url text with
  | none => true
  | some urlIndex =>
    if urlIndex > 0 then
      let beforeChar := substring text (urlIndex - 1) urlIndex
      if beforeCharPattern.test false false beforeChar then
        let context := substring text (urlIndex - 10) (urlIndex + url.length + 10)
        if contextKeywords.test false false context ||
            contextImports.test false false context ||
            contextPunctuation.test false false context then false
        else true
      else true
    else true

def detectURL (text : Text) : URLResult :=
  let «matches» := matchAll urlPattern true false text
  if «matches».isEmpty then .noURL
  else
    let cleanUrls := («matches».map cleanUrl).filter (keepUrl text)
    match cleanUrls with
    | [] => .noURL
    | [url] => .single url
    | urls => .multiple urls

/-! ## detectFile -/

/-- The table mimeMap of getExtensionFromMime. -/
def mimeMap : List (String × String) := [
  ("application/pdf", "PDF"),
  ("application/msword", "DOC"),
  ("application/vnd.openxmlformats-officedocument.wordprocessingml.document", "DOCX"),
  ("application/vnd.ms-excel", "XLS"),
  ("application/vnd.openxmlformats-officedocument.spreadsheetml.sheet", "XLSX"),
  ("application/zip", "ZIP"),
  ("text/plain", "TXT"),
  ("text/csv", "CSV"),
  ("application/json", "JSON"),
  ("image/jpeg", "JPG"),
  ("image/png", "PNG"),
  ("image/gif", "GIF"),
  ("image/svg+xml", "SVG"),
  ("image/webp", "WEBP"),
  ("video/mp4", "MP4"),
  ("audio/mpeg", "MP3"),
  ("model/stl", "STL"),
  ("application/octet-stream", "STL"),
  ("model/vnd.usdz+zip", "USDZ"),
  ("model/usd", "USDZ")
]

/-- The lookup `mimeMap[mimeType] || 'FILE'` (for a key with a slash, as base64Pattern
captures it, only the own entries of the table can be found). -/
def getExtensionFromMime (mimeType : Text) : Text :=
  match mimeMap.find? (fun e => js e.1 == mimeType) with
  | some e => js e.2
  | none => js "FILE"

/-- Where the file of a File result comes from: the field base64 or the field url. -/
inductive FileSource where
  | base64 (data : Text)
  | url (url : Text)
  deriving DecidableEq

/-- The result of detectFile: `{ isFile: false }` or
`{ isFile: true, filename, extension, base64 | url }`. -/
inductive FileResult where
  | notFile
  | file (filename «extension» : Text) (source : FileSource)
  deriving DecidableEq

def FileResult.isFile : FileResult → Bool
  | .notFile => false
  | .file _ _ _ => true

/-- The field extension (the empty string stands for undefined). -/
def FileResult.extension : FileResult → Text
  | .notFile => []
  | .file _ e _ => e

def detectFile (text : Text) : FileResult :=
  match base64Pattern.exec false false text with
  | some (_, e) =>
    let mimeType := (e.cap 1).getD []
    let «extension» := getExtensionFromMime mimeType
    let filename := js "file." ++ toLowerCase «extension»
    .file filename «extension» (.base64 text)
  | none =>
    match fileUrlPattern.exec true false text with
    | some (_, e) =>
      let url := (e.cap 1).getD []
      let filename := splitPop 47 url
      let «extension» := toUpperCase (splitPop 46 filename)
      .file filename «extension» (.url url)
    | none => .notFile

/-! ## resolveConflicts -/

/-- An entry `{ lang, weight }` of the array matches. -/
structure Candidate where
  lang : String
  weight : Nat
  deriving DecidableEq

/-- An entry `{ lang1, lang2, weight1, weight2 }` of conflictPairs. -/
structure ConflictPair where
  lang1 : String
  lang2 : String
  weight1 : Nat
  weight2 : Nat
  deriving DecidableEq

/-- The result of detectCode and of resolveConflicts: `{ isCode, language }`. -/
structure CodeResult where
  isCode : Bool
  language : Option String
  deriving DecidableEq

/-- The results `{ isCode: false }` and `{ isCode: false, language: null }`. -/
def NotCode : CodeResult := ⟨false, none⟩

/-- The result `{ isCode: true, language }`. -/
def Code (language : String) : CodeResult := ⟨true, some language⟩

/-- The result `{ isCode: true, language: 'CODE' }`. -/
def UnknownCode : CodeResult := ⟨true, some "CODE"⟩

/-- The counts lang1Matches and lang2Matches: `(text.match(p) || []).length`, where a
pattern left undefined matches the empty string (an array of length 1). -/
def specificMatches (pair : ConflictPair) (text : Text) : Nat × Nat :=
  match specificPatterns pair.lang1 pair.lang2 with
  | some (lang1Specific, lang2Specific) =>
    (matchLength lang1Specific text, matchLength lang2Specific text)
  | none => (1, 1)

/-- The body of the loop of resolveConflicts for one pair. -/
def applyPair (text : Text) («matches» : List Candidate) (pair : ConflictPair) :
    List Candidate :=
  let hasLang1 := «matches».any (fun m => m.lang == pair.lang1)
  let hasLang2 := «matches».any (fun m => m.lang == pair.lang2)
  if hasLang1 && hasLang2 then
    let (lang1Matches, lang2Matches) := specificMatches pair text
    let filteredMatches :=
      «matches».filter (fun m => m.lang != pair.lang1 && m.lang != pair.lang2)
    if lang1Matches > lang2Matches then
      filteredMatches ++ [⟨pair.lang1, pair.weight1⟩]
    else if lang2Matches > lang1Matches then
      filteredMatches ++ [⟨pair.lang2, pair.weight2⟩]
    else if pair.weight1 > pair.weight2 then
      filteredMatches ++ [⟨pair.lang1, pair.weight1⟩]
    else if pair.weight2 > pair.weight1 then
      filteredMatches ++ [⟨pair.lang2, pair.weight2⟩]
    else
      filteredMatches ++
        «matches».filter (fun m => m.lang == pair.lang1 || m.lang == pair.lang2)
  else «matches»

/-- The loop of resolveConflicts over conflictPairs. -/
def applyPairs (text : Text) («matches» : List Candidate) (conflictPairs : List ConflictPair) :
    List Candidate :=
  conflictPairs.foldl (applyPair text) «matches»

/-- The call `matches.sort((a, b) => b.weight - a.weight)`: the sort of an array is
stable, so candidates of equal weight keep their order. -/
def sortByWeight («matches» : List Candidate) : List Candidate :=
  «matches».insertionSort (fun a b => b.weight ≤ a.weight)

/-- The expression hasCodeCharacteristics of resolveConflicts. -/
def hasCodeCharacteristicsFallback (text : Text) : Bool :=
  (includes (js "\x7b") text && includes (js "\x7d") text) ||
  (includes (js "(") text && includes (js ")") text) ||
  gateIndent.test false true text ||
  (decide (splitLength 10 text > 3) && (includes (js "=") text || includes (js ":") text))

def resolveConflicts («matches» : List Candidate) (conflictPairs : List ConflictPair)
    (text : Text) : CodeResult :=
  match sortByWeight (applyPairs text «matches» conflictPairs) with
  | m :: _ => ⟨true, some (capitalize m.lang)⟩
  | [] =>
    if hasCodeCharacteristicsFallback text && decide (text.length > 50) then
      ⟨true, some "CODE"⟩
    else ⟨false, none⟩

/-! ## detectCode -/

/-- The expression hasCodeCharacteristics of detectCode: the gate. -/
def hasCodeCharacteristics (text : Text) : Bool :=
  (includes (js "\x7b") text && includes (js "\x7d") text) ||
  gateIndent.test false true text ||
  (decide (splitLength 10 text > 3) && (includes (js "=") text || includes (js ":") text)) ||
  includes (js "import ") text ||
  includes (js "def ") text ||
  includes (js "class ") text ||
  includes (js "function ") text ||
  includes (js "const ") text || includes (js "let ") text || includes (js "var ") text

/-- The table conflictPairs of detectCode. -/
def conflictPairs : List ConflictPair := [
  ⟨"csharp", "java", 6, 5⟩,
  ⟨"csharp", "ruby", 6, 5⟩,
  ⟨"java", "ruby", 5, 6⟩,
  ⟨"python", "ruby", 5, 6⟩,
  ⟨"php", "ruby", 5, 6⟩,
  ⟨"java", "php", 6, 5⟩,
  ⟨"csharp", "php", 6, 5⟩,
  ⟨"javascript", "csharp", 5, 6⟩,
  ⟨"javascript", "ruby", 5, 6⟩,
  ⟨"javascript", "php", 5, 6⟩,
  ⟨"javascript", "typescript", 5, 6⟩,
  ⟨"php", "typescript", 5, 6⟩,
  ⟨"java", "c++", 6, 5⟩,
  ⟨"c++", "csharp", 5, 6⟩,
  ⟨"bash", "javascript", 6, 5⟩,
  ⟨"rust", "bash", 6, 5⟩,
  ⟨"swift", "python", 6, 5⟩,
  ⟨"kotlin", "python", 6, 5⟩,
  ⟨"sql", "python", 6, 5⟩,
  ⟨"python", "javascript", 6, 5⟩
]

/-- The number langMatches of one language: the patterns of its list that match. -/
def langMatches (langPatterns : List Pat) (text : Text) : Nat :=
  (langPatterns.filter (fun pattern => pattern.test text)).length

/-- The body of the loop that collects matches: the candidate of one table entry. -/
def vote (text : Text) (entry : String × List Pat) : Option Candidate :=
  let n := langMatches entry.2 text
  if n ≥ 2 then some ⟨entry.1, n * 2⟩
  else if n ≥ 1 then some ⟨entry.1, n⟩
  else none

/-- The array matches of detectCode before resolveConflicts, for any table. -/
def collectFrom (table : List (String × List Pat)) (text : Text) : List Candidate :=
  table.filterMap (vote text)

/-- The array matches of detectCode before resolveConflicts. -/
def collect (text : Text) : List Candidate := collectFrom patterns text

/-- The body of detectCode with the table conflictPairs as a parameter. -/
def detectCodeWith (conflictPairs : List ConflictPair) (text : Text) : CodeResult :=
  if !hasCodeCharacteristics text then
    if (detectURL text).isURL then ⟨false, none⟩ else ⟨false, none⟩
  else
    let «matches» := collect text
    if «matches».length > 1 then resolveConflicts «matches» conflictPairs text
    else
      match «matches» with
      | [m] => ⟨true, some (capitalize m.lang)⟩
      | _ => if (detectURL text).isURL then ⟨false, none⟩ else ⟨false, none⟩

def detectCode (text : Text) : CodeResult := detectCodeWith conflictPairs text

/-- The language catalog: the keys of the table of detectCode, in its order. -/
def catalog : List String := patterns.map Prod.fst

/-! ## addMessage -/

/-- The four alternatives of the message-content template of addMessage. -/
inductive Rendering where
  | file («extension» : Text)
  | code (language : Option String)
  | url (multiple : Bool)
  | plain
  deriving DecidableEq

/-- The alternative of the template that addMessage renders for a text. -/
def addMessage (text : Text) : Rendering :=
  let fileDetection := detectFile text
  let urlDetection := detectURL text
  let codeDetection := detectCode text
  if fileDetection.isFile then .file fileDetection.extension
  else if codeDetection.isCode then .code codeDetection.language
  else if urlDetection.isURL then .url urlDetection.isMultiple
  else .plain

/-! ## Auxiliary definitions for the statements -/

/-- The first candidate of greatest weight of a list. -/
def firstMax : List Candidate → Option Candidate
  | [] => none
  | a :: l =>
    match firstMax l with
    | none => some a
    | some b => if b.weight ≤ a.weight then some a else some b

/-- Which of the four alternatives a rendering is. -/
inductive Kind where
  | file
  | code
  | url
  | plain
  deriving DecidableEq

def Rendering.kind : Rendering → Kind
  | .file _ => .file
  | .code _ => .code
  | .url _ => .url
  | .plain => .plain

/-- The lines of a text, as `text.split` at the line feed gives them. -/
def lines : Text → List Text
  | [] => [[]]
  | x :: t =>
    match lines t with
    | [] => [[x]]
    | l :: ls => if x == 10 then [] :: l :: ls else (x :: l) :: ls

/-- The gate as the specification words it, to be compared with hasCodeCharacteristics:
both braces, a line that begins with two or more space characters, more than 3 lines
together with `=` or `:`, or one of the seven keyword fragments. -/
def gateAsWorded (text : Text) : Bool :=
  (includes (js "\x7b") text && includes (js "\x7d") text) ||
  (lines text).any (fun l => startsWith [32, 32] l) ||
  (decide ((lines text).length > 3) && (includes (js "=") text || includes (js ":") text)) ||
  includes (js "import ") text ||
  includes (js "def ") text ||
  includes (js "class ") text ||
  includes (js "function ") text ||
  includes (js "const ") text || includes (js "let ") text || includes (js "var ") text


/-- Whether a line starts at an index, given the code unit before it. -/
def lineStart : Option Nat → Bool
  | none => true
  | some p => isLineTerminator p

/-- Whether the text begins with two code units of the class `\s`. -/
def twoSpaces : Text → Bool
  | x :: y :: _ => isSpace x && isSpace y
  | _ => false

/-- Whether some line start of the text, the code unit `prev` standing before it, is
followed by two or more code units of the class `\s`. -/
def indented : Option Nat → Text → Bool
  | _, [] => false
  | prev, x :: t => (lineStart prev && twoSpaces (x :: t)) || indented (some x) t


/-! ## A declarative reading of the patterns -/

/-- The code unit before an index, after the word `w` has been consumed from an index
that had `prev` before it. -/
def lastPrev (prev : Option Nat) (w : Text) : Option Nat :=
  match w.getLast? with
  | some x => some x
  | none => prev

/-- Whether a code unit belongs to a character class. -/
def inClass (ci neg : Bool) (items : List CItem) (x : Nat) : Bool :=
  (items.any (CItem.test ci x)) != neg

/-- The words that a repetition `{min,}` of a pattern with words `L` can consume: `w` is
consumed with `prev` before it and `after` behind it. -/
inductive RepLang (L : Option Nat → Text → Text → Prop) :
    Nat → Option Nat → Text → Text → Prop where
  | nil {prev : Option Nat} {after : Text} : RepLang L 0 prev [] after
  | cons {min : Nat} {prev : Option Nat} {w1 w2 after : Text} :
      L prev w1 (w2 ++ after) → RepLang L (min - 1) (lastPrev prev w1) w2 after →
      RepLang L min prev (w1 ++ w2) after

/-- The words a pattern can consume (an upper bound of what the matcher consumes: a
lookahead is not looked into): `Lang ci ml r prev w after` says that `r` can consume `w`
with `prev` before it and `after` behind it. -/
def Lang (ci ml : Bool) : Re → Option Nat → Text → Text → Prop
  | .eps, _, w, _ => w = []
  | .fail, _, _, _ => False
  | .lit s, _, w, _ => List.Forall₂ (fun c x => sameUnit ci c x = true) (js s) w
  | .set neg items, _, w, _ => ∃ x, w = [x] ∧ inClass ci neg items x = true
  | .dot, _, w, _ => ∃ x, w = [x] ∧ isLineTerminator x = false
  | .seq a b, prev, w, after =>
    ∃ w1 w2, w = w1 ++ w2 ∧ Lang ci ml a prev w1 (w2 ++ after) ∧
      Lang ci ml b (lastPrev prev w1) w2 after
  | .alt a b, prev, w, after => Lang ci ml a prev w after ∨ Lang ci ml b prev w after
  | .rep min _ r, prev, w, after => RepLang (Lang ci ml r) min prev w after
  | .opt r, prev, w, after => w = [] ∨ Lang ci ml r prev w after
  | .bol, prev, w, _ => w = [] ∧ (prev = none ∨ ∃ p, prev = some p ∧ (ml && isLineTerminator p) = true)
  | .eol, _, w, after =>
    w = [] ∧ (after = [] ∨ ∃ x t, after = x :: t ∧ (ml && isLineTerminator x) = true)
  | .wordB, prev, w, after => w = [] ∧ atWordB ⟨prev, after, []⟩ = true
  | .nla _, _, w, _ => w = []
  | .grp _ r, prev, w, after => Lang ci ml r prev w after

/-- A matcher consumes only words of `L`: whenever it succeeds, it has consumed a word of
`L` and handed the rest of the text to its continuation. -/
def Sound (L : Option Nat → Text → Text → Prop) (step : St → Cont → Option St) : Prop :=
  ∀ st k e, step st k = some e →
    ∃ w after caps, st.rest = w ++ after ∧ L st.prev w after ∧
      k ⟨lastPrev st.prev w, after, caps⟩ = some e

/-- The class `[a-zA-Z0-9]` of base64Pattern: a unit of the type of a MIME type. -/
def mimeTypeUnit (x : Nat) : Bool :=
  inClass false false [.r 'a' 'z', .r 'A' 'Z', .r '0' '9'] x

/-- The class `[a-zA-Z0-9-.+]` of base64Pattern: a unit of the subtype of a MIME type. -/
def mimeSubtypeUnit (x : Nat) : Bool :=
  inClass false false [.r 'a' 'z', .r 'A' 'Z', .r '0' '9', .c '-', .c '.', .c '+'] x

/-- The class `[A-Za-z0-9+/=]` of base64Pattern: a base64 character. -/
def base64Unit (x : Nat) : Bool :=
  inClass false false [.r 'A' 'Z', .r 'a' 'z', .r '0' '9', .c '+', .c '/', .c '='] x

/-- The parts of an inline data payload as base64Pattern reads it: a type `m1` of one or
more ASCII letters and digits, a subtype `m2` of one or more ASCII letters, digits, `-`,
`.` and `+`, and what follows `;base64,`, which begins with at least 20 base64
characters. A MIME type with other characters (a hyphen in the type, a parameter such as
`;charset=utf-8`) is not of this form. -/
def InlinePayload (m1 m2 tail : Text) : Prop :=
  m1 ≠ [] ∧ (∀ x ∈ m1, mimeTypeUnit x = true) ∧
  m2 ≠ [] ∧ (∀ x ∈ m2, mimeSubtypeUnit x = true) ∧
  20 ≤ (tail.takeWhile base64Unit).length

/-- The text `data:<m1>/<m2>;base64,<tail>`. -/
def payloadText (m1 m2 tail : Text) : Text :=
  js "data:" ++ (m1 ++ 47 :: (m2 ++ (js ";base64," ++ tail)))


/-- The URLs a result of detectURL carries: the field url or the elements of urls. -/
def URLResult.urls : URLResult → List Text
  | .noURL => []
  | .single url => [url]
  | .multiple urls => urls

/-- The extensions the pattern urlPattern of detectFile lists, in its order. -/
def supportedExtensions : List String :=
  ["pdf", "doc", "docx", "xls", "xlsx", "ppt", "pptx", "zip", "rar", "7z", "tar", "gz", "txt",
   "csv", "json", "xml", "jpg", "jpeg", "png", "gif", "svg", "webp", "mp4", "avi", "mov", "mp3",
   "wav", "ogg", "stl", "usdz"]

/-- Whether `s` is a suffix of `t`. -/
def endsWith (s t : Text) : Bool := startsWith s.reverse t.reverse

/-- Whether a text begins with `http://` or `https://`, in either case of the letters. -/
def startsHttp (t : Text) : Bool :=
  startsWith (js "http://") (toLowerCase t) || startsWith (js "https://") (toLowerCase t)

/-- The URLs of a text in the wording of the specification: from each index at which
`http://` or `https://` begins, the run of characters up to the next white space. -/
def wordedUrls : Text → List Text
  | [] => []
  | x :: t =>
    (if startsHttp (x :: t) then [(x :: t).takeWhile (fun c => !isSpace c)] else []) ++
      wordedUrls t

/-- The condition of the specification on a URL-sourced file: some URL of the text has
`.` and a supported extension as its final characters. -/
def hasUrlEndingInExtension (text : Text) : Bool :=
  (wordedUrls text).any (fun u =>
    supportedExtensions.any (fun e => endsWith (46 :: js e) (toLowerCase u)))

/-- A letter: an ASCII letter, or a code unit outside ASCII that is not white space (the
letters of other alphabets are among these). -/
def isLetter (c : Nat) : Bool :=
  (Nat.ble 65 c && Nat.ble c 90) || (Nat.ble 97 c && Nat.ble c 122) ||
  (Nat.ble 128 c && !isSpace c)

/-- The seven keyword fragments of the gate of detectCode. -/
def gateFragments : List String :=
  ["import ", "def ", "class ", "function ", "const ", "let ", "var "]

-- /\/\/.*$/
/-- The pattern of line comments in the lists of Rust, Swift and Kotlin. -/
def lineCommentPattern : Pat :=
  ⟨cat [lit "//", star .dot, .eol], false⟩

/-! ## The filter of detectURL in words -/

/-- Whether a code unit is an ASCII letter (`a` to `z`, `A` to `Z`), an ASCII digit, an
underscore, `.` or `=`; a letter outside ASCII is none of these. -/
def isCodeUnitBefore (c : Nat) : Bool :=
  isWord c || c == 46 || c == 61

/-- The same class read with the letters of every alphabet: a letter, a digit, an
underscore, `.` or `=`. -/
def isCodeUnitBeforeAnyLetter (c : Nat) : Bool :=
  isLetter c || isCodeUnitBefore c

/-- The words that mark code around a URL. -/
def codeWords : List String :=
  ["function", "const", "let", "var", "class", "public", "private", "protected",
   "import", "require", "include"]

/-- The characters `{ } ( ) ;` that mark code around a URL. -/
def codePunctuation : List Nat := [123, 125, 40, 41, 59]

/-- Whether the code unit before an index, if any, is a letter, a digit or an underscore. -/
def wordUnitBefore : Option Nat → Bool
  | none => false
  | some p => isWord p

/-- Whether a text begins with a letter, a digit or an underscore. -/
def wordUnitAt : Text → Bool
  | [] => false
  | x :: _ => isWord x

/-- Whether the text contains `w` as a whole word: an occurrence of `w` with no letter,
digit or underscore right before it and none right behind it; `prev` is the code unit
before the text. -/
def hasWholeWord (w : Text) : Option Nat → Text → Bool
  | _, [] => false
  | prev, x :: t =>
    (startsWith w (x :: t) && !wordUnitBefore prev && !wordUnitAt ((x :: t).drop w.length)) ||
      hasWholeWord w (some x) t

/-- The filter of detectURL in words, with the ASCII letters and digits: whether a URL is
discarded as embedded in code. The first occurrence of the URL is at an index greater
than 0, the character before it is an ASCII letter, an ASCII digit, an underscore, `.`
or `=`, and the window of 10 characters around the URL has a code word as a whole word
or one of `{ } ( ) ;`. -/
def discardedAsWorded (text url : Text) : Bool :=
  match indexOf url text with
  | none => false
  | some i =>
    decide (0 < i) &&
    (match text.get? (i - 1) with
      | some c => isCodeUnitBefore c
      | none => false) &&
    (codeWords.any
        (fun w => hasWholeWord (js w) none (substring text (i - 10) (i + url.length + 10))) ||
      (substring text (i - 10) (i + url.length + 10)).any (fun c => codePunctuation.contains c))

/-- The same condition with the character before the URL read as a letter of any
alphabet, a digit, an underscore, `.` or `=`. -/
def discardedWithAnyLetter (text url : Text) : Bool :=
  match indexOf url text with
  | none => false
  | some i =>
    decide (0 < i) &&
    (match text.get? (i - 1) with
      | some c => isCodeUnitBeforeAnyLetter c
      | none => false) &&
    (codeWords.any
        (fun w => hasWholeWord (js w) none (substring text (i - 10) (i + url.length + 10))) ||
      (substring text (i - 10) (i + url.length + 10)).any (fun c => codePunctuation.contains c))
/-! ## Lemmas -/

theorem catalog_eq : catalog =
    ["JavaScript", "TypeScript", "Python", "Java", "C#", "PHP", "HTML", "CSS", "SQL", "Bash",
     "Ruby", "Go", "Rust", "C++", "Swift", "Kotlin"] := by
  decide

theorem catalog_nodup : catalog.Nodup := by
  rw [catalog_eq]; decide

theorem capitalize_catalog : ∀ L ∈ catalog, capitalize L = L := by
  rw [catalog_eq]; decide

theorem conflictPairs_not_catalog :
    ∀ p ∈ conflictPairs, p.lang1 ∉ catalog ∧ p.lang2 ∉ catalog := by
  rw [catalog_eq]; decide

theorem vote_lang {text : Text} {e : String × List Pat} {c : Candidate}
    (h : vote text e = some c) : c.lang = e.1 := by
  unfold vote at h
  simp only at h
  split at h
  · cases h; rfl
  · split at h
    · cases h; rfl
    · cases h

theorem vote_isSome (text : Text) (e : String × List Pat) :
    (vote text e).isSome = true ↔ 1 ≤ langMatches e.2 text := by
  unfold vote
  simp only
  split
  · simp; omega
  · split
    · simp; omega
    · simp; omega

theorem collectFrom_lang {table : List (String × List Pat)} {text : Text} {c : Candidate}
    (h : c ∈ collectFrom table text) : c.lang ∈ table.map Prod.fst := by
  unfold collectFrom at h
  rw [List.mem_filterMap] at h
  obtain ⟨e, he, hv⟩ := h
  rw [vote_lang hv]
  exact List.mem_map_of_mem _ he

theorem collect_lang {text : Text} {c : Candidate} (h : c ∈ collect text) :
    c.lang ∈ catalog :=
  collectFrom_lang h

theorem collect_sublist (text : Text) :
    ((collect text).map Candidate.lang).Sublist catalog := by
  unfold collect catalog
  generalize patterns = table
  induction table with
  | nil => simp [collectFrom]
  | cons e t ih =>
    unfold collectFrom at ih ⊢
    rw [List.filterMap_cons]
    cases hv : vote text e with
    | none => simpa using List.Sublist.cons _ ih
    | some c =>
      simp only [List.map_cons]
      rw [vote_lang hv]
      exact List.Sublist.cons₂ _ ih

theorem applyPair_of_absent (text : Text) (ms : List Candidate) (pair : ConflictPair)
    (h : (∀ m ∈ ms, m.lang ≠ pair.lang1) ∨ (∀ m ∈ ms, m.lang ≠ pair.lang2)) :
    applyPair text ms pair = ms := by
  unfold applyPair
  have hb : (ms.any (fun m => m.lang == pair.lang1) && ms.any (fun m => m.lang == pair.lang2))
      = false := by
    rcases h with h | h
    · have : ms.any (fun m => m.lang == pair.lang1) = false := by
        rw [List.any_eq_false]; intro m hm; simpa using h m hm
      simp [this]
    · have : ms.any (fun m => m.lang == pair.lang2) = false := by
        rw [List.any_eq_false]; intro m hm; simpa using h m hm
      simp [this]
  simp only [hb]
  rfl

theorem applyPairs_of_absent (text : Text) (pairs : List ConflictPair) (ms : List Candidate)
    (h : ∀ p ∈ pairs, (∀ m ∈ ms, m.lang ≠ p.lang1) ∨ (∀ m ∈ ms, m.lang ≠ p.lang2)) :
    applyPairs text ms pairs = ms := by
  unfold applyPairs
  induction pairs with
  | nil => rfl
  | cons p ps ih =>
    rw [List.foldl_cons, applyPair_of_absent text ms p (h p (List.mem_cons_self _ _))]
    exact ih (fun q hq => h q (List.mem_cons_of_mem _ hq))

/-- No rule of the shipped table fires on the candidates of detectCode: the rules name
languages in lower case, the candidates carry the keys of the signature table. -/
theorem applyPairs_collect (text : Text) :
    applyPairs text (collect text) conflictPairs = collect text := by
  apply applyPairs_of_absent
  intro p hp
  left
  intro m hm heq
  exact (conflictPairs_not_catalog p hp).1 (heq ▸ collect_lang hm)

theorem head?_sortByWeight (l : List Candidate) : (sortByWeight l).head? = firstMax l := by
  induction l with
  | nil => rfl
  | cons a l ih =>
    show (List.orderedInsert _ a (sortByWeight l)).head? = firstMax (a :: l)
    rw [firstMax, ← ih]
    cases hs : sortByWeight l with
    | nil => rfl
    | cons b s =>
      simp only [List.orderedInsert]
      by_cases hle : b.weight ≤ a.weight
      · simp [hle]
      · simp [hle]

theorem firstMax_eq_none {l : List Candidate} (h : firstMax l = none) : l = [] := by
  cases l with
  | nil => rfl
  | cons a l =>
    rw [firstMax] at h
    split at h
    · cases h
    · split at h <;> cases h

theorem firstMax_spec {l : List Candidate} {m : Candidate} (h : firstMax l = some m) :
    ∃ i, ∃ hi : i < l.length, l.get ⟨i, hi⟩ = m ∧ (∀ c ∈ l, c.weight ≤ m.weight) ∧
      ∀ j, ∀ hj : j < l.length, j < i → (l.get ⟨j, hj⟩).weight < m.weight := by
  induction l generalizing m with
  | nil => cases h
  | cons a l ih =>
    rw [firstMax] at h
    split at h
    · rename_i hn
      cases h
      have := firstMax_eq_none hn
      subst this
      exact ⟨0, by simp, rfl, by simp, by intro j hj hlt; omega⟩
    · rename_i b hb
      obtain ⟨i, hi, hget, hmax, hfirst⟩ := ih hb
      split at h
      · rename_i hle
        cases h
        refine ⟨0, by simp, rfl, ?_, by intro j hj hlt; omega⟩
        intro c hc
        rcases List.mem_cons.mp hc with rfl | hc
        · exact le_refl _
        · exact le_trans (hmax c hc) hle
      · rename_i hlt
        cases h
        refine ⟨i + 1, by simp; omega, by simpa using hget, ?_, ?_⟩
        · intro c hc
          rcases List.mem_cons.mp hc with rfl | hc
          · omega
          · exact hmax c hc
        · intro j hj hji
          cases j with
          | zero => simp; omega
          | succ j =>
            have := hfirst j (by simp at hj; omega) (by omega)
            simpa using this

theorem resolveConflicts_eq (ms : List Candidate) (pairs : List ConflictPair) (text : Text)
    {m : Candidate} (h : firstMax (applyPairs text ms pairs) = some m) :
    resolveConflicts ms pairs text = Code (capitalize m.lang) := by
  unfold resolveConflicts
  have hs := head?_sortByWeight (applyPairs text ms pairs)
  rw [h] at hs
  cases hl : sortByWeight (applyPairs text ms pairs) with
  | nil => rw [hl] at hs; cases hs
  | cons c cs =>
    rw [hl] at hs
    simp only [List.head?] at hs
    cases hs
    rfl

theorem firstMax_isSome {l : List Candidate} (h : l ≠ []) : ∃ m, firstMax l = some m := by
  cases hf : firstMax l with
  | none => exact absurd (firstMax_eq_none hf) h
  | some m => exact ⟨m, rfl⟩

theorem filterMap_single {α β : Type} (f : α → Option β) (key : α → String) :
    ∀ (l : List α) (e : α) (c : β), (l.map key).Nodup → e ∈ l → f e = some c →
      (∀ x ∈ l, key x ≠ key e → f x = none) → l.filterMap f = [c] := by
  intro l
  induction l with
  | nil => intro e c _ he; cases he
  | cons a l ih =>
    intro e c hnd he hfe hrest
    rw [List.map_cons, List.nodup_cons] at hnd
    rcases List.mem_cons.mp he with rfl | hel
    · rw [List.filterMap_cons, hfe]
      have hnil : l.filterMap f = [] := by
        rw [List.filterMap_eq_nil_iff]
        intro x hx
        apply hrest x (List.mem_cons_of_mem _ hx)
        intro hk
        exact hnd.1 (hk ▸ List.mem_map_of_mem key hx)
      rw [hnil]
    · have hne : key a ≠ key e := by
        intro hk
        exact hnd.1 (hk ▸ List.mem_map_of_mem key hel)
      rw [List.filterMap_cons, hrest a (List.mem_cons_self _ _) hne]
      exact ih e c hnd.2 hel hfe (fun x hx => hrest x (List.mem_cons_of_mem _ hx))

theorem orElse_isSome_of_right (a : Option St) (b : Unit → Option St)
    (h : (b ()).isSome = true) : (orElse a b).isSome = true := by
  unfold orElse
  cases a with
  | none => exact h
  | some e => rfl

theorem loopGo_some_isSome (step : St → Cont → Option St) (fuel : List Nat) (st : St) :
    (loopGo step true fuel st some).isSome = true := by
  cases fuel with
  | nil => rfl
  | cons x fuel =>
    unfold loopGo
    simp only [if_true]
    exact orElse_isSome_of_right _ _ rfl

theorem run_gateIndent (prev : Option Nat) (rest : Text) (caps : List (Nat × Text)) :
    (Re.run false true gateIndent ⟨prev, rest, caps⟩ some).isSome =
      (lineStart prev && twoSpaces rest) := by
  have hstep : ∀ (st : St) (k : Cont), Re.run false true ws st k =
      match st.rest with
      | [] => none
      | x :: xs => if isSpace x then k ⟨some x, xs, st.caps⟩ else none := by
    intro st k
    simp only [ws, Re.run, Re.compile, runSet]
    cases st.rest with
    | nil => rfl
    | cons x xs => simp [CItem.test]
  have hrep : ∀ st : St, (repGo (Re.run false true ws) true 2 st some).isSome =
      twoSpaces st.rest := by
    intro st
    simp only [repGo, hstep]
    cases hr : st.rest with
    | nil => rfl
    | cons x xs =>
      cases xs with
      | nil => cases hx : isSpace x <;> simp [twoSpaces, hx]
      | cons y ys =>
        cases hx : isSpace x <;> cases hy : isSpace y <;>
          simp [twoSpaces, hx, hy, loopGo_some_isSome]
  simp only [gateIndent, cat, atLeast, ws, Re.run, Re.compile, runBol]
  cases prev with
  | none => simpa [lineStart] using hrep ⟨none, rest, caps⟩
  | some p =>
    cases hp : isLineTerminator p
    · simp [lineStart, hp]
    · simpa [lineStart, hp] using hrep ⟨some p, rest, caps⟩

theorem searchGo_gateIndent (t : Text) (prev : Option Nat) :
    (searchGo false true gateIndent prev t).isSome = indented prev t := by
  induction t generalizing prev with
  | nil =>
    have h := run_gateIndent prev [] []
    unfold searchGo
    cases hr : Re.run false true gateIndent ⟨prev, [], []⟩ some with
    | none => simp [indented]
    | some e => rw [hr] at h; simp [twoSpaces] at h
  | cons x t ih =>
    have h := run_gateIndent prev (x :: t) []
    unfold searchGo
    cases hr : Re.run false true gateIndent ⟨prev, x :: t, []⟩ some with
    | none =>
      rw [hr] at h
      simp only [indented, ih (some x)]
      simp only [Option.isSome_none] at h
      rw [← h]; simp
    | some e =>
      rw [hr] at h
      simp only [indented]
      simp only [Option.isSome_some] at h
      rw [← h]; simp

/-- The pattern of the gate matches exactly when some line start is followed by two or
more white space characters. -/
theorem gateIndent_test (text : Text) :
    gateIndent.test false true text = indented none text :=
  searchGo_gateIndent text none


/-! ## The matcher and the words of a pattern -/

theorem lastPrev_nil (prev : Option Nat) : lastPrev prev [] = prev := rfl

theorem lastPrev_append_singleton (prev : Option Nat) (w : Text) (x : Nat) :
    lastPrev prev (w ++ [x]) = some x := by
  simp [lastPrev]

theorem lastPrev_cons (prev : Option Nat) (x : Nat) (w : Text) :
    lastPrev prev (x :: w) = lastPrev (some x) w := by
  cases w with
  | nil => rfl
  | cons y t =>
    simp only [lastPrev, List.getLast?_cons_cons]
    cases h : (y :: t).getLast? with
    | none => simp at h
    | some z => rfl

theorem lastPrev_append (prev : Option Nat) (w1 w2 : Text) :
    lastPrev prev (w1 ++ w2) = lastPrev (lastPrev prev w1) w2 := by
  induction w1 generalizing prev with
  | nil => rfl
  | cons x t ih => rw [List.cons_append, lastPrev_cons, lastPrev_cons, ih]

theorem shorter_cons (x : Nat) (t : Text) : shorter t (x :: t) = true := by
  induction t generalizing x with
  | nil => rfl
  | cons y t ih => exact ih y

theorem runSet_eq (ci neg : Bool) (items : List CItem) (st : St) (k : Cont) :
    runSet ci neg items st k =
      match st.rest with
      | [] => none
      | x :: xs => if inClass ci neg items x = true then k ⟨some x, xs, st.caps⟩ else none := rfl

theorem litGo_sound (ci : Bool) : ∀ (cs : List Nat) (prev : Option Nat) (rest : Text)
    (p : Option Nat) (r : Text), litGo ci cs prev rest = some (p, r) →
    ∃ w, rest = w ++ r ∧ List.Forall₂ (fun c x => sameUnit ci c x = true) cs w ∧
      p = lastPrev prev w := by
  intro cs
  induction cs with
  | nil =>
    intro prev rest p r h
    simp only [litGo, Option.some.injEq, Prod.mk.injEq] at h
    exact ⟨[], by simp [h.2], List.Forall₂.nil, h.1.symm⟩
  | cons c cs ih =>
    intro prev rest p r h
    cases rest with
    | nil => simp [litGo] at h
    | cons x xs =>
      simp only [litGo] at h
      split at h
      · rename_i hx
        obtain ⟨w, hw, hf, hp⟩ := ih (some x) xs p r h
        exact ⟨x :: w, by simp [hw], List.Forall₂.cons hx hf, by rw [lastPrev_cons]; exact hp⟩
      · cases h

theorem orElse_eq_some {a : Option St} {b : Unit → Option St} {e : St}
    (h : orElse a b = some e) : a = some e ∨ (a = none ∧ b () = some e) := by
  unfold orElse at h
  cases a with
  | none => exact Or.inr ⟨rfl, h⟩
  | some x => exact Or.inl h

theorem ifProgress_eq_some {st st1 e : St} {k : Cont} (h : ifProgress st k st1 = some e) :
    k st1 = some e := by
  unfold ifProgress at h
  split at h
  · exact h
  · cases h

theorem loopGo_sound {L : Option Nat → Text → Text → Prop} {step : St → Cont → Option St}
    (hstep : Sound L step) (greedy : Bool) :
    ∀ (fuel : List Nat) (st : St) (k : Cont) (e : St), loopGo step greedy fuel st k = some e →
      ∃ w after caps, st.rest = w ++ after ∧ RepLang L 0 st.prev w after ∧
        k ⟨lastPrev st.prev w, after, caps⟩ = some e := by
  intro fuel
  induction fuel with
  | nil =>
    intro st k e h
    exact ⟨[], st.rest, st.caps, rfl, RepLang.nil, h⟩
  | cons f fuel ih =>
    intro st k e h
    have iter : ∀ e, step st (ifProgress st (fun st1 => loopGo step greedy fuel st1 k)) = some e →
        ∃ w after caps, st.rest = w ++ after ∧ RepLang L 0 st.prev w after ∧
          k ⟨lastPrev st.prev w, after, caps⟩ = some e := by
      intro e h1
      obtain ⟨w1, after1, caps1, hr, hl, hk⟩ := hstep _ _ _ h1
      obtain ⟨w2, after2, caps2, hr2, hl2, hk2⟩ := ih _ _ _ (ifProgress_eq_some hk)
      simp only at hr2 hl2 hk2
      refine ⟨w1 ++ w2, after2, caps2, by rw [hr, hr2, List.append_assoc], ?_, ?_⟩
      · exact RepLang.cons (hr2 ▸ hl) hl2
      · rw [lastPrev_append]; exact hk2
    have stop : ∀ e, k st = some e →
        ∃ w after caps, st.rest = w ++ after ∧ RepLang L 0 st.prev w after ∧
          k ⟨lastPrev st.prev w, after, caps⟩ = some e :=
      fun e h1 => ⟨[], st.rest, st.caps, rfl, RepLang.nil, h1⟩
    unfold loopGo at h
    cases greedy with
    | true =>
      simp only [if_true] at h
      rcases orElse_eq_some h with h1 | ⟨-, h1⟩
      · exact iter e h1
      · exact stop e h1
    | false =>
      simp only [Bool.false_eq_true, if_false] at h
      rcases orElse_eq_some h with h1 | ⟨-, h1⟩
      · exact stop e h1
      · exact iter e h1

theorem repGo_sound {L : Option Nat → Text → Text → Prop} {step : St → Cont → Option St}
    (hstep : Sound L step) (greedy : Bool) :
    ∀ (min : Nat), Sound (RepLang L min) (repGo step greedy min) := by
  intro min
  induction min with
  | zero =>
    intro st k e h
    exact loopGo_sound hstep greedy _ st k e h
  | succ n ih =>
    intro st k e h
    unfold repGo at h
    obtain ⟨w1, after1, caps1, hr, hl, hk⟩ := hstep _ _ _ h
    obtain ⟨w2, after2, caps2, hr2, hl2, hk2⟩ := ih _ _ _ hk
    simp only at hr2 hl2 hk2
    refine ⟨w1 ++ w2, after2, caps2, by rw [hr, hr2, List.append_assoc], ?_, ?_⟩
    · exact RepLang.cons (hr2 ▸ hl) hl2
    · rw [lastPrev_append]; exact hk2

/-- The matcher of a pattern consumes only words of the pattern. -/
theorem run_sound (ci ml : Bool) : ∀ r : Re, Sound (Lang ci ml r) (Re.run ci ml r) := by
  intro r
  induction r with
  | eps =>
    intro st k e h
    exact ⟨[], st.rest, st.caps, rfl, rfl, h⟩
  | fail =>
    intro st k e h
    cases h
  | lit s =>
    intro st k e h
    simp only [Re.run, Re.compile, runLit] at h
    split at h
    · rename_i p r hl
      obtain ⟨w, hw, hf, hp⟩ := litGo_sound ci _ _ _ _ _ hl
      exact ⟨w, r, st.caps, hw, hf, hp ▸ h⟩
    · cases h
  | set neg items =>
    intro st k e h
    simp only [Re.run, Re.compile, runSet_eq] at h
    split at h
    · cases h
    · rename_i x xs hr
      split at h
      · rename_i hx
        exact ⟨[x], xs, st.caps, hr, ⟨x, rfl, hx⟩, h⟩
      · cases h
  | dot =>
    intro st k e h
    simp only [Re.run, Re.compile, runDot] at h
    split at h
    · cases h
    · rename_i x xs hr
      split at h
      · cases h
      · rename_i hx
        exact ⟨[x], xs, st.caps, hr, ⟨x, rfl, by simpa using hx⟩, h⟩
  | seq a b iha ihb =>
    intro st k e h
    obtain ⟨w1, after1, caps1, hr, hl, hk⟩ := iha st _ e h
    obtain ⟨w2, after2, caps2, hr2, hl2, hk2⟩ := ihb _ _ e hk
    simp only at hr2 hl2 hk2
    refine ⟨w1 ++ w2, after2, caps2, by rw [hr, hr2, List.append_assoc], ?_, ?_⟩
    · exact ⟨w1, w2, rfl, hr2 ▸ hl, hl2⟩
    · rw [lastPrev_append]; exact hk2
  | alt a b iha ihb =>
    intro st k e h
    simp only [Re.run, Re.compile] at h
    rcases orElse_eq_some h with h1 | ⟨-, h1⟩
    · obtain ⟨w, after, caps, hr, hl, hk⟩ := iha st k e h1
      exact ⟨w, after, caps, hr, Or.inl hl, hk⟩
    · obtain ⟨w, after, caps, hr, hl, hk⟩ := ihb st k e h1
      exact ⟨w, after, caps, hr, Or.inr hl, hk⟩
  | rep min greedy r ih =>
    intro st k e h
    exact repGo_sound ih greedy min st k e h
  | opt r ih =>
    intro st k e h
    simp only [Re.run, Re.compile] at h
    rcases orElse_eq_some h with h1 | ⟨-, h1⟩
    · obtain ⟨w, after, caps, hr, hl, hk⟩ := ih st _ e h1
      exact ⟨w, after, caps, hr, Or.inr hl, ifProgress_eq_some hk⟩
    · exact ⟨[], st.rest, st.caps, rfl, Or.inl rfl, h1⟩
  | bol =>
    intro st k e h
    simp only [Re.run, Re.compile, runBol] at h
    split at h
    · rename_i hp
      exact ⟨[], st.rest, st.caps, rfl, ⟨rfl, Or.inl hp⟩, h⟩
    · rename_i p hp
      split at h
      · rename_i hml
        exact ⟨[], st.rest, st.caps, rfl, ⟨rfl, Or.inr ⟨p, hp, hml⟩⟩, h⟩
      · cases h
  | eol =>
    intro st k e h
    simp only [Re.run, Re.compile, runEol] at h
    split at h
    · rename_i hr
      exact ⟨[], st.rest, st.caps, rfl, ⟨rfl, Or.inl hr⟩, h⟩
    · rename_i x t hr
      split at h
      · rename_i hml
        exact ⟨[], st.rest, st.caps, rfl, ⟨rfl, Or.inr ⟨x, t, hr, hml⟩⟩, h⟩
      · cases h
  | wordB =>
    intro st k e h
    simp only [Re.run, Re.compile, runWordB] at h
    split at h
    · rename_i hb
      exact ⟨[], st.rest, st.caps, rfl, ⟨rfl, hb⟩, h⟩
    · cases h
  | nla r _ =>
    intro st k e h
    simp only [Re.run, Re.compile, runNla] at h
    split at h
    · cases h
    · exact ⟨[], st.rest, st.caps, rfl, rfl, h⟩
  | grp n r ih =>
    intro st k e h
    obtain ⟨w, after, caps, hr, hl, hk⟩ := ih st _ e h
    exact ⟨w, after, _, hr, hl, hk⟩

/-- A match found by the search starts at some index of the text and is a success of the
matcher there, with no capture made yet. -/
theorem searchGo_sound (ci ml : Bool) (re : Re) : ∀ (rest : Text) (prev : Option Nat)
    (s e : St), searchGo ci ml re prev rest = some (s, e) →
    ∃ pre, rest = pre ++ s.rest ∧ s.prev = lastPrev prev pre ∧ s.caps = [] ∧
      re.run ci ml s some = some e := by
  intro rest
  induction rest with
  | nil =>
    intro prev s e h
    unfold searchGo at h
    split at h
    · rename_i e' hr
      simp only [Option.some.injEq, Prod.mk.injEq] at h
      obtain ⟨rfl, rfl⟩ := h
      exact ⟨[], rfl, rfl, rfl, hr⟩
    · cases h
  | cons x t ih =>
    intro prev s e h
    unfold searchGo at h
    split at h
    · rename_i e' hr
      simp only [Option.some.injEq, Prod.mk.injEq] at h
      obtain ⟨rfl, rfl⟩ := h
      exact ⟨[], rfl, rfl, rfl, hr⟩
    · obtain ⟨pre, hp, hprev, hc, hr⟩ := ih (some x) s e h
      exact ⟨x :: pre, by rw [hp]; rfl, by rw [lastPrev_cons]; exact hprev, hc, hr⟩

/-! ## Loops over a character class -/

theorem run_seq (ci ml : Bool) (a b : Re) (st : St) (k : Cont) :
    Re.run ci ml (.seq a b) st k = Re.run ci ml a st (fun st1 => Re.run ci ml b st1 k) := rfl

theorem run_lit (ci ml : Bool) (s : String) (st : St) (k : Cont) :
    Re.run ci ml (.lit s) st k = runLit ci s st k := rfl

theorem run_grp (ci ml : Bool) (n : Nat) (r : Re) (st : St) (k : Cont) :
    Re.run ci ml (.grp n r) st k = Re.run ci ml r st (capture n st k) := rfl

theorem run_rep_set (ci ml : Bool) (min : Nat) (greedy neg : Bool) (items : List CItem)
    (st : St) (k : Cont) :
    Re.run ci ml (.rep min greedy (.set neg items)) st k =
      repGo (runSet ci neg items) greedy min st k := rfl

theorem run_bol_none (ci ml : Bool) (rest : Text) (caps : List (Nat × Text)) (k : Cont) :
    Re.run ci ml .bol ⟨none, rest, caps⟩ k = k ⟨none, rest, caps⟩ := rfl

theorem litGo_self (cs : List Nat) : ∀ (prev : Option Nat) (rest : Text),
    litGo false cs prev (cs ++ rest) = some (lastPrev prev cs, rest) := by
  induction cs with
  | nil => intro prev rest; rfl
  | cons c cs ih =>
    intro prev rest
    simp only [List.cons_append, litGo, sameUnit, Bool.false_eq_true, if_false, Nat.beq_refl,
      if_true]
    rw [ih, lastPrev_cons]

theorem runLit_self (s : String) (prev : Option Nat) (rest : Text) (caps : List (Nat × Text))
    (k : Cont) :
    runLit false s ⟨prev, js s ++ rest, caps⟩ k = k ⟨lastPrev prev (js s), rest, caps⟩ := by
  simp only [runLit, litGo_self]

theorem runLit_head_ne (ci : Bool) (s : String) (c : Nat) (cs : List Nat) (hs : js s = c :: cs)
    (p : Option Nat) (x : Nat) (r : Text) (caps : List (Nat × Text)) (k : Cont)
    (hx : sameUnit ci c x = false) : runLit ci s ⟨p, x :: r, caps⟩ k = none := by
  simp only [runLit, hs, litGo, hx, Bool.false_eq_true, if_false]

theorem takeWhile_append_stop (P : Nat → Bool) (pre : Text) (y : Nat) (r : Text)
    (hpre : ∀ x ∈ pre, P x = true) (hy : P y = false) :
    (pre ++ y :: r).takeWhile P = pre ∧ (pre ++ y :: r).dropWhile P = y :: r := by
  induction pre with
  | nil => simp [List.takeWhile, List.dropWhile, hy]
  | cons x t ih =>
    have hx := hpre x (List.mem_cons_self _ _)
    have := ih (fun z hz => hpre z (List.mem_cons_of_mem _ hz))
    simp [List.takeWhile, List.dropWhile, hx, this.1, this.2]

/-- A greedy loop over a character class hands the text behind the longest run of the
class to its continuation, when the continuation succeeds there or fails wherever a unit
of the class comes next. -/
theorem loopGo_set (ci neg : Bool) (items : List CItem) (k : Cont) (caps : List (Nat × Text)) :
    ∀ (fuel rest : Text) (prev : Option Nat), rest.length ≤ fuel.length →
      ((∀ p x r, inClass ci neg items x = true → k ⟨p, x :: r, caps⟩ = none) ∨
        (k ⟨lastPrev prev (rest.takeWhile (inClass ci neg items)),
          rest.dropWhile (inClass ci neg items), caps⟩).isSome = true) →
      loopGo (runSet ci neg items) true fuel ⟨prev, rest, caps⟩ k =
        k ⟨lastPrev prev (rest.takeWhile (inClass ci neg items)),
          rest.dropWhile (inClass ci neg items), caps⟩ := by
  intro fuel
  induction fuel with
  | nil =>
    intro rest prev hlen _
    have : rest = [] := List.length_eq_zero.mp (Nat.le_zero.mp hlen)
    subst this
    rfl
  | cons f fuel ih =>
    intro rest prev hlen H
    cases rest with
    | nil => rfl
    | cons x xs =>
      unfold loopGo
      simp only [if_true, runSet_eq]
      cases hx : inClass ci neg items x with
      | false =>
        simp only [Bool.false_eq_true, if_false, orElse, List.takeWhile, List.dropWhile, hx]
        rfl
      | true =>
        simp only [if_true, ifProgress, shorter_cons, List.takeWhile, List.dropWhile, hx]
        have hlen' : xs.length ≤ fuel.length := by simpa using hlen
        have H' : (∀ p x r, inClass ci neg items x = true → k ⟨p, x :: r, caps⟩ = none) ∨
            (k ⟨lastPrev (some x) (xs.takeWhile (inClass ci neg items)),
              xs.dropWhile (inClass ci neg items), caps⟩).isSome = true := by
          rcases H with H | H
          · exact Or.inl H
          · right
            simpa [List.takeWhile, List.dropWhile, hx, lastPrev_cons] using H
        rw [ih xs (some x) hlen' H', lastPrev_cons]
        cases hR : k ⟨lastPrev (some x) (xs.takeWhile (inClass ci neg items)),
            xs.dropWhile (inClass ci neg items), caps⟩ with
        | some e => rfl
        | none =>
          simp only [orElse]
          rcases H' with H | H
          · exact H prev x xs hx
          · rw [hR] at H; cases H

theorem repGo_set (ci neg : Bool) (items : List CItem) (k : Cont) (caps : List (Nat × Text)) :
    ∀ (n : Nat) (rest : Text) (prev : Option Nat),
      n ≤ (rest.takeWhile (inClass ci neg items)).length →
      ((∀ p x r, inClass ci neg items x = true → k ⟨p, x :: r, caps⟩ = none) ∨
        (k ⟨lastPrev prev (rest.takeWhile (inClass ci neg items)),
          rest.dropWhile (inClass ci neg items), caps⟩).isSome = true) →
      repGo (runSet ci neg items) true n ⟨prev, rest, caps⟩ k =
        k ⟨lastPrev prev (rest.takeWhile (inClass ci neg items)),
          rest.dropWhile (inClass ci neg items), caps⟩ := by
  intro n
  induction n with
  | zero =>
    intro rest prev _ H
    exact loopGo_set ci neg items k caps rest rest prev (le_refl _) H
  | succ n ih =>
    intro rest prev hn H
    cases rest with
    | nil => simp at hn
    | cons x xs =>
      cases hx : inClass ci neg items x with
      | false => simp [List.takeWhile, hx] at hn
      | true =>
        unfold repGo
        simp only [runSet_eq, hx, if_true, List.takeWhile, List.dropWhile]
        have hn' : n ≤ (xs.takeWhile (inClass ci neg items)).length := by
          simpa [List.takeWhile, hx] using hn
        have H' : (∀ p x r, inClass ci neg items x = true → k ⟨p, x :: r, caps⟩ = none) ∨
            (k ⟨lastPrev (some x) (xs.takeWhile (inClass ci neg items)),
              xs.dropWhile (inClass ci neg items), caps⟩).isSome = true := by
          rcases H with H | H
          · exact Or.inl H
          · right
            simpa [List.takeWhile, List.dropWhile, hx, lastPrev_cons] using H
        rw [ih xs (some x) hn' H', lastPrev_cons]

theorem runLit_cons1 {s : String} {c : Nat} (hs : js s = [c]) (prev : Option Nat)
    (rest : Text) (caps : List (Nat × Text)) (k : Cont) :
    runLit false s ⟨prev, c :: rest, caps⟩ k = k ⟨some c, rest, caps⟩ := by
  simp only [runLit, hs, litGo, sameUnit, Bool.false_eq_true, if_false, Nat.beq_refl, if_true]

theorem searchGo_of_run (ci ml : Bool) (re : Re) (prev : Option Nat) (rest : Text) (e : St)
    (h : re.run ci ml ⟨prev, rest, []⟩ some = some e) :
    searchGo ci ml re prev rest = some (⟨prev, rest, []⟩, e) := by
  cases rest with
  | nil => unfold searchGo; rw [h]
  | cons x t => unfold searchGo; rw [h]

theorem upTo_append (w after : Text) : upTo (w ++ after) after = w := by
  simp [upTo]

theorem sameUnit_false_of (P : Nat → Bool) (c x : Nat) (hc : P c = false) (hx : P x = true) :
    sameUnit false c x = false := by
  simp only [sameUnit, Bool.false_eq_true, if_false]
  cases h : Nat.beq c x with
  | false => rfl
  | true =>
    have : c = x := Nat.eq_of_beq_eq_true h
    rw [this, hx] at hc
    cases hc

theorem upTo_dropWhile (P : Nat → Bool) (l : Text) : upTo l (l.dropWhile P) = l.takeWhile P := by
  have h := List.takeWhile_append_dropWhile P l
  have h2 : upTo (l.takeWhile P ++ l.dropWhile P) (l.dropWhile P) = l.takeWhile P :=
    upTo_append _ _
  rwa [h] at h2

theorem runLit_of_eq {s : String} {cs : List Nat} (hs : js s = cs) (prev : Option Nat)
    (rest : Text) (caps : List (Nat × Text)) (k : Cont) :
    runLit false s ⟨prev, cs ++ rest, caps⟩ k = k ⟨lastPrev prev cs, rest, caps⟩ := by
  subst hs
  exact runLit_self s prev rest caps k

theorem base64_run (m1 m2 tail : Text)
    (h1 : m1 ≠ []) (h1' : ∀ x ∈ m1, mimeTypeUnit x = true)
    (h2 : m2 ≠ []) (h2' : ∀ x ∈ m2, mimeSubtypeUnit x = true)
    (h3 : 20 ≤ (tail.takeWhile base64Unit).length) :
    Re.run false false base64Pattern
      ⟨none, js "data:" ++ (m1 ++ 47 :: (m2 ++ (js ";base64," ++ tail))), []⟩ some =
      some ⟨lastPrev (some 44) (tail.takeWhile base64Unit), tail.dropWhile base64Unit,
        [(2, tail.takeWhile base64Unit), (1, m1 ++ 47 :: m2)]⟩ := by
  have hslash : js "/" = [47] := by decide
  have hsemi : js ";base64," = [59, 98, 97, 115, 101, 54, 52, 44] := by decide
  have hP1 : mimeTypeUnit 47 = false := by decide
  have hP2 : mimeSubtypeUnit 59 = false := by decide
  obtain ⟨t1a, t1b⟩ := takeWhile_append_stop mimeTypeUnit m1 47
    (m2 ++ (js ";base64," ++ tail)) h1' hP1
  have hX2 : js ";base64," ++ tail = 59 :: ([98, 97, 115, 101, 54, 52, 44] ++ tail) := by
    rw [hsemi]; rfl
  have t2 := takeWhile_append_stop mimeSubtypeUnit m2 59
    ([98, 97, 115, 101, 54, 52, 44] ++ tail) h2' hP2
  rw [← hX2] at t2
  obtain ⟨t2a, t2b⟩ := t2
  have l1 : 1 ≤ m1.length := Nat.pos_of_ne_zero (fun h => h1 (List.length_eq_zero.mp h))
  have l2 : 1 ≤ m2.length := Nat.pos_of_ne_zero (fun h => h2 (List.length_eq_zero.mp h))
  simp only [base64Pattern, cat, lit, grp, plus, atLeast, cls, run_seq, run_bol_none, run_lit,
    runLit_self, run_grp, run_rep_set]
  rw [repGo_set false false _ _ [] 1 _ _ (by
      show 1 ≤ (List.takeWhile mimeTypeUnit _).length
      rw [t1a]; exact l1) (Or.inl (by
      intro p x r hx
      exact runLit_head_ne false "/" 47 [] hslash p x r [] _
        (sameUnit_false_of mimeTypeUnit 47 x hP1 hx)))]
  show runLit false "/" ⟨lastPrev _ (List.takeWhile mimeTypeUnit _),
    List.dropWhile mimeTypeUnit _, []⟩ _ = _
  rw [t1a, t1b]
  rw [runLit_cons1 hslash]
  rw [repGo_set false false _ _ [] 1 _ _ (by
      show 1 ≤ (List.takeWhile mimeSubtypeUnit _).length
      rw [t2a]; exact l2) (Or.inl (by
      intro p x r hx
      simp only [capture]
      exact runLit_head_ne false ";base64," 59 _ hsemi p x r _ _
        (sameUnit_false_of mimeSubtypeUnit 59 x hP2 hx)))]
  show capture 1 _ _ ⟨lastPrev _ (List.takeWhile mimeSubtypeUnit _),
    List.dropWhile mimeSubtypeUnit _, []⟩ = _
  rw [t2a, t2b]
  simp only [capture, runLit_self]
  rw [repGo_set false false _ _ _ 20 _ _ h3 (Or.inr (by rfl))]
  have e1 : lastPrev (lastPrev (some 47) m2) (js ";base64,") = some 44 := by
    rw [hsemi]; rfl
  have e2 : upTo (m1 ++ 47 :: (m2 ++ (js ";base64," ++ tail))) (js ";base64," ++ tail) =
      m1 ++ 47 :: m2 := by
    have : m1 ++ 47 :: (m2 ++ (js ";base64," ++ tail)) =
        (m1 ++ 47 :: m2) ++ (js ";base64," ++ tail) := by simp
    rw [this, upTo_append]
  simp only [capture, e1, e2, upTo_dropWhile]
  rfl

theorem cap_head (prev : Option Nat) (rest : Text) (n : Nat) (w : Text)
    (caps : List (Nat × Text)) : St.cap ⟨prev, rest, (n, w) :: caps⟩ n = some w := by
  simp [St.cap, List.find?]

/-- On a text that begins with an inline data payload, detectFile returns the file of
the payload. -/
theorem detectFile_of_payload (m1 m2 tail : Text) (h : InlinePayload m1 m2 tail) :
    detectFile (payloadText m1 m2 tail) =
      .file (js "file." ++ toLowerCase (getExtensionFromMime (m1 ++ 47 :: m2)))
        (getExtensionFromMime (m1 ++ 47 :: m2)) (.base64 (payloadText m1 m2 tail)) := by
  obtain ⟨h1, h1', h2, h2', h3⟩ := h
  have hrun := base64_run m1 m2 tail h1 h1' h2 h2' h3
  have hexec := searchGo_of_run false false base64Pattern none _ _ hrun
  unfold detectFile Re.exec payloadText
  rw [hexec]
  simp [St.cap, List.find?]

theorem lastPrev_eq_none {pre : Text} (h : lastPrev none pre = none) : pre = [] := by
  cases pre with
  | nil => rfl
  | cons x t =>
    rw [lastPrev_cons] at h
    have : ∀ (t : Text) (y : Nat), lastPrev (some y) t ≠ none := by
      intro t
      induction t with
      | nil => intro y hy; cases hy
      | cons z t ih => intro y hy; rw [lastPrev_cons] at hy; exact ih z hy
    exact absurd h (this t x)

theorem forall2_sameUnit_false {cs w : List Nat}
    (h : List.Forall₂ (fun c x => sameUnit false c x = true) cs w) : w = cs := by
  induction h with
  | nil => rfl
  | cons hx _ ih =>
    simp only [sameUnit, Bool.false_eq_true, if_false] at hx
    rw [ih, Nat.eq_of_beq_eq_true hx]

theorem repLang_class {L : Option Nat → Text → Text → Prop} {P : Nat → Bool}
    (hL : ∀ p w a, L p w a → ∃ x, w = [x] ∧ P x = true) {n : Nat} {prev : Option Nat}
    {w after : Text} (h : RepLang L n prev w after) :
    (∀ x ∈ w, P x = true) ∧ n ≤ w.length := by
  induction h with
  | nil => exact ⟨by simp, le_refl _⟩
  | cons hl _ ih =>
    obtain ⟨x, rfl, hx⟩ := hL _ _ _ hl
    refine ⟨?_, ?_⟩
    · intro y hy
      rcases List.mem_append.mp hy with hy | hy
      · rw [List.mem_singleton.mp hy]; exact hx
      · exact ih.1 y hy
    · have := ih.2
      simp only [List.length_append, List.length_singleton]
      omega

theorem append_stop_unique (P : Nat → Bool) {a b : Text} {y : Nat} {r s : Text}
    (ha : ∀ x ∈ a, P x = true) (hb : ∀ x ∈ b, P x = true) (hy : P y = false)
    (h : a ++ y :: r = b ++ y :: s) : a = b ∧ r = s := by
  have ta := takeWhile_append_stop P a y r ha hy
  have tb := takeWhile_append_stop P b y s hb hy
  rw [h] at ta
  have hab : a = b := by rw [← ta.1, tb.1]
  have hrs : y :: r = y :: s := by rw [← ta.2, tb.2]
  exact ⟨hab, (List.cons.inj hrs).2⟩

theorem takeWhile_length_ge (P : Nat → Bool) (b after : Text) (hb : ∀ x ∈ b, P x = true) :
    b.length ≤ ((b ++ after).takeWhile P).length := by
  induction b with
  | nil => simp
  | cons x t ih =>
    have hx := hb x (List.mem_cons_self _ _)
    have := ih (fun z hz => hb z (List.mem_cons_of_mem _ hz))
    rw [List.cons_append, List.takeWhile_cons_of_pos hx]
    simp only [List.length_cons]
    omega

/-- The words of base64Pattern: where it matches, the text begins with an inline data
payload. -/
theorem base64_exec_sound (text : Text) (s e : St)
    (h : base64Pattern.exec false false text = some (s, e)) :
    ∃ m1 m2 tail, InlinePayload m1 m2 tail ∧ text = payloadText m1 m2 tail := by
  obtain ⟨pre, hpre, hprev, -, hrun⟩ := searchGo_sound false false base64Pattern text none s e h
  obtain ⟨w, after, caps, hw, hl, -⟩ := run_sound false false base64Pattern s some e hrun
  simp only [base64Pattern, cat, lit, grp, plus, atLeast, cls, Lang] at hl
  obtain ⟨w0, wA, rfl, ⟨rfl, hbol⟩, w1, wB, rfl, hdata, w2, w3, rfl,
    ⟨a1, w4, rfl, hr1, w5, a2, rfl, hslash, hr2⟩, w6, b, rfl, hsemi, hr3⟩ := hl
  have hnone : s.prev = none := by
    rcases hbol with hb | ⟨p, -, hb⟩
    · exact hb
    · simp at hb
  rw [hnone] at hprev
  have hpre0 : pre = [] := lastPrev_eq_none hprev.symm
  subst hpre0
  have e1 := forall2_sameUnit_false hdata
  have e2 := forall2_sameUnit_false hslash
  have e3 := forall2_sameUnit_false hsemi
  have hj : js "/" = [47] := by decide
  rw [hj] at e2
  subst e1 e2 e3
  obtain ⟨p1, n1⟩ := repLang_class (P := mimeTypeUnit) (fun _ _ _ h => h) hr1
  obtain ⟨p2, n2⟩ := repLang_class (P := mimeSubtypeUnit) (fun _ _ _ h => h) hr2
  obtain ⟨p3, n3⟩ := repLang_class (P := base64Unit) (fun _ _ _ h => h) hr3
  refine ⟨a1, a2, b ++ after, ⟨?_, p1, ?_, p2, ?_⟩, ?_⟩
  · intro h0; rw [h0] at n1; simp at n1
  · intro h0; rw [h0] at n2; simp at n2
  · exact le_trans n3 (takeWhile_length_ge base64Unit b after p3)
  · rw [List.nil_append] at hpre
    rw [hpre, hw]
    simp [payloadText, List.append_assoc]

theorem payloadText_inj {m1 m2 tail a1 a2 rest : Text}
    (h1 : ∀ x ∈ m1, mimeTypeUnit x = true) (h2 : ∀ x ∈ m2, mimeSubtypeUnit x = true)
    (g1 : ∀ x ∈ a1, mimeTypeUnit x = true) (g2 : ∀ x ∈ a2, mimeSubtypeUnit x = true)
    (h : payloadText m1 m2 tail = payloadText a1 a2 rest) :
    m1 = a1 ∧ m2 = a2 ∧ tail = rest := by
  have hsemi : js ";base64," = [59, 98, 97, 115, 101, 54, 52, 44] := by decide
  unfold payloadText at h
  have hA := List.append_cancel_left h
  obtain ⟨e1, hB⟩ := append_stop_unique mimeTypeUnit h1 g1 (by decide) hA
  rw [hsemi] at hB
  obtain ⟨e2, h3⟩ := append_stop_unique mimeSubtypeUnit h2 g2 (by decide) hB
  exact ⟨e1, e2, List.append_cancel_left h3⟩

/-- With fewer than 20 base64 characters behind `;base64,` the pattern of the data payload
does not match. -/
theorem base64_exec_none (m1 m2 tail : Text)
    (h1 : ∀ x ∈ m1, mimeTypeUnit x = true) (h2 : ∀ x ∈ m2, mimeSubtypeUnit x = true)
    (h3 : (tail.takeWhile base64Unit).length < 20) :
    base64Pattern.exec false false (payloadText m1 m2 tail) = none := by
  cases hex : base64Pattern.exec false false (payloadText m1 m2 tail) with
  | none => rfl
  | some se =>
    obtain ⟨a1, a2, rest, ⟨-, g1, -, g2, g3⟩, heq⟩ :=
      base64_exec_sound _ se.1 se.2 hex
    obtain ⟨-, -, e3⟩ := payloadText_inj h1 h2 g1 g2 heq
    rw [e3] at h3
    omega

theorem detectFile_not_base64 (text : Text) (h : base64Pattern.exec false false text = none) :
    ∀ f e d, detectFile text ≠ .file f e (.base64 d) := by
  intro f e d
  unfold detectFile
  rw [h]
  simp only
  split
  · intro hc; cases hc
  · intro hc; cases hc


/-! ## detectURL: the shape of the result -/

theorem detectURL_eq (text : Text) :
    detectURL text =
      match ((matchAll urlPattern true false text).map cleanUrl).filter (keepUrl text) with
      | [] => .noURL
      | [url] => .single url
      | urls => .multiple urls := by
  unfold detectURL
  cases h : matchAll urlPattern true false text with
  | nil => rfl
  | cons m ms => rfl

theorem detectURL_urls (text : Text) :
    (detectURL text).urls =
      ((matchAll urlPattern true false text).map cleanUrl).filter (keepUrl text) := by
  rw [detectURL_eq]
  split
  · next h => rw [h]; rfl
  · next u h => rw [h]; rfl
  · rfl

theorem keepUrl_eq_false (text url : Text) (i : Nat)
    (hidx : indexOf url text = some i) (hpos : 0 < i)
    (hbefore : beforeCharPattern.test false false (substring text (i - 1) i) = true)
    (hctx : (contextKeywords.test false false (substring text (i - 10) (i + url.length + 10)) ||
      contextImports.test false false (substring text (i - 10) (i + url.length + 10)) ||
      contextPunctuation.test false false (substring text (i - 10) (i + url.length + 10))) = true) :
    keepUrl text url = false := by
  unfold keepUrl
  rw [hidx]
  simp only [gt_iff_lt, hpos, if_true, hbefore, hctx]

/-! ## resolveConflicts: the weight of the language a rule keeps -/

theorem applyPair_of_present (text : Text) (ms : List Candidate) (pair : ConflictPair)
    (hboth : (ms.any (fun m => m.lang == pair.lang1) &&
      ms.any (fun m => m.lang == pair.lang2)) = true) :
    applyPair text ms pair =
      if (specificMatches pair text).1 > (specificMatches pair text).2 then
        ms.filter (fun m => m.lang != pair.lang1 && m.lang != pair.lang2) ++
          [⟨pair.lang1, pair.weight1⟩]
      else if (specificMatches pair text).2 > (specificMatches pair text).1 then
        ms.filter (fun m => m.lang != pair.lang1 && m.lang != pair.lang2) ++
          [⟨pair.lang2, pair.weight2⟩]
      else if pair.weight1 > pair.weight2 then
        ms.filter (fun m => m.lang != pair.lang1 && m.lang != pair.lang2) ++
          [⟨pair.lang1, pair.weight1⟩]
      else if pair.weight2 > pair.weight1 then
        ms.filter (fun m => m.lang != pair.lang1 && m.lang != pair.lang2) ++
          [⟨pair.lang2, pair.weight2⟩]
      else
        ms.filter (fun m => m.lang != pair.lang1 && m.lang != pair.lang2) ++
          ms.filter (fun m => m.lang == pair.lang1 || m.lang == pair.lang2) := by
  unfold applyPair
  simp only [hboth, if_true]

/-! ## getExtensionFromMime -/

theorem getExtensionFromMime_listed :
    ∀ e ∈ mimeMap, getExtensionFromMime (js e.1) = js e.2 := by
  decide!

theorem getExtensionFromMime_unlisted (mimeType : Text)
    (h : ∀ e ∈ mimeMap, mimeType ≠ js e.1) : getExtensionFromMime mimeType = js "FILE" := by
  unfold getExtensionFromMime
  have hnone : mimeMap.find? (fun e => js e.1 == mimeType) = none := by
    rw [List.find?_eq_none]
    intro e he hq
    have hq2 : js e.1 = mimeType := by simpa using hq
    exact h e he hq2.symm
  rw [hnone]

theorem addMessage_of_file (text : Text) (f e : Text) (s : FileSource)
    (h : detectFile text = .file f e s) : addMessage text = .file e := by
  unfold addMessage
  simp only [h, FileResult.isFile, FileResult.extension, if_true]

/-! ## Texts without a colon: no URL and no file -/

theorem startsWith_mem : ∀ (p t : Text), startsWith p t = true → ∀ c ∈ p, c ∈ t := by
  intro p
  induction p with
  | nil => intro t _ c hc; cases hc
  | cons a p ih =>
    intro t h c hc
    cases t with
    | nil => simp [startsWith] at h
    | cons b t =>
      simp only [startsWith, Bool.and_eq_true, beq_iff_eq] at h
      rcases List.mem_cons.mp hc with rfl | hc
      · rw [h.1]; exact List.mem_cons_self _ _
      · exact List.mem_cons_of_mem _ (ih t h.2 c hc)

theorem includes_mem (p : Text) : ∀ t : Text, includes p t = true → ∀ c ∈ p, c ∈ t := by
  intro t
  induction t with
  | nil => intro h; exact startsWith_mem p [] h
  | cons x t ih =>
    intro h c hc
    simp only [includes, Bool.or_eq_true] at h
    rcases h with h | h
    · exact startsWith_mem p _ h c hc
    · exact List.mem_cons_of_mem _ (ih h c hc)

theorem includes_eq_false {p t : Text} {c : Nat} (hc : c ∈ p) (hn : c ∉ t) :
    includes p t = false := by
  cases h : includes p t with
  | false => rfl
  | true => exact absurd (includes_mem p t h c hc) hn

theorem sameUnit_colon (ci : Bool) (x : Nat) (h : sameUnit ci 58 x = true) : x = 58 := by
  cases ci with
  | false =>
    simp only [sameUnit, Bool.false_eq_true, if_false] at h
    have := Nat.eq_of_beq_eq_true h
    omega
  | true =>
    have h58 : canon 58 = 58 := by decide
    simp only [sameUnit, if_true, h58] at h
    have h2 := Nat.eq_of_beq_eq_true h
    unfold canon at h2
    split at h2
    · next hx =>
      simp only [Bool.and_eq_true, Nat.ble_eq] at hx
      omega
    · omega

theorem forall2_colon (ci : Bool) {cs w : Text}
    (h : List.Forall₂ (fun c x => sameUnit ci c x = true) cs w) (hc : 58 ∈ cs) : 58 ∈ w := by
  induction h with
  | nil => cases hc
  | cons hx _ ih =>
    rcases List.mem_cons.mp hc with rfl | hc
    · rw [sameUnit_colon ci _ hx]; exact List.mem_cons_self _ _
    · exact List.mem_cons_of_mem _ (ih hc)

/-- Every word of `http`, an optional `s`, `://` and anything behind them has a colon. -/
theorem lang_http_colon (ci ml : Bool) (r : Re) (prev : Option Nat) (w after : Text)
    (h : Lang ci ml (.seq (.lit "http") (.seq (.opt (.lit "s")) (.seq (.lit "://") r)))
      prev w after) : 58 ∈ w := by
  simp only [Lang] at h
  obtain ⟨w1, w2, rfl, -, w3, w4, rfl, -, w5, w6, rfl, h5, -⟩ := h
  have : 58 ∈ w5 := forall2_colon ci h5 (by decide)
  simp [this]

theorem searchGo_none_of_lang (ci ml : Bool) (re : Re) (c : Nat)
    (hL : ∀ prev w after, Lang ci ml re prev w after → c ∈ w) (rest : Text) (prev : Option Nat)
    (hc : c ∉ rest) : searchGo ci ml re prev rest = none := by
  cases h : searchGo ci ml re prev rest with
  | none => rfl
  | some se =>
    obtain ⟨pre, hrest, -, -, hrun⟩ := searchGo_sound ci ml re rest prev se.1 se.2 h
    obtain ⟨w, after, caps, hw, hlang, -⟩ := run_sound ci ml re se.1 some se.2 hrun
    have := hL _ _ _ hlang
    exact absurd (by rw [hrest, hw]; simp [this]) hc

theorem lang_urlPattern_colon (prev : Option Nat) (w after : Text)
    (h : Lang true false urlPattern prev w after) : 58 ∈ w := by
  have e : urlPattern =
      .alt (.seq (.alt (.lit "\"") (.lit "'"))
        (.seq (.grp 1 (.seq (.lit "http") (.seq (.opt (.lit "s")) (.seq (.lit "://")
          (plus (ncls [.space, .c '"', .c '\'', .c '>'])))))) (.alt (.lit "\"") (.lit "'"))))
        (.grp 2 (.seq (.lit "http") (.seq (.opt (.lit "s")) (.seq (.lit "://")
          (plus (ncls [.space, .c '"', .c '\'', .c '>'])))))) := rfl
  rw [e] at h
  rcases h with h | h
  · obtain ⟨w1, w2, rfl, -, w3, w4, rfl, h3, -⟩ := h
    have := lang_http_colon true false _ _ _ _ h3
    simp [this]
  · exact lang_http_colon true false _ _ _ _ h

theorem lang_fileUrlPattern_colon (prev : Option Nat) (w after : Text)
    (h : Lang true false fileUrlPattern prev w after) : 58 ∈ w :=
  lang_http_colon true false _ _ _ _ h

theorem detectURL_of_no_colon (text : Text) (h : 58 ∉ text) : detectURL text = .noURL := by
  have hs : searchGo true false urlPattern none text = none :=
    searchGo_none_of_lang true false urlPattern 58 lang_urlPattern_colon text none h
  have hm : matchAll urlPattern true false text = [] := by
    unfold matchAll matchAllGo
    simp only [hs]
  rw [detectURL_eq, hm]
  rfl

theorem detectFile_of_no_colon (text : Text) (h : 58 ∉ text) : detectFile text = .notFile := by
  have hb : base64Pattern.exec false false text = none := by
    cases hex : base64Pattern.exec false false text with
    | none => rfl
    | some se =>
      obtain ⟨m1, m2, tail, -, heq⟩ := base64_exec_sound text se.1 se.2 hex
      exact absurd (by rw [heq]; exact List.mem_append_left _ (by decide)) h
  have hf : fileUrlPattern.exec true false text = none :=
    searchGo_none_of_lang true false fileUrlPattern 58 lang_fileUrlPattern_colon text none h
  unfold detectFile
  rw [hb, hf]

/-! ## Prose: letters and single spaces -/

theorem isLetter_ascii :
    ∀ c < 128, isLetter c = true → isSpace c = false ∧ c ≠ 58 ∧ c ≠ 123 ∧ c ≠ 10 := by
  decide

theorem isLetter_facts (c : Nat) (h : isLetter c = true) :
    isSpace c = false ∧ c ≠ 58 ∧ c ≠ 123 ∧ c ≠ 10 := by
  by_cases hc : c < 128
  · exact isLetter_ascii c hc h
  · unfold isLetter at h
    simp only [Bool.or_eq_true, Bool.and_eq_true, Nat.ble_eq, Bool.not_eq_true'] at h
    rcases h with (h | h) | h
    · omega
    · omega
    · exact ⟨h.2, by omega, by omega, by omega⟩

theorem prose_not_mem {text : Text} (hprose : ∀ c ∈ text, isLetter c = true ∨ c = 32) :
    58 ∉ text ∧ 123 ∉ text ∧ 10 ∉ text := by
  refine ⟨fun h => ?_, fun h => ?_, fun h => ?_⟩
  · rcases hprose _ h with h1 | h1
    · exact (isLetter_facts _ h1).2.1 rfl
    · cases h1
  · rcases hprose _ h with h1 | h1
    · exact (isLetter_facts _ h1).2.2.1 rfl
    · cases h1
  · rcases hprose _ h with h1 | h1
    · exact (isLetter_facts _ h1).2.2.2 rfl
    · cases h1

theorem prose_space {text : Text} (hprose : ∀ c ∈ text, isLetter c = true ∨ c = 32)
    {c : Nat} (hc : c ∈ text) (hs : isSpace c = true) : c = 32 := by
  rcases hprose c hc with h | h
  · rw [(isLetter_facts c h).1] at hs; cases hs
  · exact h

/-- In a text of letters and single spaces no line begins with two white space
characters. -/
theorem indented_prose : ∀ (text : Text), (∀ c ∈ text, isLetter c = true ∨ c = 32) →
    includes (js "  ") text = false → ∀ prev, indented prev text = false := by
  intro text
  induction text with
  | nil => intro _ _ _; rfl
  | cons x t ih =>
    intro hprose hsingle prev
    have hjs : js "  " = [32, 32] := by decide
    rw [hjs] at hsingle ih
    simp only [includes, Bool.or_eq_false_iff] at hsingle
    have ht : indented (some x) t = false :=
      ih (fun c hc => hprose c (List.mem_cons_of_mem _ hc)) hsingle.2 (some x)
    simp only [indented, ht, Bool.or_false, Bool.and_eq_false_iff]
    right
    cases t with
    | nil => rfl
    | cons y t =>
      cases hxy : twoSpaces (x :: y :: t) with
      | false => rfl
      | true =>
        simp only [twoSpaces, Bool.and_eq_true] at hxy
        have hx := prose_space hprose (List.mem_cons_self _ _) hxy.1
        have hy := prose_space hprose (List.mem_cons_of_mem _ (List.mem_cons_self _ _)) hxy.2
        rw [hx, hy] at hsingle
        simp [startsWith] at hsingle

theorem hasCodeCharacteristics_prose (text : Text)
    (hprose : ∀ c ∈ text, isLetter c = true ∨ c = 32)
    (hsingle : includes (js "  ") text = false)
    (hfrag : ∀ f ∈ gateFragments, includes (js f) text = false) :
    hasCodeCharacteristics text = false := by
  obtain ⟨-, hbrace, hnl⟩ := prose_not_mem hprose
  have h1 : includes (js "\x7b") text = false := includes_eq_false (c := 123) (by decide) hbrace
  have h2 : gateIndent.test false true text = false := by
    rw [gateIndent_test]; exact indented_prose text hprose hsingle none
  have h3 : splitLength 10 text = 1 := by
    unfold splitLength
    rw [List.count_eq_zero_of_not_mem hnl]
  unfold hasCodeCharacteristics
  rw [h1, h2, h3, hfrag "import " (by decide), hfrag "def " (by decide),
    hfrag "class " (by decide), hfrag "function " (by decide), hfrag "const " (by decide),
    hfrag "let " (by decide), hfrag "var " (by decide)]
  rfl

/-! ## What urlPattern of detectFile matches -/

theorem lowerUnit_of_sameUnit (c x : Nat) (hc : ¬(65 ≤ c ∧ c ≤ 90))
    (h : sameUnit true c x = true) : lowerUnit x = c := by
  simp only [sameUnit, if_true] at h
  have h2 := Nat.eq_of_beq_eq_true h
  unfold canon at h2
  unfold lowerUnit
  split at h2 <;> split at h2 <;> split <;>
    simp only [Bool.and_eq_true, Nat.ble_eq] at * <;> omega

theorem toLowerCase_of_forall2 {cs w : Text} (hcs : ∀ c ∈ cs, ¬(65 ≤ c ∧ c ≤ 90))
    (h : List.Forall₂ (fun c x => sameUnit true c x = true) cs w) : toLowerCase w = cs := by
  induction h with
  | nil => rfl
  | cons hx _ ih =>
    unfold toLowerCase at ih ⊢
    rw [List.map_cons, ih (fun c hc => hcs c (List.mem_cons_of_mem _ hc)),
      lowerUnit_of_sameUnit _ _ (hcs _ (List.mem_cons_self _ _)) hx]

theorem forall2_dot {w : Text}
    (h : List.Forall₂ (fun c x => sameUnit true c x = true) (js ".") w) : w = [46] := by
  have hj : js "." = [46] := by decide
  rw [hj] at h
  cases h with
  | cons hx ht =>
    cases ht
    have := lowerUnit_of_sameUnit 46 _ (by omega) hx
    unfold lowerUnit at this
    split at this
    · omega
    · rw [this]

theorem lang_alts_lit (ci ml : Bool) : ∀ (ss : List String) (prev : Option Nat)
    (w after : Text), Lang ci ml (alts (ss.map lit)) prev w after →
    ∃ s ∈ ss, List.Forall₂ (fun c x => sameUnit ci c x = true) (js s) w := by
  intro ss
  induction ss with
  | nil => intro prev w after h; exact h.elim
  | cons s rest ih =>
    intro prev w after h
    cases rest with
    | nil => exact ⟨s, List.mem_cons_self _ _, h⟩
    | cons s2 r =>
      rcases h with h | h
      · exact ⟨s, List.mem_cons_self _ _, h⟩
      · obtain ⟨t, ht, hf⟩ := ih prev w after h
        exact ⟨t, List.mem_cons_of_mem _ ht, hf⟩

theorem supportedExtensions_lower :
    ∀ s ∈ supportedExtensions, ∀ c ∈ js s, ¬(65 ≤ c ∧ c ≤ 90) := by
  decide

/-- A match of urlPattern of detectFile is `http://` or `https://` in either case, then
characters that are not white space, a dot and a supported extension in either case;
group 1 holds the whole match. -/
theorem fileUrlPattern_exec_sound (text : Text) (s e : St)
    (h : fileUrlPattern.exec true false text = some (s, e)) :
    ∃ pre scheme body ext post,
      text = pre ++ (scheme ++ (body ++ 46 :: ext)) ++ post ∧
      (toLowerCase scheme = js "http://" ∨ toLowerCase scheme = js "https://") ∧
      body ≠ [] ∧ (∀ c ∈ body, isSpace c = false) ∧
      (∃ x ∈ supportedExtensions, toLowerCase ext = js x) ∧
      e.cap 1 = some (scheme ++ (body ++ 46 :: ext)) := by
  obtain ⟨pre, hpre, -, -, hrun⟩ := searchGo_sound true false fileUrlPattern text none s e h
  have e0 : fileUrlPattern = .grp 1 (.seq (.lit "http") (.seq (.opt (.lit "s"))
      (.seq (.lit "://") (.seq (.rep 1 true (.set true [.space]))
        (.seq (.lit ".") (.grp 2 (alts (supportedExtensions.map lit)))))))) := rfl
  rw [e0, run_grp] at hrun
  obtain ⟨w, after, caps, hw, hl, hk⟩ := run_sound true false _ s (capture 1 s some) e hrun
  simp only [capture, Option.some.injEq] at hk
  simp only [Lang] at hl
  obtain ⟨h1, w1, rfl, hh, o, w2, rfl, ho, c, w3, rfl, hc, body, w4, rfl, hbody, d, ext, rfl,
    hd, hext⟩ := hl
  have hext2 : Lang true false (alts (supportedExtensions.map lit)) none ext after := hext
  obtain ⟨x, hx, hfx⟩ := lang_alts_lit true false _ _ _ _ hext2
  have hd46 := forall2_dot hd
  subst hd46
  have l1 : toLowerCase h1 = js "http" := toLowerCase_of_forall2 (by decide) hh
  have l3 : toLowerCase c = js "://" := toLowerCase_of_forall2 (by decide) hc
  have l2 : toLowerCase o = [] ∨ toLowerCase o = js "s" := by
    rcases ho with ho | ho
    · left; rw [ho]; rfl
    · right; exact toLowerCase_of_forall2 (by decide) ho
  obtain ⟨pb, nb⟩ := repLang_class (P := inClass true true [.space]) (fun _ _ _ h => h) hbody
  refine ⟨pre, h1 ++ (o ++ c), body, ext, after, ?_, ?_, ?_, ?_, ⟨x, hx, ?_⟩, ?_⟩
  · rw [hpre, hw]; simp [List.append_assoc]
  · unfold toLowerCase at l1 l2 l3 ⊢
    rw [List.map_append, List.map_append, l1, l3]
    rcases l2 with l2 | l2
    · left; rw [l2]; decide
    · right; rw [l2]; decide
  · intro h0; rw [h0] at nb; simp at nb
  · intro y hy
    have := pb y hy
    simpa [inClass, CItem.test] using this
  · exact toLowerCase_of_forall2 (supportedExtensions_lower x hx) hfx
  · rw [← hk, hw]
    simp only [St.cap, List.find?, beq_self_eq_true, Option.map_some']
    rw [upTo_append]
    simp [List.append_assoc]

theorem exec_eq_none_of_test (re : Re) (ci ml : Bool) (text : Text)
    (h : re.test ci ml text = false) : re.exec ci ml text = none := by
  unfold Re.test at h
  cases hex : re.exec ci ml text with
  | none => rfl
  | some se => rw [hex] at h; cases h

/-! ## resolveConflicts: what one rule does to the candidates -/

theorem applyPair_of_not_both (text : Text) (ms : List Candidate) (pair : ConflictPair)
    (h : (ms.any (fun m => m.lang == pair.lang1) &&
      ms.any (fun m => m.lang == pair.lang2)) = false) :
    applyPair text ms pair = ms := by
  unfold applyPair
  simp only [h, Bool.false_eq_true, if_false]

theorem any_lang_filtered_left (ms : List Candidate) (a b : String) :
    (ms.filter (fun m => m.lang != a && m.lang != b)).any (fun m => m.lang == a) = false := by
  rw [List.any_eq_false]
  intro m hm
  have := (List.mem_filter.mp hm).2
  simp only [Bool.and_eq_true, bne_iff_ne, ne_eq] at this
  simpa using this.1

theorem any_lang_filtered_right (ms : List Candidate) (a b : String) :
    (ms.filter (fun m => m.lang != a && m.lang != b)).any (fun m => m.lang == b) = false := by
  rw [List.any_eq_false]
  intro m hm
  have := (List.mem_filter.mp hm).2
  simp only [Bool.and_eq_true, bne_iff_ne, ne_eq] at this
  simpa using this.2

theorem kept_filter_ne_nil (ms : List Candidate) (a b : String)
    (h : ms.any (fun m => m.lang == a) = true) :
    ms.filter (fun m => m.lang == a || m.lang == b) ≠ [] := by
  obtain ⟨m, hm, hma⟩ := List.any_eq_true.mp h
  intro hnil
  have : m ∈ ms.filter (fun m => m.lang == a || m.lang == b) :=
    List.mem_filter.mpr ⟨hm, by simp only [hma, Bool.true_or]⟩
  rw [hnil] at this
  cases this

/-- The candidates a firing rule leaves: the candidates of other languages, in their
order, and behind them a non-empty list of candidates of the two languages of the rule. -/
theorem applyPair_shape (text : Text) (ms : List Candidate) (pair : ConflictPair)
    (hboth : (ms.any (fun m => m.lang == pair.lang1) &&
      ms.any (fun m => m.lang == pair.lang2)) = true) :
    ∃ tail, applyPair text ms pair =
        ms.filter (fun m => m.lang != pair.lang1 && m.lang != pair.lang2) ++ tail ∧
      tail ≠ [] ∧ ∀ c ∈ tail, c.lang = pair.lang1 ∨ c.lang = pair.lang2 := by
  rw [applyPair_of_present text ms pair hboth]
  split
  · exact ⟨_, rfl, by simp, by simp⟩
  · split
    · exact ⟨_, rfl, by simp, by simp⟩
    · split
      · exact ⟨_, rfl, by simp, by simp⟩
      · split
        · exact ⟨_, rfl, by simp, by simp⟩
        · refine ⟨_, rfl, ?_, ?_⟩
          · simp only [Bool.and_eq_true] at hboth
            exact kept_filter_ne_nil ms _ _ hboth.1
          · intro c hc
            have := (List.mem_filter.mp hc).2
            simpa using this

theorem applyPair_ne_nil (text : Text) (ms : List Candidate) (pair : ConflictPair)
    (h : ms ≠ []) : applyPair text ms pair ≠ [] := by
  cases hb : (ms.any (fun m => m.lang == pair.lang1) &&
      ms.any (fun m => m.lang == pair.lang2)) with
  | false => rw [applyPair_of_not_both text ms pair hb]; exact h
  | true =>
    obtain ⟨tail, heq, hne, -⟩ := applyPair_shape text ms pair hb
    rw [heq]
    intro hnil
    exact hne (List.append_eq_nil.mp hnil).2

theorem applyPairs_ne_nil (text : Text) (pairs : List ConflictPair) :
    ∀ ms : List Candidate, ms ≠ [] → applyPairs text ms pairs ≠ [] := by
  unfold applyPairs
  induction pairs with
  | nil => intro ms h; exact h
  | cons p ps ih =>
    intro ms h
    rw [List.foldl_cons]
    exact ih _ (applyPair_ne_nil text ms p h)

theorem vote_eq_none {text : Text} {e : String × List Pat} (h : langMatches e.2 text = 0) :
    vote text e = none := by
  unfold vote
  simp [h]

/-- Whenever the gate holds and some language matched, detectCode returns the first
candidate of greatest weight of the scan, under its table name. -/
theorem detectCode_of_gate (text : Text) (hg : hasCodeCharacteristics text = true)
    {m : Candidate} (hm : firstMax (collect text) = some m) :
    detectCode text = Code m.lang := by
  obtain ⟨i, hi, hget, -, -⟩ := firstMax_spec hm
  have hmem : m ∈ collect text := hget ▸ List.get_mem _ _ _
  have hcap : capitalize m.lang = m.lang := capitalize_catalog _ (collect_lang hmem)
  unfold detectCode detectCodeWith
  simp only [hg, Bool.not_true, Bool.false_eq_true, if_false]
  by_cases hlen : (collect text).length > 1
  · simp only [hlen, if_true]
    rw [resolveConflicts_eq (collect text) conflictPairs text (m := m)
      (by rw [applyPairs_collect]; exact hm), hcap]
  · simp only [hlen, if_false]
    cases hc : collect text with
    | nil => rw [hc] at hmem; cases hmem
    | cons a l =>
      cases l with
      | nil =>
        rw [hc] at hm
        simp only [firstMax] at hm
        cases hm
        simp only [hcap]
        rfl
      | cons b l => rw [hc] at hlen; simp at hlen

theorem detectCode_of_no_gate (text : Text) (hg : hasCodeCharacteristics text = false) :
    detectCode text = NotCode := by
  unfold detectCode detectCodeWith
  simp only [hg, Bool.not_false, if_true]
  split <;> rfl

theorem detectCode_of_no_match (text : Text) (hc : collect text = []) :
    detectCode text = NotCode := by
  unfold detectCode detectCodeWith
  split
  · split <;> rfl
  · simp only [hc, List.length_nil, gt_iff_lt, Nat.not_lt_zero, if_false]
    split <;> rfl

/-! ## The claims -/

/-- C1: addMessage renders a message as a file exactly when detectFile reports a file,
otherwise as code exactly when detectCode reports code, otherwise as a URL exactly when
detectURL reports one, otherwise as plain text; the file, code and URL blocks show the
extension, the language and the multiplicity of the respective detector. -/
theorem addMessage_priority (text : Text) :
    ((addMessage text).kind = Kind.file ↔ (detectFile text).isFile = true) ∧
    ((addMessage text).kind = Kind.code ↔
      (detectFile text).isFile = false ∧ (detectCode text).isCode = true) ∧
    ((addMessage text).kind = Kind.url ↔
      (detectFile text).isFile = false ∧ (detectCode text).isCode = false ∧
        (detectURL text).isURL = true) ∧
    ((addMessage text).kind = Kind.plain ↔
      (detectFile text).isFile = false ∧ (detectCode text).isCode = false ∧
        (detectURL text).isURL = false) ∧
    ((detectFile text).isFile = true →
      addMessage text = Rendering.file (detectFile text).extension) ∧
    ((detectFile text).isFile = false → (detectCode text).isCode = true →
      addMessage text = Rendering.code (detectCode text).language) ∧
    ((detectFile text).isFile = false → (detectCode text).isCode = false →
      (detectURL text).isURL = true →
      addMessage text = Rendering.url (detectURL text).isMultiple) := by
  unfold addMessage
  cases hf : (detectFile text).isFile <;> cases hc : (detectCode text).isCode <;>
    cases hu : (detectURL text).isURL <;> simp [Rendering.kind, hf, hc, hu]

/-- C3: when more than one language matched, detectCode returns a candidate that remains
after the conflict rules, of greatest weight among the remaining ones, and the first such
in the remaining list, which is in the order of the signature table. -/
theorem detectCode_picks_first_heaviest (text : Text)
    (hgate : hasCodeCharacteristics text = true) (hmany : 1 < (collect text).length) :
    ∃ remaining, remaining = applyPairs text (collect text) conflictPairs ∧
      (remaining.map Candidate.lang).Sublist catalog ∧
      ∃ i, ∃ hi : i < remaining.length,
        detectCode text = Code (remaining.get ⟨i, hi⟩).lang ∧
        (∀ c ∈ remaining, c.weight ≤ (remaining.get ⟨i, hi⟩).weight) ∧
        ∀ j, ∀ hj : j < remaining.length, j < i →
          (remaining.get ⟨j, hj⟩).weight < (remaining.get ⟨i, hi⟩).weight := by
  refine ⟨collect text, (applyPairs_collect text).symm, collect_sublist text, ?_⟩
  have hne : collect text ≠ [] := by
    intro h; rw [h] at hmany; simp at hmany
  obtain ⟨m, hm⟩ := firstMax_isSome hne
  obtain ⟨i, hi, hget, hmax, hfirst⟩ := firstMax_spec hm
  refine ⟨i, hi, ?_, ?_, ?_⟩
  · rw [hget]; exact detectCode_of_gate text hgate hm
  · rw [hget]; exact hmax
  · rw [hget]; exact hfirst

/-- C4: when the gate holds and exactly one language of the table has a matching pattern,
detectCode returns that language under its table name, which the capitalisation leaves
unchanged, and whatever the table of conflict rules is. -/
theorem detectCode_single_language (text : Text) (language : String) (langPatterns : List Pat)
    (hgate : hasCodeCharacteristics text = true)
    (he : (language, langPatterns) ∈ patterns)
    (h1 : 1 ≤ langMatches langPatterns text)
    (h0 : ∀ e ∈ patterns, e.1 ≠ language → langMatches e.2 text = 0) :
    detectCode text = Code language ∧ capitalize language = language ∧
      ∀ pairs, detectCodeWith pairs text = Code language := by
  have hcap : capitalize language = language :=
    capitalize_catalog _ (List.mem_map_of_mem Prod.fst he)
  obtain ⟨c, hc⟩ := Option.isSome_iff_exists.mp
    ((vote_isSome text (language, langPatterns)).mpr h1)
  have hcl : c.lang = language := vote_lang hc
  have hcollect : collect text = [c] :=
    filterMap_single (vote text) Prod.fst patterns (language, langPatterns) c catalog_nodup he hc
      (fun x hx hne => vote_eq_none (h0 x hx hne))
  have key : ∀ pairs, detectCodeWith pairs text = Code language := by
    intro pairs
    unfold detectCodeWith
    simp only [hgate, hcollect, Bool.not_true, Bool.false_eq_true, if_false, List.length_singleton,
      gt_iff_lt, lt_self_iff_false, hcl, hcap]
    rfl
  exact ⟨key conflictPairs, hcap, key⟩

/-- C7: for every entry of the table, the number n of its patterns that match is at most
the length of its pattern list; the language is a candidate exactly when n ≥ 1; the weight
is 1 for n = 1 and 2 n for n ≥ 2; and a greater n gives a strictly greater weight. -/
theorem weightedVoter (text : Text) (entry : String × List Pat) :
    langMatches entry.2 text ≤ entry.2.length ∧
    ((vote text entry).isSome = true ↔ 1 ≤ langMatches entry.2 text) ∧
    (langMatches entry.2 text = 1 → vote text entry = some ⟨entry.1, 1⟩) ∧
    (2 ≤ langMatches entry.2 text →
      vote text entry = some ⟨entry.1, 2 * langMatches entry.2 text⟩) ∧
    (entry ∈ patterns →
      ((∃ c ∈ collect text, c.lang = entry.1) ↔ 1 ≤ langMatches entry.2 text)) ∧
    (∀ (text' : Text) (entry' : String × List Pat) (c c' : Candidate),
      vote text entry = some c → vote text' entry' = some c' →
      langMatches entry.2 text < langMatches entry'.2 text' → c.weight < c'.weight) := by
  refine ⟨List.length_filter_le _ _, vote_isSome text entry, ?_, ?_, ?_, ?_⟩
  · intro h; unfold vote; simp [h]
  · intro h; unfold vote; simp [h, Nat.mul_comm]
  · intro he
    constructor
    · rintro ⟨c, hc, hl⟩
      unfold collect collectFrom at hc
      rw [List.mem_filterMap] at hc
      obtain ⟨e, hmem, hv⟩ := hc
      have hk : e.1 = entry.1 := by rw [← vote_lang hv, hl]
      have : e = entry := List.inj_on_of_nodup_map catalog_nodup hmem he hk
      rw [← this, ← vote_isSome, hv]; rfl
    · intro h
      obtain ⟨c, hc⟩ := Option.isSome_iff_exists.mp ((vote_isSome text entry).mpr h)
      refine ⟨c, ?_, vote_lang hc⟩
      unfold collect collectFrom
      rw [List.mem_filterMap]
      exact ⟨entry, he, hc⟩
  · intro text' entry' c c' hc hc' hlt
    unfold vote at hc hc'
    simp only at hc hc'
    split at hc
    · cases hc
      split at hc'
      · cases hc'; simp only; omega
      · split at hc'
        · omega
        · cases hc'
    · split at hc
      · cases hc
        split at hc'
        · cases hc'; simp only; omega
        · split at hc'
          · cases hc'; simp only; omega
          · cases hc'
      · cases hc

/-- C8: detectCode returns NotCode or Code of one of the 16 names of the catalog; it never
returns a rule name in lower case, a capitalised rule name, a highlighter identifier
or the marker CODE. -/
theorem detectCode_emits_catalog_names (text : Text) :
    (detectCode text = NotCode ∨
      ∃ L ∈ ["JavaScript", "TypeScript", "Python", "Java", "C#", "PHP", "HTML", "CSS", "SQL",
        "Bash", "Ruby", "Go", "Rust", "C++", "Swift", "Kotlin"], detectCode text = Code L) ∧
    detectCode text ≠ Code "csharp" ∧ detectCode text ≠ Code "Csharp" ∧
    detectCode text ≠ Code "cpp" ∧ detectCode text ≠ UnknownCode := by
  have main : detectCode text = NotCode ∨ ∃ L ∈ catalog, detectCode text = Code L := by
    cases hg : hasCodeCharacteristics text with
    | false => exact Or.inl (detectCode_of_no_gate text hg)
    | true =>
      cases hf : firstMax (collect text) with
      | none => exact Or.inl (detectCode_of_no_match text (firstMax_eq_none hf))
      | some m =>
        obtain ⟨i, hi, hget, -, -⟩ := firstMax_spec hf
        exact Or.inr ⟨m.lang, collect_lang (hget ▸ List.get_mem _ _ _),
          detectCode_of_gate text hg hf⟩
  have hne : ∀ L, L ∉ catalog → detectCode text ≠ Code L := by
    intro L hL h
    rcases main with h' | ⟨L', hL', h'⟩
    · rw [h] at h'; cases h'
    · rw [h] at h'
      have : L = L' := by
        simp only [Code, CodeResult.mk.injEq, Option.some.injEq, true_and] at h'
        exact h'
      exact hL (this ▸ hL')
  refine ⟨?_, hne _ (by rw [catalog_eq]; decide), hne _ (by rw [catalog_eq]; decide),
    hne _ (by rw [catalog_eq]; decide), hne "CODE" (by rw [catalog_eq]; decide)⟩
  rw [← catalog_eq]
  exact main

/-! ## Evaluations -/

theorem example_JavaScript :
    detectCode (js "function foo() \x7b return 1; \x7d") = Code "JavaScript" := by decide!

theorem example_TypeScript : detectCode (js "  x: any") = Code "TypeScript" := by decide!

theorem example_Python : detectCode (js "import os") = Code "Python" := by decide!

theorem example_Java : detectCode (js "  final int") = Code "Java" := by decide!

theorem example_CSharp : detectCode (js "  #region") = Code "C#" := by decide!

theorem example_PHP : detectCode (js "  <?php") = Code "PHP" := by decide!

theorem example_HTML : detectCode (js "  <div") = Code "HTML" := by decide!

theorem example_CSS : detectCode (js "a\x7bb:c;\x7d") = Code "CSS" := by decide!

theorem example_SQL : detectCode (js "  SELECT 1") = Code "SQL" := by decide!

theorem example_Bash : detectCode (js "  echo $x") = Code "Bash" := by decide!

theorem example_Ruby : detectCode (js "  puts x") = Code "Ruby" := by decide!

theorem example_Go : detectCode (js "  fmt.x") = Code "Go" := by decide!

theorem example_Rust : detectCode (js "  println!") = Code "Rust" := by decide!

theorem example_Cpp : detectCode (js "  std::cout") = Code "C++" := by decide!

theorem example_Swift : detectCode (js "  guard let x") = Code "Swift" := by decide!

theorem example_Kotlin : detectCode (js "  val x") = Code "Kotlin" := by decide!


theorem collect_java_snippet :
    collect (js "import java.util.List;\nint[] ys;") =
      [⟨"TypeScript", 1⟩, ⟨"Python", 1⟩, ⟨"Java", 1⟩, ⟨"C#", 4⟩, ⟨"PHP", 1⟩, ⟨"SQL", 1⟩,
       ⟨"Bash", 1⟩, ⟨"Go", 1⟩, ⟨"Swift", 1⟩, ⟨"Kotlin", 1⟩] := by decide!

theorem collect_python_snippet :
    collect (js "def foo():\n    return 1") =
      [⟨"JavaScript", 1⟩, ⟨"TypeScript", 1⟩, ⟨"Python", 1⟩, ⟨"C++", 1⟩] := by decide!

theorem collect_braces_snippet :
    collect (js "\x7b\x7dxxxxxxxxxxxxxxxxxxxxxxxxxxxxxxxxxxxxxxxxxxxxxxxxxx") = [] := by decide!

theorem collect_echo_snippet :
    collect (js "  echo $x") = [⟨"PHP", 1⟩, ⟨"Bash", 4⟩] := by decide!

/-- C2 (the code at the failing input): a Java snippet yields both Java and C# as
candidates and matches the specific pattern of Java only, so the rule csharp / java applied
to candidates under the names of the rule keeps Java; yet no rule fires in detectCode,
whose candidates are named Java and C#, and detectCode returns C#. -/
theorem detectCode_java_snippet_returns_csharp :
    (⟨"Java", 1⟩ : Candidate) ∈ collect (js "import java.util.List;\nint[] ys;") ∧
    (⟨"C#", 4⟩ : Candidate) ∈ collect (js "import java.util.List;\nint[] ys;") ∧
    matchLength specific_csharp_java_1 (js "import java.util.List;\nint[] ys;") = 0 ∧
    matchLength specific_csharp_java_2 (js "import java.util.List;\nint[] ys;") = 3 ∧
    applyPair (js "import java.util.List;\nint[] ys;") [⟨"java", 1⟩, ⟨"csharp", 4⟩]
      ⟨"csharp", "java", 6, 5⟩ = [⟨"java", 5⟩] ∧
    applyPairs (js "import java.util.List;\nint[] ys;")
      (collect (js "import java.util.List;\nint[] ys;")) conflictPairs =
      collect (js "import java.util.List;\nint[] ys;") ∧
    detectCode (js "import java.util.List;\nint[] ys;") = Code "C#" := by
  refine ⟨?_, ?_, by decide!, by decide!, by decide!, applyPairs_collect _, ?_⟩
  · rw [collect_java_snippet]; decide
  · rw [collect_java_snippet]; decide
  · exact detectCode_of_gate _ (by decide!) (m := ⟨"C#", 4⟩)
      (by rw [collect_java_snippet]; decide)

/-- C3 (witness): the text `  echo $x` has the candidates PHP of weight 1 and Bash of
weight 4. -/
theorem detectCode_picks_first_heaviest_witness :
    hasCodeCharacteristics (js "  echo $x") = true ∧ 1 < (collect (js "  echo $x")).length ∧
    ∃ remaining, remaining = applyPairs (js "  echo $x") (collect (js "  echo $x")) conflictPairs ∧
      (remaining.map Candidate.lang).Sublist catalog ∧
      ∃ i, ∃ hi : i < remaining.length,
        detectCode (js "  echo $x") = Code (remaining.get ⟨i, hi⟩).lang ∧
        (∀ c ∈ remaining, c.weight ≤ (remaining.get ⟨i, hi⟩).weight) ∧
        ∀ j, ∀ hj : j < remaining.length, j < i →
          (remaining.get ⟨j, hj⟩).weight < (remaining.get ⟨i, hi⟩).weight :=
  have hg : hasCodeCharacteristics (js "  echo $x") = true := by decide!
  have hm : 1 < (collect (js "  echo $x")).length := by rw [collect_echo_snippet]; decide
  ⟨hg, hm, detectCode_picks_first_heaviest (js "  echo $x") hg hm⟩

/-- C4 (witness): in the text `  val x` only Kotlin has a matching pattern. -/
theorem detectCode_single_language_witness :
    detectCode (js "  val x") = Code "Kotlin" ∧ capitalize "Kotlin" = "Kotlin" ∧
      ∀ pairs, detectCodeWith pairs (js "  val x") = Code "Kotlin" :=
  detectCode_single_language (js "  val x") "Kotlin" kotlinPatterns (by decide!)
    (by simp [patterns]) (by decide!) (by decide!)

/-- C5 (the code at the failing input): the text of 52 characters passes the gate, has
braces and matches no pattern; the fallback of resolveConflicts would report CODE for it,
but detectCode never calls resolveConflicts with no candidate and returns NotCode. -/
theorem detectCode_no_unknown_code_fallback :
    (js "\x7b\x7dxxxxxxxxxxxxxxxxxxxxxxxxxxxxxxxxxxxxxxxxxxxxxxxxxx").length = 52 ∧
    hasCodeCharacteristics (js "\x7b\x7dxxxxxxxxxxxxxxxxxxxxxxxxxxxxxxxxxxxxxxxxxxxxxxxxxx") = true ∧
    collect (js "\x7b\x7dxxxxxxxxxxxxxxxxxxxxxxxxxxxxxxxxxxxxxxxxxxxxxxxxxx") = [] ∧
    resolveConflicts [] conflictPairs
      (js "\x7b\x7dxxxxxxxxxxxxxxxxxxxxxxxxxxxxxxxxxxxxxxxxxxxxxxxxxx") = UnknownCode ∧
    detectCode (js "\x7b\x7dxxxxxxxxxxxxxxxxxxxxxxxxxxxxxxxxxxxxxxxxxxxxxxxxxx") = NotCode :=
  ⟨by decide!, by decide!, collect_braces_snippet, by decide!,
    detectCode_of_no_match _ collect_braces_snippet⟩

/-- C6 (counterexample): no line of the text begins with a space, the text has no brace,
no `=`, no `:` and no keyword fragment, so none of the four conditions as worded holds; the
pattern of the gate matches the two line feeds after the first line, and detectCode
returns Python. -/
theorem gate_as_worded_counterexample :
    lines (js "Try this\n\n\nprint(x)") = [js "Try this", [], [], js "print(x)"] ∧
    gateAsWorded (js "Try this\n\n\nprint(x)") = false ∧
    hasCodeCharacteristics (js "Try this\n\n\nprint(x)") = true ∧
    detectCode (js "Try this\n\n\nprint(x)") = Code "Python" :=
  ⟨by decide!, by decide!, by decide!, by decide!⟩

/-- C6 (amended): a text that does not contain both braces, in which no line start is
followed by two or more white space characters (the class `\s`: spaces, tabs, line breaks),
that does not both have more than 3 lines and contain `=` or `:`, and that contains none of
the seven keyword fragments, is NotCode for detectCode, whatever detectURL finds. -/
theorem gate_soundness (text : Text)
    (hbraces : (includes (js "\x7b") text && includes (js "\x7d") text) = false)
    (hindent : indented none text = false)
    (hlines : (decide (splitLength 10 text > 3) &&
      (includes (js "=") text || includes (js ":") text)) = false)
    (hfragments : ∀ f ∈ ["import ", "def ", "class ", "function ", "const ", "let ", "var "],
      includes (js f) text = false) :
    detectCode text = NotCode ∧ (detectCode text).isCode = false := by
  have hg : hasCodeCharacteristics text = false := by
    unfold hasCodeCharacteristics
    rw [gateIndent_test, hbraces, hindent, hlines]
    simp only [List.mem_cons, List.mem_singleton, forall_eq_or_imp, forall_eq] at hfragments
    obtain ⟨h1, h2, h3, h4, h5, h6, h7, -⟩ := hfragments
    rw [h1, h2, h3, h4, h5, h6, h7]
    rfl
  rw [detectCode_of_no_gate text hg]
  exact ⟨rfl, rfl⟩

/-- C6 (witness): the text `see https://a.com` fails the gate and is NotCode, although
detectURL finds a URL in it. -/
theorem gate_soundness_witness :
    (detectURL (js "see https://a.com")).isURL = true ∧
    indented none (js "see https://a.com") = false ∧
    detectCode (js "see https://a.com") = NotCode ∧
    (detectCode (js "see https://a.com")).isCode = false :=
  ⟨by decide!, by decide!,
    gate_soundness (js "see https://a.com") (by decide!) (by decide!) (by decide!) (by decide!)⟩

/-- C9: for each of the 16 languages of the catalog some text is classified as exactly
that language; for JavaScript the text `function foo() { return 1; }` is. -/
theorem catalog_coverage :
    detectCode (js "function foo() \x7b return 1; \x7d") = Code "JavaScript" ∧
    ∀ L ∈ ["JavaScript", "TypeScript", "Python", "Java", "C#", "PHP", "HTML", "CSS", "SQL",
      "Bash", "Ruby", "Go", "Rust", "C++", "Swift", "Kotlin"],
      ∃ text : Text, detectCode text = Code L := by
  refine ⟨example_JavaScript, ?_⟩
  intro L hL
  simp only [List.mem_cons, List.mem_singleton, List.not_mem_nil, or_false] at hL
  rcases hL with rfl | rfl | rfl | rfl | rfl | rfl | rfl | rfl | rfl | rfl | rfl | rfl | rfl |
    rfl | rfl | rfl
  · exact ⟨_, example_JavaScript⟩
  · exact ⟨_, example_TypeScript⟩
  · exact ⟨_, example_Python⟩
  · exact ⟨_, example_Java⟩
  · exact ⟨_, example_CSharp⟩
  · exact ⟨_, example_PHP⟩
  · exact ⟨_, example_HTML⟩
  · exact ⟨_, example_CSS⟩
  · exact ⟨_, example_SQL⟩
  · exact ⟨_, example_Bash⟩
  · exact ⟨_, example_Ruby⟩
  · exact ⟨_, example_Go⟩
  · exact ⟨_, example_Rust⟩
  · exact ⟨_, example_Cpp⟩
  · exact ⟨_, example_Swift⟩
  · exact ⟨_, example_Kotlin⟩

/-- C10 (the code at the failing input): for the two-line Python text JavaScript,
TypeScript, Python and C++ each have one matching pattern, no rule of the conflict table
fires, and detectCode returns JavaScript, the first of them, not Python. -/
theorem detectCode_python_snippet_returns_javascript :
    collect (js "def foo():\n    return 1") =
      [⟨"JavaScript", 1⟩, ⟨"TypeScript", 1⟩, ⟨"Python", 1⟩, ⟨"C++", 1⟩] ∧
    applyPairs (js "def foo():\n    return 1") (collect (js "def foo():\n    return 1"))
      conflictPairs = collect (js "def foo():\n    return 1") ∧
    detectCode (js "def foo():\n    return 1") = Code "JavaScript" ∧
    detectCode (js "def foo():\n    return 1") ≠ Code "Python" := by
  have h : detectCode (js "def foo():\n    return 1") = Code "JavaScript" :=
    detectCode_of_gate _ (by decide!) (m := ⟨"JavaScript", 1⟩)
      (by rw [collect_python_snippet]; decide)
  refine ⟨collect_python_snippet, applyPairs_collect _, h, ?_⟩
  rw [h]; decide


/-! ## Claims on detectURL -/

/-- C12: the shape of the result of detectURL is determined by the URLs that survive the
filter, taken in the order of the matches: none gives NoURL (isURL false), exactly one
gives SingleURL with that URL (multiple false), two or more give MultipleURLs with all of
them in order (multiple true); `https://a.com https://b.com` gives MultipleURLs of the two
and `See https://example.com/page` gives SingleURL of its URL. -/
theorem detectURL_shape :
    (∀ text : Text,
      (((matchAll urlPattern true false text).map cleanUrl).filter (keepUrl text) = [] →
        detectURL text = .noURL ∧ (detectURL text).isURL = false) ∧
      (∀ url, ((matchAll urlPattern true false text).map cleanUrl).filter (keepUrl text) = [url] →
        detectURL text = .single url ∧ (detectURL text).isURL = true ∧
          (detectURL text).isMultiple = false) ∧
      (2 ≤ (((matchAll urlPattern true false text).map cleanUrl).filter (keepUrl text)).length →
        detectURL text =
          .multiple (((matchAll urlPattern true false text).map cleanUrl).filter (keepUrl text)) ∧
        (detectURL text).isURL = true ∧ (detectURL text).isMultiple = true) ∧
      (((matchAll urlPattern true false text).map cleanUrl).filter (keepUrl text)).Sublist
        ((matchAll urlPattern true false text).map cleanUrl)) ∧
    detectURL (js "https://a.com https://b.com") =
      .multiple [js "https://a.com", js "https://b.com"] ∧
    detectURL (js "See https://example.com/page") = .single (js "https://example.com/page") := by
  refine ⟨fun text => ⟨?_, ?_, ?_, List.filter_sublist _⟩, by decide!, by decide!⟩
  · intro h
    have e : detectURL text = .noURL := by rw [detectURL_eq, h]
    rw [e]; exact ⟨rfl, rfl⟩
  · intro url h
    have e : detectURL text = .single url := by rw [detectURL_eq, h]
    rw [e]; exact ⟨rfl, rfl, rfl⟩
  · intro h
    have e : detectURL text =
        .multiple (((matchAll urlPattern true false text).map cleanUrl).filter (keepUrl text)) := by
      rw [detectURL_eq]
      split
      · next h0 => rw [h0] at h; simp at h
      · next u h1 => rw [h1] at h; simp at h
      · rfl
    rw [e]; exact ⟨rfl, rfl, rfl⟩

/-- C13, as worded, fails: in `let u = "https://a.com";` the URL is a quoted string
literal with the keyword `let` and a semicolon within 10 characters of it, and detectURL
reports it, because the character before the URL is its quote. -/
theorem detectURL_reports_quoted_literal_in_code :
    detectURL (js "let u = \"https://a.com\";") = .single (js "https://a.com") ∧
    contextKeywords.test false false (substring (js "let u = \"https://a.com\";") 0 32) = true ∧
    contextPunctuation.test false false (substring (js "let u = \"https://a.com\";") 0 32) = true := by
  decide!

/-- C13, amended: a URL whose first occurrence in the text is not at its start, is
preceded by a character of `[\w.=]` and has a keyword, an import word or one of
`{ } ( ) ;` in the window of 10 characters around it, is not returned by detectURL; when
it is the only URL found the result is NoURL. -/
theorem detectURL_suppresses_after_code_unit (text url : Text) (i : Nat)
    (hidx : indexOf url text = some i) (hpos : 0 < i)
    (hbefore : beforeCharPattern.test false false (substring text (i - 1) i) = true)
    (hctx : (contextKeywords.test false false (substring text (i - 10) (i + url.length + 10)) ||
      contextImports.test false false (substring text (i - 10) (i + url.length + 10)) ||
      contextPunctuation.test false false (substring text (i - 10) (i + url.length + 10))) = true) :
    url ∉ (detectURL text).urls ∧
    ((matchAll urlPattern true false text).map cleanUrl = [url] → detectURL text = .noURL) := by
  have hk := keepUrl_eq_false text url i hidx hpos hbefore hctx
  constructor
  · rw [detectURL_urls]
    intro hmem
    have := (List.mem_filter.mp hmem).2
    rw [hk] at this
    cases this
  · intro h
    rw [detectURL_eq, h]
    simp [List.filter, hk]

theorem detectURL_suppresses_after_code_unit_witness :
    indexOf (js "https://a.com;") (js "x=https://a.com;") = some 2 ∧
    (matchAll urlPattern true false (js "x=https://a.com;")).map cleanUrl = [js "https://a.com;"] ∧
    js "https://a.com;" ∉ (detectURL (js "x=https://a.com;")).urls ∧
    detectURL (js "x=https://a.com;") = .noURL :=
  have h := detectURL_suppresses_after_code_unit (js "x=https://a.com;") (js "https://a.com;") 2
    (by decide!) (by decide) (by decide!) (by decide!)
  have hm : (matchAll urlPattern true false (js "x=https://a.com;")).map cleanUrl =
      [js "https://a.com;"] := by decide!
  ⟨by decide!, hm, h.1, h.2 hm⟩

/-- C14 at a failing input: the text `"HTTP://a.com"` (a quoted URL with its scheme in
upper case) is matched by the outer pattern, which has the flag i, but not by the pattern
that strips the quotes, which has not; the URL is returned with its quotes. -/
theorem detectURL_returns_quoted_url :
    detectURL (js "\"HTTP://a.com\"") = .single (js "\"HTTP://a.com\"") ∧
    34 ∈ js "\"HTTP://a.com\"" ∧
    detectURL (js "\"http://a.com\"") = .single (js "http://a.com") := by
  decide!

/-! ## Claims on resolveConflicts -/

/-- C20, as worded, fails: with the candidates java (weight 1) and csharp (weight 4) the
rule csharp/java fires on a Java text, keeps java and reinserts it with weight 5, the
weight the rule configures for it, not with the weight 1 it had. -/
theorem applyPair_changes_weight :
    applyPair (js "import java.util.List;\nint[] ys;") [⟨"java", 1⟩, ⟨"csharp", 4⟩]
      ⟨"csharp", "java", 6, 5⟩ = [⟨"java", 5⟩] := by
  decide!

/-- C20, amended: whenever a conflict rule fires (both of its languages are candidates)
and one language is kept, that language is appended to the other candidates with the
weight the rule configures for it (weight1 for lang1, weight2 for lang2), whatever
weight it had in the candidate list. -/
theorem applyPair_reinserts_configured_weight (text : Text) (ms : List Candidate)
    (pair : ConflictPair)
    (hboth : (ms.any (fun m => m.lang == pair.lang1) &&
      ms.any (fun m => m.lang == pair.lang2)) = true) :
    (((specificMatches pair text).1 > (specificMatches pair text).2 ∨
        ((specificMatches pair text).1 = (specificMatches pair text).2 ∧
          pair.weight1 > pair.weight2)) →
      applyPair text ms pair =
        ms.filter (fun m => m.lang != pair.lang1 && m.lang != pair.lang2) ++
          [⟨pair.lang1, pair.weight1⟩]) ∧
    (((specificMatches pair text).2 > (specificMatches pair text).1 ∨
        ((specificMatches pair text).1 = (specificMatches pair text).2 ∧
          pair.weight2 > pair.weight1)) →
      applyPair text ms pair =
        ms.filter (fun m => m.lang != pair.lang1 && m.lang != pair.lang2) ++
          [⟨pair.lang2, pair.weight2⟩]) := by
  rw [applyPair_of_present text ms pair hboth]
  constructor
  · rintro (h | ⟨h1, h2⟩)
    · rw [if_pos h]
    · rw [if_neg (by omega), if_neg (by omega), if_pos h2]
  · rintro (h | ⟨h1, h2⟩)
    · rw [if_neg (by omega), if_pos h]
    · rw [if_neg (by omega), if_neg (by omega), if_neg (by omega), if_pos h2]

theorem applyPair_reinserts_configured_weight_witness :
    (([⟨"java", 1⟩, ⟨"csharp", 4⟩] : List Candidate).any (fun m => m.lang == "csharp") &&
      ([⟨"java", 1⟩, ⟨"csharp", 4⟩] : List Candidate).any (fun m => m.lang == "java")) = true ∧
    specificMatches ⟨"csharp", "java", 6, 5⟩ (js "import java.") = (0, 3) ∧
    applyPair (js "import java.") [⟨"java", 1⟩, ⟨"csharp", 4⟩] ⟨"csharp", "java", 6, 5⟩ =
      [] ++ [⟨"java", 5⟩] :=
  ⟨by decide, by decide!,
    (applyPair_reinserts_configured_weight (js "import java.") [⟨"java", 1⟩, ⟨"csharp", 4⟩]
      ⟨"csharp", "java", 6, 5⟩ (by decide)).2 (Or.inl (by decide!))⟩

/-! ## Claims on detectFile -/

/-- C15, as worded, fails: the text `https://a.com data:image/png;base64,AAAAAAAAAAAAAAAAAAAA`
contains an inline data payload and a plain URL, but the payload is not at the start of
the text: detectFile returns NotFile and the message is rendered as a URL. The same
happens when the payload is at the start and its MIME type has a hyphen in the type, as
in `data:x-world/x-vrml;base64,AAAAAAAAAAAAAAAAAAAA https://a.com`. -/
theorem payload_after_url_classifies_as_url :
    includes (js "data:image/png;base64,AAAAAAAAAAAAAAAAAAAA")
      (js "https://a.com data:image/png;base64,AAAAAAAAAAAAAAAAAAAA") = true ∧
    detectFile (js "https://a.com data:image/png;base64,AAAAAAAAAAAAAAAAAAAA") = .notFile ∧
    detectURL (js "https://a.com data:image/png;base64,AAAAAAAAAAAAAAAAAAAA") =
      .single (js "https://a.com") ∧
    addMessage (js "https://a.com data:image/png;base64,AAAAAAAAAAAAAAAAAAAA") = .url false ∧
    detectFile (js "data:x-world/x-vrml;base64,AAAAAAAAAAAAAAAAAAAA https://a.com") = .notFile ∧
    addMessage (js "data:x-world/x-vrml;base64,AAAAAAAAAAAAAAAAAAAA https://a.com") =
      .url false := by
  decide!

/-- C15, amended: for every text that begins with `data:`, a type of one or more ASCII
letters and digits, `/`, a subtype of one or more ASCII letters, digits, `-`, `.` and
`+`, `;base64,` and at least 20 base64 characters, and in which detectURL finds a URL,
detectFile returns File, and the message is rendered as a file, not as a URL. -/
theorem payload_first_classifies_as_file (m1 m2 tail : Text) (h : InlinePayload m1 m2 tail)
    (_hurl : (detectURL (payloadText m1 m2 tail)).isURL = true) :
    (detectFile (payloadText m1 m2 tail)).isFile = true ∧
    addMessage (payloadText m1 m2 tail) = .file (getExtensionFromMime (m1 ++ 47 :: m2)) ∧
    (addMessage (payloadText m1 m2 tail)).kind = Kind.file := by
  have hf := detectFile_of_payload m1 m2 tail h
  have ha := addMessage_of_file _ _ _ _ hf
  refine ⟨by rw [hf]; rfl, ha, by rw [ha]; rfl⟩

theorem payload_first_classifies_as_file_witness :
    InlinePayload (js "image") (js "png") (js "AAAAAAAAAAAAAAAAAAAA https://a.com") ∧
    detectURL (payloadText (js "image") (js "png") (js "AAAAAAAAAAAAAAAAAAAA https://a.com")) =
      .single (js "https://a.com") ∧
    addMessage (payloadText (js "image") (js "png") (js "AAAAAAAAAAAAAAAAAAAA https://a.com")) =
      .file (js "PNG") :=
  have hp : InlinePayload (js "image") (js "png") (js "AAAAAAAAAAAAAAAAAAAA https://a.com") :=
    ⟨by decide, by decide, by decide, by decide, by decide⟩
  have hu : detectURL
      (payloadText (js "image") (js "png") (js "AAAAAAAAAAAAAAAAAAAA https://a.com")) =
      .single (js "https://a.com") := by decide!
  ⟨hp, hu, (payload_first_classifies_as_file _ _ _ hp (by rw [hu]; rfl)).2.1⟩

/-- C16, as worded, fails: the texts begin with `data:<mime>;base64,` and 20 base64
characters and contain a URL with a supported extension, but the MIME type has a hyphen
in its type, or a parameter, and base64Pattern does not match it: detectFile returns the
URL-based File. -/
theorem detectFile_unmatched_mime_gives_url_file :
    detectFile (js "data:x-world/x-vrml;base64,AAAAAAAAAAAAAAAAAAAA http://a.com/f.pdf") =
      .file (js "f.pdf") (js "PDF") (.url (js "http://a.com/f.pdf")) ∧
    detectFile
        (js "data:text/plain;charset=utf-8;base64,AAAAAAAAAAAAAAAAAAAA http://a.com/f.pdf") =
      .file (js "f.pdf") (js "PDF") (.url (js "http://a.com/f.pdf")) := by
  decide!

/-- C16, amended: for every text that begins with `data:`, a type of one or more ASCII
letters and digits, `/`, a subtype of one or more ASCII letters, digits, `-`, `.` and
`+`, `;base64,` and at least 20 base64 characters, and that also contains a URL that
urlPattern of detectFile matches, detectFile returns the inline-data File (base64 source,
extension from the MIME lookup), not a URL-based one. -/
theorem detectFile_payload_precedes_url (m1 m2 tail : Text) (h : InlinePayload m1 m2 tail)
    (_hurl : fileUrlPattern.test true false (payloadText m1 m2 tail) = true) :
    detectFile (payloadText m1 m2 tail) =
      .file (js "file." ++ toLowerCase (getExtensionFromMime (m1 ++ 47 :: m2)))
        (getExtensionFromMime (m1 ++ 47 :: m2)) (.base64 (payloadText m1 m2 tail)) ∧
    ∀ f e u, detectFile (payloadText m1 m2 tail) ≠ .file f e (.url u) := by
  have hf := detectFile_of_payload m1 m2 tail h
  refine ⟨hf, fun f e u hc => ?_⟩
  rw [hf] at hc
  cases hc

theorem detectFile_payload_precedes_url_witness :
    InlinePayload (js "text") (js "csv") (js "AAAAAAAAAAAAAAAAAAAA http://a.com/f.pdf") ∧
    payloadText (js "text") (js "csv") (js "AAAAAAAAAAAAAAAAAAAA http://a.com/f.pdf") =
      js "data:text/csv;base64,AAAAAAAAAAAAAAAAAAAA http://a.com/f.pdf" ∧
    fileUrlPattern.test true false
      (payloadText (js "text") (js "csv") (js "AAAAAAAAAAAAAAAAAAAA http://a.com/f.pdf")) = true ∧
    detectFile (payloadText (js "text") (js "csv") (js "AAAAAAAAAAAAAAAAAAAA http://a.com/f.pdf")) =
      .file (js "file.csv") (js "CSV")
        (.base64 (js "data:text/csv;base64,AAAAAAAAAAAAAAAAAAAA http://a.com/f.pdf")) :=
  have hp : InlinePayload (js "text") (js "csv") (js "AAAAAAAAAAAAAAAAAAAA http://a.com/f.pdf") :=
    ⟨by decide, by decide, by decide, by decide, by decide⟩
  have hu : fileUrlPattern.test true false
      (payloadText (js "text") (js "csv") (js "AAAAAAAAAAAAAAAAAAAA http://a.com/f.pdf")) = true := by
    decide!
  ⟨hp, by decide, hu, (detectFile_payload_precedes_url _ _ _ hp hu).1⟩

/-- C17, as worded, fails: the text `data:x-world/x-vrml;base64,AAAAAAAAAAAAAAAAAAAA`
begins with `data:<mime>;base64,` and 20 base64 characters and its MIME type is not in
the table, so the extension would be `FILE`; but base64Pattern allows no hyphen in the
type and detectFile returns NotFile. -/
theorem detectFile_unmatched_mime_is_not_file :
    getExtensionFromMime (js "x-world/x-vrml") = js "FILE" ∧
    detectFile (js "data:x-world/x-vrml;base64,AAAAAAAAAAAAAAAAAAAA") = .notFile := by
  decide!

/-- C17, amended: for every text `data:<type>/<subtype>;base64,<tail>` with a type of one
or more ASCII letters and digits and a subtype of one or more ASCII letters, digits, `-`,
`.` and `+`: when the tail begins with at least 20 base64 characters, detectFile returns
File with the extension getExtensionFromMime gives for `<type>/<subtype>`, which is the
entry of the MIME table when the type is listed there and `FILE` otherwise, and with the
filename `file.` followed by that extension in lower case; with fewer than 20 base64
characters base64Pattern does not match and no inline-data File is returned. -/
theorem detectFile_inline_payload (m1 m2 tail : Text)
    (hm1 : m1 ≠ []) (h1 : ∀ x ∈ m1, mimeTypeUnit x = true)
    (hm2 : m2 ≠ []) (h2 : ∀ x ∈ m2, mimeSubtypeUnit x = true) :
    (20 ≤ (tail.takeWhile base64Unit).length →
      detectFile (payloadText m1 m2 tail) =
        .file (js "file." ++ toLowerCase (getExtensionFromMime (m1 ++ 47 :: m2)))
          (getExtensionFromMime (m1 ++ 47 :: m2)) (.base64 (payloadText m1 m2 tail))) ∧
    (∀ e ∈ mimeMap, m1 ++ 47 :: m2 = js e.1 →
      getExtensionFromMime (m1 ++ 47 :: m2) = js e.2) ∧
    ((∀ e ∈ mimeMap, m1 ++ 47 :: m2 ≠ js e.1) →
      getExtensionFromMime (m1 ++ 47 :: m2) = js "FILE") ∧
    ((tail.takeWhile base64Unit).length < 20 →
      base64Pattern.exec false false (payloadText m1 m2 tail) = none ∧
      ∀ f e d, detectFile (payloadText m1 m2 tail) ≠ .file f e (.base64 d)) := by
  refine ⟨fun h => detectFile_of_payload m1 m2 tail ⟨hm1, h1, hm2, h2, h⟩, ?_,
    getExtensionFromMime_unlisted _, fun h => ?_⟩
  · intro e he heq
    rw [heq]
    exact getExtensionFromMime_listed e he
  · have hn := base64_exec_none m1 m2 tail h1 h2 h
    exact ⟨hn, detectFile_not_base64 _ hn⟩

theorem detectFile_inline_payload_witness :
    detectFile (payloadText (js "image") (js "png") (js "AAAAAAAAAAAAAAAAAAAA")) =
      .file (js "file.png") (js "PNG") (.base64 (js "data:image/png;base64,AAAAAAAAAAAAAAAAAAAA")) ∧
    detectFile (payloadText (js "foo") (js "bar") (js "AAAAAAAAAAAAAAAAAAAA")) =
      .file (js "file.file") (js "FILE") (.base64 (js "data:foo/bar;base64,AAAAAAAAAAAAAAAAAAAA")) ∧
    detectFile (payloadText (js "image") (js "png") (js "AAAAAAAAAAAAAAAAAAA")) = .notFile :=
  ⟨(detectFile_inline_payload (js "image") (js "png") (js "AAAAAAAAAAAAAAAAAAAA")
      (by decide) (by decide) (by decide) (by decide)).1 (by decide),
    by decide!, by decide!⟩

/-- C18 at a failing input: for the URL `https://a.com/f.docx` detectFile returns the
file `f.doc` with extension `DOC` and the URL cut after `.doc`: the alternation of
extensions tries `doc` before `docx` and nothing has to follow the extension. -/
theorem detectFile_docx_url_reported_as_doc :
    detectFile (js "https://a.com/f.docx") =
      .file (js "f.doc") (js "DOC") (.url (js "https://a.com/f.doc")) ∧
    detectFile (js "https://a.com/f.xlsx") =
      .file (js "f.xls") (js "XLS") (.url (js "https://a.com/f.xls")) := by
  decide!

/-! ## Plain prose -/

/-- C11, as worded, fails: `let me know` consists of letters and single spaces and has 11
characters, but it contains the fragment `let ` of the gate and matches signature
patterns: detectCode returns JavaScript. -/
theorem prose_with_keyword_is_code :
    (∀ c ∈ js "let me know", isLetter c = true ∨ c = 32) ∧
    includes (js "  ") (js "let me know") = false ∧
    (js "let me know").length < 50 ∧
    detectCode (js "let me know") = Code "JavaScript" := by
  refine ⟨by decide, by decide, by decide, ?_⟩
  decide!

/-- C11, amended: for every text that consists only of letters and single spaces (of any
length), detectURL returns NoURL and detectFile returns NotFile; when the text moreover
contains none of the seven keyword fragments of the gate (`import `, `def `, `class `,
`function `, `const `, `let `, `var `), detectCode returns NotCode. -/
theorem plain_prose_not_classified (text : Text)
    (hprose : ∀ c ∈ text, isLetter c = true ∨ c = 32)
    (hsingle : includes (js "  ") text = false) :
    ((∀ f ∈ gateFragments, includes (js f) text = false) → detectCode text = NotCode) ∧
    detectURL text = .noURL ∧ detectFile text = .notFile := by
  have hcolon := (prose_not_mem hprose).1
  exact ⟨fun hfrag =>
      detectCode_of_no_gate text (hasCodeCharacteristics_prose text hprose hsingle hfrag),
    detectURL_of_no_colon text hcolon, detectFile_of_no_colon text hcolon⟩

theorem plain_prose_not_classified_witness :
    detectCode (js "hello world") = NotCode ∧ detectURL (js "hello world") = .noURL ∧
    detectFile (js "hello world") = .notFile :=
  have h := plain_prose_not_classified (js "hello world") (by decide) (by decide)
  ⟨h.1 (by decide), h.2.1, h.2.2⟩

/-- C19, as worded, fails: the text `https://a.com/f.pdfx` has no inline data payload and
its only URL, the whole text, does not end in a dot and a supported extension, but
detectFile returns the file `f.pdf`: nothing in urlPattern says that the URL ends after the
extension. -/
theorem detectFile_url_with_longer_ending :
    base64Pattern.test false false (js "https://a.com/f.pdfx") = false ∧
    wordedUrls (js "https://a.com/f.pdfx") = [js "https://a.com/f.pdfx"] ∧
    hasUrlEndingInExtension (js "https://a.com/f.pdfx") = false ∧
    detectFile (js "https://a.com/f.pdfx") =
      .file (js "f.pdf") (js "PDF") (.url (js "https://a.com/f.pdf")) := by
  decide!

/-- C19, amended: for every text that base64Pattern does not match, detectFile returns
NotFile, or the text contains `http://` or `https://` (in either case of the letters),
then one or more characters that are not white space, then a dot and one of the supported
extensions (in either case), and detectFile returns the File whose url is that part of
the text, up to and including the extension, whatever follows it. -/
theorem detectFile_url_file_has_extension (text : Text)
    (hno : base64Pattern.test false false text = false) :
    detectFile text = .notFile ∨
    ∃ pre scheme body ext post,
      text = pre ++ (scheme ++ (body ++ 46 :: ext)) ++ post ∧
      (toLowerCase scheme = js "http://" ∨ toLowerCase scheme = js "https://") ∧
      body ≠ [] ∧ (∀ c ∈ body, isSpace c = false) ∧
      (∃ x ∈ supportedExtensions, toLowerCase ext = js x) ∧
      detectFile text =
        .file (splitPop 47 (scheme ++ (body ++ 46 :: ext)))
          (toUpperCase (splitPop 46 (splitPop 47 (scheme ++ (body ++ 46 :: ext)))))
          (.url (scheme ++ (body ++ 46 :: ext))) := by
  have hb := exec_eq_none_of_test _ _ _ _ hno
  cases hex : fileUrlPattern.exec true false text with
  | none =>
    left
    unfold detectFile
    rw [hb, hex]
  | some se =>
    right
    obtain ⟨pre, scheme, body, ext, post, h1, h2, h3, h4, h5, h6⟩ :=
      fileUrlPattern_exec_sound text se.1 se.2 hex
    refine ⟨pre, scheme, body, ext, post, h1, h2, h3, h4, h5, ?_⟩
    unfold detectFile
    rw [hb, hex]
    simp only [h6, Option.getD_some]

theorem detectFile_url_file_has_extension_witness :
    detectFile (js "see HTTPS://a.com/f.PDF now") =
      .file (js "f.PDF") (js "PDF") (.url (js "HTTPS://a.com/f.PDF")) ∧
    (detectFile (js "see HTTPS://a.com/f.PDF now") = .notFile ∨
    ∃ pre scheme body ext post,
      js "see HTTPS://a.com/f.PDF now" = pre ++ (scheme ++ (body ++ 46 :: ext)) ++ post ∧
      (toLowerCase scheme = js "http://" ∨ toLowerCase scheme = js "https://") ∧
      body ≠ [] ∧ (∀ c ∈ body, isSpace c = false) ∧
      (∃ x ∈ supportedExtensions, toLowerCase ext = js x) ∧
      detectFile (js "see HTTPS://a.com/f.PDF now") =
        .file (splitPop 47 (scheme ++ (body ++ 46 :: ext)))
          (toUpperCase (splitPop 46 (splitPop 47 (scheme ++ (body ++ 46 :: ext)))))
          (.url (scheme ++ (body ++ 46 :: ext)))) :=
  ⟨by decide!, detectFile_url_file_has_extension (js "see HTTPS://a.com/f.PDF now") (by decide!)⟩

/-! ## detectCode: when it reports code -/

theorem langMatches_pos_iff (langPatterns : List Pat) (text : Text) :
    1 ≤ langMatches langPatterns text ↔ ∃ p ∈ langPatterns, p.test text = true := by
  unfold langMatches
  rw [Nat.succ_le_iff, List.length_pos_iff_exists_mem]
  constructor
  · rintro ⟨p, hp⟩
    exact ⟨p, (List.mem_filter.mp hp).1, (List.mem_filter.mp hp).2⟩
  · rintro ⟨p, hp, ht⟩
    exact ⟨p, List.mem_filter.mpr ⟨hp, ht⟩⟩

theorem collect_ne_nil_iff (text : Text) :
    collect text ≠ [] ↔ ∃ e ∈ patterns, ∃ p ∈ e.2, p.test text = true := by
  unfold collect collectFrom
  constructor
  · intro h
    obtain ⟨c, hc⟩ := List.exists_mem_of_ne_nil _ h
    obtain ⟨e, he, hv⟩ := List.mem_filterMap.mp hc
    have hs : (vote text e).isSome = true := by rw [hv]; rfl
    exact ⟨e, he, (langMatches_pos_iff _ _).mp ((vote_isSome text e).mp hs)⟩
  · rintro ⟨e, he, hp⟩
    have hs := (vote_isSome text e).mpr ((langMatches_pos_iff _ _).mpr hp)
    obtain ⟨c, hc⟩ := Option.isSome_iff_exists.mp hs
    intro hnil
    have : c ∈ patterns.filterMap (vote text) := List.mem_filterMap.mpr ⟨e, he, hc⟩
    rw [hnil] at this
    cases this

theorem detectCode_isCode (text : Text) :
    (detectCode text).isCode = true ↔ hasCodeCharacteristics text = true ∧ collect text ≠ [] := by
  cases hg : hasCodeCharacteristics text with
  | false =>
    rw [detectCode_of_no_gate text hg]
    simp [NotCode]
  | true =>
    by_cases hc : collect text = []
    · rw [detectCode_of_no_match text hc]
      simp [NotCode, hc]
    · obtain ⟨m, hm⟩ := firstMax_isSome hc
      rw [detectCode_of_gate text hg hm]
      simp [Code, hc]

theorem addMessage_of_code (text : Text) (h : (detectCode text).isCode = true) :
    ∀ b, addMessage text ≠ .url b := by
  intro b
  unfold addMessage
  simp only [h, if_true]
  split
  · intro hc; cases hc
  · intro hc; cases hc

/-! ## The search finds a match that exists -/

theorem searchGo_isSome_of_suffix (ci ml : Bool) (re : Re) (rest : Text) :
    ∀ (pre : Text) (prev : Option Nat),
      (re.run ci ml ⟨lastPrev prev pre, rest, []⟩ some).isSome = true →
      (searchGo ci ml re prev (pre ++ rest)).isSome = true := by
  intro pre
  induction pre with
  | nil =>
    intro prev h
    rw [lastPrev_nil] at h
    obtain ⟨e, he⟩ := Option.isSome_iff_exists.mp h
    rw [List.nil_append, searchGo_of_run ci ml re prev rest e he]
    rfl
  | cons x pre ih =>
    intro prev h
    rw [List.cons_append]
    unfold searchGo
    cases hr : re.run ci ml ⟨prev, x :: (pre ++ rest), []⟩ some with
    | some e => rfl
    | none =>
      simp only
      apply ih
      rwa [lastPrev_cons] at h

theorem includes_of_mem (c : Nat) : ∀ t : Text, c ∈ t → includes [c] t = true := by
  intro t
  induction t with
  | nil => intro h; cases h
  | cons x t ih =>
    intro h
    simp only [includes, startsWith, Bool.and_true, Bool.or_eq_true, beq_iff_eq]
    rcases List.mem_cons.mp h with h | h
    · exact Or.inl h
    · exact Or.inr (ih h)

/-! ## The pattern of line comments -/

theorem orElse_isSome_of_left (a : Option St) (b : Unit → Option St)
    (h : a.isSome = true) : (orElse a b).isSome = true := by
  unfold orElse
  cases a with
  | none => cases h
  | some e => rfl

theorem loopGo_dot_eol (caps : List (Nat × Text)) : ∀ (fuel rest : Text) (prev : Option Nat),
    rest.length ≤ fuel.length → (∀ c ∈ rest, isLineTerminator c = false) →
    (loopGo runDot true fuel ⟨prev, rest, caps⟩ (fun st => runEol false st some)).isSome = true := by
  intro fuel
  induction fuel with
  | nil =>
    intro rest prev hlen _
    have : rest = [] := List.length_eq_zero.mp (Nat.le_zero.mp hlen)
    subst this
    rfl
  | cons f fuel ih =>
    intro rest prev hlen hrest
    cases rest with
    | nil => rfl
    | cons x xs =>
      unfold loopGo
      simp only [if_true]
      apply orElse_isSome_of_left
      simp only [runDot, hrest x (List.mem_cons_self _ _), Bool.false_eq_true, if_false,
        ifProgress, shorter_cons, if_true]
      exact ih xs (some x) (by simpa using hlen)
        (fun c hc => hrest c (List.mem_cons_of_mem _ hc))

theorem lineComment_test (pre rest : Text) (hrest : ∀ c ∈ rest, isLineTerminator c = false) :
    lineCommentPattern.test (pre ++ 47 :: 47 :: rest) = true := by
  unfold Pat.test Re.test Re.exec
  apply searchGo_isSome_of_suffix
  have hj : js "//" = [47, 47] := by decide
  show (Re.run false false (.seq (.lit "//") (.seq (.rep 0 true .dot) .eol))
    ⟨lastPrev none pre, [47, 47] ++ rest, []⟩ some).isSome = true
  rw [run_seq, run_lit, runLit_of_eq hj]
  exact loopGo_dot_eol [] rest rest _ (le_refl _) hrest

/-! ## The tests of the filter of detectURL -/

theorem searchGo_set (ci ml neg : Bool) (items : List CItem) :
    ∀ (text : Text) (prev : Option Nat),
      (searchGo ci ml (.set neg items) prev text).isSome = text.any (inClass ci neg items) := by
  intro text
  induction text with
  | nil =>
    intro prev
    unfold searchGo
    have hr : Re.run ci ml (.set neg items) ⟨prev, [], []⟩ some = none := rfl
    rw [hr]
    rfl
  | cons x t ih =>
    intro prev
    unfold searchGo
    have hr : Re.run ci ml (.set neg items) ⟨prev, x :: t, []⟩ some =
        if inClass ci neg items x = true then some ⟨some x, t, []⟩ else none := rfl
    rw [hr, List.any_cons]
    cases hx : inClass ci neg items x with
    | true => rfl
    | false =>
      simp only [Bool.false_eq_true, if_false, Bool.false_or]
      exact ih (some x)

theorem set_test (ci ml neg : Bool) (items : List CItem) (text : Text) :
    (Re.set neg items).test ci ml text = text.any (inClass ci neg items) :=
  searchGo_set ci ml neg items text none

theorem startsWith_iff (p : Text) : ∀ t : Text,
    startsWith p t = true ↔ ∃ after, t = p ++ after := by
  induction p with
  | nil => intro t; exact ⟨fun _ => ⟨t, rfl⟩, fun _ => by cases t <;> rfl⟩
  | cons a p ih =>
    intro t
    cases t with
    | nil =>
      constructor
      · intro h; simp [startsWith] at h
      · rintro ⟨after, h⟩; cases h
    | cons b t =>
      simp only [startsWith, Bool.and_eq_true, beq_iff_eq, List.cons_append, List.cons.injEq]
      rw [ih t]
      constructor
      · rintro ⟨h, after, ht⟩; exact ⟨after, h.symm, ht⟩
      · rintro ⟨after, h, ht⟩; exact ⟨h.symm, after, ht⟩

theorem atWordB_eq (prev : Option Nat) (rest : Text) (caps : List (Nat × Text)) :
    atWordB ⟨prev, rest, caps⟩ = (wordUnitBefore prev != wordUnitAt rest) := by
  cases prev <;> cases rest <;> rfl

theorem wordUnitAt_append {w : Text} (after : Text) (h : wordUnitAt w = true) :
    wordUnitAt (w ++ after) = true := by
  cases w with
  | nil => cases h
  | cons x t => exact h

theorem lastPrev_of_ne_nil {w : Text} (h : w ≠ []) (p q : Option Nat) :
    lastPrev p w = lastPrev q w := by
  cases w with
  | nil => exact absurd rfl h
  | cons x t => rw [lastPrev_cons, lastPrev_cons]

/-- A text has `w` as a whole word exactly when it is `pre ++ w ++ after` with no word
character at the end of `pre` and none at the start of `after`. -/
theorem hasWholeWord_iff (w : Text) (hw : w ≠ []) : ∀ (text : Text) (prev : Option Nat),
    hasWholeWord w prev text = true ↔
      ∃ pre after, text = pre ++ (w ++ after) ∧ wordUnitBefore (lastPrev prev pre) = false ∧
        wordUnitAt after = false := by
  intro text
  induction text with
  | nil =>
    intro prev
    constructor
    · intro h; cases h
    · rintro ⟨pre, after, h, -⟩
      have := congrArg List.length h
      simp only [List.length_nil, List.length_append] at this
      have hl : 0 < w.length := List.length_pos.mpr hw
      omega
  | cons x t ih =>
    intro prev
    unfold hasWholeWord
    rw [Bool.or_eq_true, ih (some x)]
    constructor
    · rintro (h | ⟨pre, after, ht, hb, ha⟩)
      · simp only [Bool.and_eq_true, Bool.not_eq_true'] at h
        obtain ⟨after, hafter⟩ := (startsWith_iff w _).mp h.1.1
        refine ⟨[], after, hafter, h.1.2, ?_⟩
        have hd := h.2
        rw [hafter, List.drop_left] at hd
        exact hd
      · exact ⟨x :: pre, after, by rw [ht]; rfl, by rw [lastPrev_cons]; exact hb, ha⟩
    · rintro ⟨pre, after, ht, hb, ha⟩
      cases pre with
      | nil =>
        left
        rw [List.nil_append] at ht
        simp only [Bool.and_eq_true, Bool.not_eq_true']
        refine ⟨⟨(startsWith_iff w _).mpr ⟨after, ht⟩, hb⟩, ?_⟩
        rw [ht, List.drop_left]
        exact ha
      | cons y pre =>
        right
        rw [List.cons_append] at ht
        obtain ⟨hxy, ht2⟩ := List.cons.inj ht
        subst hxy
        exact ⟨pre, after, ht2, by rw [lastPrev_cons] at hb; exact hb, ha⟩

theorem run_alt (ci ml : Bool) (a b : Re) (st : St) (k : Cont) :
    Re.run ci ml (.alt a b) st k =
      orElse (Re.run ci ml a st k) (fun _ => Re.run ci ml b st k) := rfl

theorem run_wordB (ci ml : Bool) (st : St) (k : Cont) :
    Re.run ci ml .wordB st k = if atWordB st then k st else none := rfl

theorem run_alts_lit_isSome (ci ml : Bool) : ∀ (ws : List String) (kw : String) (st : St)
    (k : Cont), kw ∈ ws → (runLit ci kw st k).isSome = true →
    (Re.run ci ml (alts (ws.map lit)) st k).isSome = true := by
  intro ws
  induction ws with
  | nil => intro kw st k h; cases h
  | cons s rest ih =>
    intro kw st k hmem hrun
    cases rest with
    | nil =>
      rcases List.mem_cons.mp hmem with h | h
      · subst h; exact hrun
      · cases h
    | cons s2 r =>
      show (Re.run ci ml (.alt (.lit s) (alts ((s2 :: r).map lit))) st k).isSome = true
      rw [run_alt]
      rcases List.mem_cons.mp hmem with h | h
      · subst h; exact orElse_isSome_of_left _ _ hrun
      · exact orElse_isSome_of_right _ _ (ih kw st k h hrun)

/-- The pattern `\b(w1|w2|...)\b` over words that begin and end with a word character
matches exactly the texts that have one of the words as a whole word. -/
theorem wordAlts_test (ws : List String)
    (hws : ∀ w ∈ ws, wordUnitAt (js w) = true ∧ wordUnitBefore (lastPrev none (js w)) = true)
    (text : Text) :
    (Re.seq .wordB (.seq (.grp 1 (alts (ws.map lit))) .wordB)).test false false text =
      ws.any (fun w => hasWholeWord (js w) none text) := by
  rw [Bool.eq_iff_iff]
  constructor
  · intro h
    unfold Re.test at h
    obtain ⟨se, hse⟩ := Option.isSome_iff_exists.mp h
    obtain ⟨pre, hpre, hprev, -, hrun⟩ := searchGo_sound false false _ text none se.1 se.2 hse
    obtain ⟨w, after, caps, hw, hl, -⟩ := run_sound false false _ se.1 some se.2 hrun
    simp only [Lang] at hl
    obtain ⟨w1, w2, rfl, ⟨rfl, hb1⟩, w3, w4, rfl, hlit, rfl, hb2⟩ := hl
    simp only [List.append_nil, List.nil_append, lastPrev_nil] at hb1 hb2 hw hlit
    obtain ⟨kw, hkw, hf⟩ := lang_alts_lit false false ws _ _ _ hlit
    have hw3 := forall2_sameUnit_false hf
    subst hw3
    obtain ⟨hat, hlast⟩ := hws kw hkw
    have hne : js kw ≠ [] := by intro h0; rw [h0] at hat; cases hat
    rw [List.any_eq_true]
    refine ⟨kw, hkw, (hasWholeWord_iff (js kw) hne text none).mpr ⟨pre, after, ?_, ?_, ?_⟩⟩
    · rw [hpre, hw]
    · rw [atWordB_eq, wordUnitAt_append _ hat, hprev] at hb1
      cases hb : wordUnitBefore (lastPrev none pre) with
      | false => rfl
      | true => rw [hb] at hb1; cases hb1
    · rw [atWordB_eq, lastPrev_of_ne_nil hne _ none, hlast] at hb2
      cases ha : wordUnitAt after with
      | false => rfl
      | true => rw [ha] at hb2; cases hb2
  · intro h
    obtain ⟨kw, hkw, hhas⟩ := List.any_eq_true.mp h
    obtain ⟨hat, hlast⟩ := hws kw hkw
    have hne : js kw ≠ [] := by intro h0; rw [h0] at hat; cases hat
    obtain ⟨pre, after, htext, hb, ha⟩ := (hasWholeWord_iff (js kw) hne text none).mp hhas
    unfold Re.test Re.exec
    rw [htext]
    apply searchGo_isSome_of_suffix
    rw [run_seq, run_wordB, atWordB_eq, hb, wordUnitAt_append _ hat]
    simp only [bne, Bool.false_eq_true, if_true, beq_iff_eq, Bool.not_eq_true', reduceCtorEq,
      Bool.not_false, beq_eq_false_iff_ne, ne_eq, not_false_eq_true]
    rw [run_seq, run_grp]
    apply run_alts_lit_isSome false false ws kw _ _ hkw
    rw [runLit_self]
    simp only [capture]
    rw [run_wordB, atWordB_eq, lastPrev_of_ne_nil hne _ none, hlast, ha]
    rfl

theorem nat_beq_iff (a c : Nat) : Nat.beq a c = true ↔ c = a :=
  ⟨fun h => (Nat.eq_of_beq_eq_true h).symm, fun h => by subst h; exact Nat.beq_refl _⟩

theorem punctuation_inClass (c : Nat) :
    inClass false false [.c '\x7b', .c '\x7d', .c '(', .c ')', .c ';'] c =
      codePunctuation.contains c := by
  rw [Bool.eq_iff_iff]
  simp only [inClass, CItem.test, sameUnit, codePunctuation, List.any_cons, List.any_nil,
    Bool.false_eq_true, if_false, Bool.or_false, bne_iff_ne, ne_eq, Bool.or_eq_true,
    List.contains, List.elem_eq_mem, List.mem_cons, List.mem_singleton, decide_eq_true_eq,
    List.not_mem_nil, or_false, Bool.not_eq_false, nat_beq_iff]
  have e1 : ('\x7b' : Char).toNat = 123 := rfl
  have e2 : ('\x7d' : Char).toNat = 125 := rfl
  have e3 : ('(' : Char).toNat = 40 := rfl
  have e4 : (')' : Char).toNat = 41 := rfl
  have e5 : (';' : Char).toNat = 59 := rfl
  rw [e1, e2, e3, e4, e5]

theorem before_inClass (c : Nat) :
    inClass false false [.word, .c '.', .c '='] c = isCodeUnitBefore c := by
  rw [Bool.eq_iff_iff]
  simp only [inClass, CItem.test, sameUnit, isCodeUnitBefore, List.any_cons, List.any_nil,
    Bool.false_eq_true, if_false, Bool.or_false, bne_iff_ne, ne_eq, Bool.or_eq_true,
    beq_iff_eq, Bool.not_eq_false, nat_beq_iff]
  have e1 : ('.' : Char).toNat = 46 := rfl
  have e2 : ('=' : Char).toNat = 61 := rfl
  rw [e1, e2, or_assoc]

theorem punctuation_test (text : Text) :
    contextPunctuation.test false false text =
      text.any (fun c => codePunctuation.contains c) := by
  have h : contextPunctuation.test false false text =
      text.any (inClass false false [.c '\x7b', .c '\x7d', .c '(', .c ')', .c ';']) :=
    set_test false false false _ text
  rw [h]
  congr 1
  funext c
  exact punctuation_inClass c

theorem before_test (text : Text) (i : Nat) (hi : 0 < i) :
    beforeCharPattern.test false false (substring text (i - 1) i) =
      match text.get? (i - 1) with
      | some c => isCodeUnitBefore c
      | none => false := by
  have h : beforeCharPattern.test false false (substring text (i - 1) i) =
      (substring text (i - 1) i).any (inClass false false [.word, .c '.', .c '=']) :=
    set_test false false false _ _
  have h1 : i - (i - 1) = 1 := by omega
  rw [h, substring, h1]
  cases hd : text.drop (i - 1) with
  | nil =>
    have hlen : text.length ≤ i - 1 := List.drop_eq_nil_iff.mp hd
    rw [List.get?_eq_none.mpr hlen]
    rfl
  | cons c r =>
    have hg : text.get? (i - 1) = some c := by
      have := List.getElem?_drop text (i - 1) 0
      rw [hd, Nat.add_zero] at this
      rw [List.get?_eq_getElem?, ← this]
      exact List.getElem?_cons_zero
    rw [hg]
    simp [before_inClass]

theorem keywords_test (text : Text) :
    contextKeywords.test false false text =
      ["function", "const", "let", "var", "class", "public", "private", "protected"].any
        (fun w => hasWholeWord (js w) none text) := by
  show (Re.seq .wordB (.seq (.grp 1 (alts (["function", "const", "let", "var", "class",
    "public", "private", "protected"].map lit))) .wordB)).test false false text = _
  exact wordAlts_test _ (by decide) text

theorem imports_test (text : Text) :
    contextImports.test false false text =
      ["import", "require", "include"].any (fun w => hasWholeWord (js w) none text) := by
  show (Re.seq .wordB (.seq (.grp 1 (alts (["import", "require", "include"].map lit)))
    .wordB)).test false false text = _
  exact wordAlts_test _ (by decide) text

/-- The filter of detectURL keeps a URL exactly when the specification does not discard
it. -/
theorem keepUrl_eq_not_discarded (text url : Text) :
    keepUrl text url = !discardedAsWorded text url := by
  unfold keepUrl discardedAsWorded
  cases hidx : indexOf url text with
  | none => rfl
  | some i =>
    simp only
    by_cases hi : 0 < i
    · have hw : codeWords.any
          (fun w => hasWholeWord (js w) none (substring text (i - 10) (i + url.length + 10))) =
          (contextKeywords.test false false (substring text (i - 10) (i + url.length + 10)) ||
            contextImports.test false false (substring text (i - 10) (i + url.length + 10))) := by
        rw [keywords_test, imports_test, ← List.any_append]
        rfl
      rw [hw, ← punctuation_test, ← before_test text i hi]
      simp only [gt_iff_lt, hi, if_true, decide_True, Bool.true_and]
      cases beforeCharPattern.test false false (substring text (i - 1) i) <;>
        cases contextKeywords.test false false (substring text (i - 10) (i + url.length + 10)) <;>
        cases contextImports.test false false (substring text (i - 10) (i + url.length + 10)) <;>
        cases contextPunctuation.test false false
          (substring text (i - 10) (i + url.length + 10)) <;> rfl
    · simp only [gt_iff_lt, hi, if_false, decide_False, Bool.false_and, Bool.not_false]

/-! ## Claims on the rules of resolveConflicts -/

/-- C21 at a failing input: the text `@Override @Deprecated #region` has two markers of
Java and one of C#, yet the rule csharp/java keeps csharp: `text.match` of a pattern
without the flag g gives the match and its groups, so both counts are 3 (a match and two
groups) and the configured weights decide. -/
theorem applyPair_ignores_number_of_markers :
    (matchAll specific_csharp_java_1 false false (js "@Override @Deprecated #region")).length = 1 ∧
    (matchAll specific_csharp_java_2 false false (js "@Override @Deprecated #region")).length = 2 ∧
    specificMatches ⟨"csharp", "java", 6, 5⟩ (js "@Override @Deprecated #region") = (3, 3) ∧
    applyPair (js "@Override @Deprecated #region") [⟨"csharp", 2⟩, ⟨"java", 4⟩]
      ⟨"csharp", "java", 6, 5⟩ = [⟨"csharp", 6⟩] ∧
    resolveConflicts [⟨"csharp", 2⟩, ⟨"java", 4⟩] [⟨"csharp", "java", 6, 5⟩]
      (js "@Override @Deprecated #region") = Code "Csharp" := by
  decide!

/-- C22: when a rule fires and the two counts are equal, the language of the greater
configured weight is the only one of the two that remains; when the weights are equal as
well, the candidates of both languages are put back as they were, behind the other
candidates, and the list is a permutation of the one before. -/
theorem applyPair_on_equal_counts (text : Text) (ms : List Candidate) (pair : ConflictPair)
    (hboth : (ms.any (fun m => m.lang == pair.lang1) &&
      ms.any (fun m => m.lang == pair.lang2)) = true)
    (htie : (specificMatches pair text).1 = (specificMatches pair text).2) :
    (pair.weight1 > pair.weight2 →
      applyPair text ms pair =
        ms.filter (fun m => m.lang != pair.lang1 && m.lang != pair.lang2) ++
          [⟨pair.lang1, pair.weight1⟩] ∧
      (pair.lang1 ≠ pair.lang2 →
        (applyPair text ms pair).any (fun m => m.lang == pair.lang2) = false)) ∧
    (pair.weight2 > pair.weight1 →
      applyPair text ms pair =
        ms.filter (fun m => m.lang != pair.lang1 && m.lang != pair.lang2) ++
          [⟨pair.lang2, pair.weight2⟩] ∧
      (pair.lang1 ≠ pair.lang2 →
        (applyPair text ms pair).any (fun m => m.lang == pair.lang1) = false)) ∧
    (pair.weight1 = pair.weight2 →
      applyPair text ms pair =
        ms.filter (fun m => m.lang != pair.lang1 && m.lang != pair.lang2) ++
          ms.filter (fun m => m.lang == pair.lang1 || m.lang == pair.lang2) ∧
      (applyPair text ms pair).Perm ms) := by
  have hshape := applyPair_of_present text ms pair hboth
  rw [if_neg (by omega), if_neg (by omega)] at hshape
  refine ⟨fun hw => ?_, fun hw => ?_, fun hw => ?_⟩
  · rw [if_pos hw] at hshape
    refine ⟨hshape, fun hne => ?_⟩
    rw [hshape, List.any_append, any_lang_filtered_right]
    simpa using hne
  · rw [if_neg (by omega), if_pos hw] at hshape
    refine ⟨hshape, fun hne => ?_⟩
    rw [hshape, List.any_append, any_lang_filtered_left]
    simpa using fun h => hne h.symm
  · rw [if_neg (by omega), if_neg (by omega)] at hshape
    refine ⟨hshape, ?_⟩
    rw [hshape]
    have hfun : (fun m : Candidate => m.lang == pair.lang1 || m.lang == pair.lang2) =
        (fun m => !(m.lang != pair.lang1 && m.lang != pair.lang2)) := by
      funext m
      cases h1 : m.lang == pair.lang1 <;> cases h2 : m.lang == pair.lang2 <;>
        simp [bne, h1, h2]
    rw [hfun]
    exact List.filter_append_perm _ ms

theorem applyPair_on_equal_counts_witness :
    applyPair (js "x") [⟨"go", 2⟩, ⟨"typescript", 1⟩, ⟨"javascript", 7⟩]
      ⟨"javascript", "typescript", 5, 6⟩ = [⟨"go", 2⟩] ++ [⟨"typescript", 6⟩] ∧
    applyPair (js "x") [⟨"b", 1⟩, ⟨"go", 2⟩, ⟨"a", 3⟩] ⟨"a", "b", 4, 4⟩ =
      [⟨"go", 2⟩] ++ [⟨"b", 1⟩, ⟨"a", 3⟩] :=
  ⟨((applyPair_on_equal_counts (js "x") [⟨"go", 2⟩, ⟨"typescript", 1⟩, ⟨"javascript", 7⟩]
      ⟨"javascript", "typescript", 5, 6⟩ (by decide) (by decide)).2.1 (by decide)).1,
    ((applyPair_on_equal_counts (js "x") [⟨"b", 1⟩, ⟨"go", 2⟩, ⟨"a", 3⟩] ⟨"a", "b", 4, 4⟩
      (by decide) (by decide)).2.2 (by decide)).1⟩

/-- C23: a rule of which at least one language is absent from the candidate list leaves
the list exactly as it was. -/
theorem applyPair_noop_unless_both (text : Text) (ms : List Candidate) (pair : ConflictPair)
    (habsent : ms.any (fun m => m.lang == pair.lang1) = false ∨
      ms.any (fun m => m.lang == pair.lang2) = false) :
    applyPair text ms pair = ms := by
  apply applyPair_of_not_both
  rcases habsent with h | h
  · rw [h]; rfl
  · rw [h]; exact Bool.and_false _

/-- C23 (witness): the rule csharp/java has removed java; the rule java/ruby that follows
finds one of its languages absent and changes nothing. -/
theorem applyPair_noop_unless_both_witness :
    applyPair (js "#region") [⟨"java", 4⟩, ⟨"ruby", 1⟩, ⟨"csharp", 2⟩] ⟨"csharp", "java", 6, 5⟩ =
      [⟨"ruby", 1⟩, ⟨"csharp", 6⟩] ∧
    applyPair (js "#region") [⟨"ruby", 1⟩, ⟨"csharp", 6⟩] ⟨"java", "ruby", 5, 6⟩ =
      [⟨"ruby", 1⟩, ⟨"csharp", 6⟩] :=
  ⟨by decide!, applyPair_noop_unless_both (js "#region") [⟨"ruby", 1⟩, ⟨"csharp", 6⟩]
    ⟨"java", "ruby", 5, 6⟩ (Or.inl (by decide))⟩

/-- C28: for every conflict table, every text and every non-empty candidate list the
list is non-empty after each rule, and resolveConflicts returns isCode true with the
capitalised language of a candidate of the final list; with an empty candidate list it
takes its fallback (`CODE` or isCode false). -/
theorem resolveConflicts_keeps_candidates (text : Text) (ms : List Candidate)
    (pairs : List ConflictPair) :
    (ms ≠ [] →
      (∀ n, applyPairs text ms (pairs.take n) ≠ []) ∧
      ∃ m ∈ applyPairs text ms pairs,
        resolveConflicts ms pairs text = ⟨true, some (capitalize m.lang)⟩) ∧
    (ms = [] →
      resolveConflicts ms pairs text =
        if hasCodeCharacteristicsFallback text && decide (text.length > 50) then UnknownCode
        else NotCode) := by
  constructor
  · intro hne
    refine ⟨fun n => applyPairs_ne_nil text _ ms hne, ?_⟩
    obtain ⟨m, hm⟩ := firstMax_isSome (applyPairs_ne_nil text pairs ms hne)
    obtain ⟨i, hi, hget, -, -⟩ := firstMax_spec hm
    exact ⟨m, hget ▸ List.get_mem _ _ _, resolveConflicts_eq ms pairs text hm⟩
  · intro hnil
    subst hnil
    have h0 : applyPairs text [] pairs = [] :=
      applyPairs_of_absent text pairs [] (fun p _ => Or.inl (fun m hm => by cases hm))
    unfold resolveConflicts
    rw [h0]
    rfl

/-- C29: when both languages of a rule are candidates, the candidates of the other
languages stay as they are, in their order, and the reinserted candidates, one or more,
all of a language of the rule, stand behind all of them. -/
theorem applyPair_frame (text : Text) (ms : List Candidate) (pair : ConflictPair)
    (hboth : (ms.any (fun m => m.lang == pair.lang1) &&
      ms.any (fun m => m.lang == pair.lang2)) = true) :
    ∃ reinserted, applyPair text ms pair =
        ms.filter (fun m => m.lang != pair.lang1 && m.lang != pair.lang2) ++ reinserted ∧
      reinserted ≠ [] ∧ ∀ c ∈ reinserted, c.lang = pair.lang1 ∨ c.lang = pair.lang2 :=
  applyPair_shape text ms pair hboth

theorem applyPair_frame_witness :
    applyPair (js "#region") [⟨"python", 3⟩, ⟨"java", 1⟩, ⟨"go", 2⟩, ⟨"csharp", 4⟩]
      ⟨"csharp", "java", 6, 5⟩ = [⟨"python", 3⟩, ⟨"go", 2⟩, ⟨"csharp", 6⟩] ∧
    ∃ reinserted,
      applyPair (js "#region") [⟨"python", 3⟩, ⟨"java", 1⟩, ⟨"go", 2⟩, ⟨"csharp", 4⟩]
        ⟨"csharp", "java", 6, 5⟩ =
        ([⟨"python", 3⟩, ⟨"java", 1⟩, ⟨"go", 2⟩, ⟨"csharp", 4⟩] : List Candidate).filter
          (fun m => m.lang != "csharp" && m.lang != "java") ++ reinserted ∧
      reinserted ≠ [] ∧ ∀ c ∈ reinserted, c.lang = "csharp" ∨ c.lang = "java" :=
  ⟨by decide!, applyPair_frame (js "#region")
    [⟨"python", 3⟩, ⟨"java", 1⟩, ⟨"go", 2⟩, ⟨"csharp", 4⟩] ⟨"csharp", "java", 6, 5⟩ (by decide)⟩

/-- C30: the shipped table has 20 rules, each names two different languages with the
weights 5 and 6 in some order, and no two rules name the same two languages; so whenever
a rule of the table fires, for any text and candidate list, both languages are removed and
one candidate of exactly one of them is appended: the branch that keeps both is never
taken. -/
theorem conflictPairs_exactly_one_survives :
    conflictPairs.length = 20 ∧
    (∀ p ∈ conflictPairs, p.lang1 ≠ p.lang2 ∧
      ((p.weight1 = 5 ∧ p.weight2 = 6) ∨ (p.weight1 = 6 ∧ p.weight2 = 5))) ∧
    conflictPairs.Pairwise (fun p q =>
      ¬((p.lang1 = q.lang1 ∧ p.lang2 = q.lang2) ∨ (p.lang1 = q.lang2 ∧ p.lang2 = q.lang1))) ∧
    ∀ p ∈ conflictPairs, ∀ (text : Text) (ms : List Candidate),
      (ms.any (fun m => m.lang == p.lang1) && ms.any (fun m => m.lang == p.lang2)) = true →
      (applyPair text ms p =
          ms.filter (fun m => m.lang != p.lang1 && m.lang != p.lang2) ++
            [⟨p.lang1, p.weight1⟩] ∧
        (applyPair text ms p).any (fun m => m.lang == p.lang1) = true ∧
        (applyPair text ms p).any (fun m => m.lang == p.lang2) = false) ∨
      (applyPair text ms p =
          ms.filter (fun m => m.lang != p.lang1 && m.lang != p.lang2) ++
            [⟨p.lang2, p.weight2⟩] ∧
        (applyPair text ms p).any (fun m => m.lang == p.lang1) = false ∧
        (applyPair text ms p).any (fun m => m.lang == p.lang2) = true) := by
  have htable : ∀ p ∈ conflictPairs, p.lang1 ≠ p.lang2 ∧
      ((p.weight1 = 5 ∧ p.weight2 = 6) ∨ (p.weight1 = 6 ∧ p.weight2 = 5)) := by decide
  refine ⟨rfl, htable, by decide, ?_⟩
  intro p hp text ms hboth
  obtain ⟨hlang, hw⟩ := htable p hp
  have hshape := applyPair_of_present text ms p hboth
  have hfirst : ∀ r, r = ms.filter (fun m => m.lang != p.lang1 && m.lang != p.lang2) ++
      [⟨p.lang1, p.weight1⟩] →
      r.any (fun m => m.lang == p.lang1) = true ∧ r.any (fun m => m.lang == p.lang2) = false := by
    intro r hr
    subst hr
    refine ⟨by simp, ?_⟩
    rw [List.any_append, any_lang_filtered_right]
    simpa using hlang
  have hsecond : ∀ r, r = ms.filter (fun m => m.lang != p.lang1 && m.lang != p.lang2) ++
      [⟨p.lang2, p.weight2⟩] →
      r.any (fun m => m.lang == p.lang1) = false ∧ r.any (fun m => m.lang == p.lang2) = true := by
    intro r hr
    subst hr
    refine ⟨?_, by simp⟩
    rw [List.any_append, any_lang_filtered_left]
    simpa using fun h => hlang h.symm
  by_cases h1 : (specificMatches p text).1 > (specificMatches p text).2
  · rw [if_pos h1] at hshape
    exact Or.inl ⟨hshape, hfirst _ hshape⟩
  · rw [if_neg h1] at hshape
    by_cases h2 : (specificMatches p text).2 > (specificMatches p text).1
    · rw [if_pos h2] at hshape
      exact Or.inr ⟨hshape, hsecond _ hshape⟩
    · rw [if_neg h2] at hshape
      by_cases h3 : p.weight1 > p.weight2
      · rw [if_pos h3] at hshape
        exact Or.inl ⟨hshape, hfirst _ hshape⟩
      · rw [if_neg h3, if_pos (by omega)] at hshape
        exact Or.inr ⟨hshape, hsecond _ hshape⟩

/-! ## Claims on detectCode as a whole -/

/-- C25: within detectCode the conflict table never changes the outcome: for every text
detectCode returns what it returns with an empty conflict table, and whenever the scan
has a candidate (the gate has passed and some language matched) the result is the first
candidate, in the order of the signature table, whose scan weight is maximal; no rule of
the conflict table names a language of the signature table. -/
theorem detectCode_resolver_free :
    (∀ text : Text, detectCode text = detectCodeWith [] text) ∧
    (∀ text : Text, hasCodeCharacteristics text = true → collect text ≠ [] →
      ∃ i, ∃ hi : i < (collect text).length,
        detectCode text = Code ((collect text).get ⟨i, hi⟩).lang ∧
        (∀ c ∈ collect text, c.weight ≤ ((collect text).get ⟨i, hi⟩).weight) ∧
        ∀ j, ∀ hj : j < (collect text).length, j < i →
          ((collect text).get ⟨j, hj⟩).weight < ((collect text).get ⟨i, hi⟩).weight) ∧
    (∀ text : Text, ((collect text).map Candidate.lang).Sublist catalog) ∧
    catalog = ["JavaScript", "TypeScript", "Python", "Java", "C#", "PHP", "HTML", "CSS", "SQL",
      "Bash", "Ruby", "Go", "Rust", "C++", "Swift", "Kotlin"] ∧
    (∀ p ∈ conflictPairs, p.lang1 ∉ catalog ∧ p.lang2 ∉ catalog) := by
  refine ⟨fun text => ?_, fun text hg hc => ?_, collect_sublist, catalog_eq,
    conflictPairs_not_catalog⟩
  · unfold detectCode detectCodeWith
    split
    · rfl
    · simp only
      split
      · unfold resolveConflicts
        rw [applyPairs_collect]
        rfl
      · rfl
  · obtain ⟨m, hm⟩ := firstMax_isSome hc
    obtain ⟨i, hi, hget, hmax, hfirst⟩ := firstMax_spec hm
    refine ⟨i, hi, ?_, ?_, ?_⟩
    · rw [hget]; exact detectCode_of_gate text hg hm
    · rw [hget]; exact hmax
    · rw [hget]; exact hfirst

/-- C26: detectCode reports code exactly when the gate holds and at least one pattern of
at least one language matches the text; the gate holds exactly when the text contains
both braces, or the pattern `^\s{2,}` with the flag m matches, or the text has more than 3
lines and contains `=` or `:`, or it contains one of the seven keyword fragments. -/
theorem detectCode_isCode_iff (text : Text) :
    ((detectCode text).isCode = true ↔
      hasCodeCharacteristics text = true ∧ ∃ e ∈ patterns, ∃ p ∈ e.2, p.test text = true) ∧
    (hasCodeCharacteristics text = true ↔
      (includes (js "\x7b") text = true ∧ includes (js "\x7d") text = true) ∨
      gateIndent.test false true text = true ∨
      (3 < splitLength 10 text ∧
        (includes (js "=") text = true ∨ includes (js ":") text = true)) ∨
      ∃ f ∈ gateFragments, includes (js f) text = true) := by
  constructor
  · rw [detectCode_isCode, collect_ne_nil_iff]
  · unfold hasCodeCharacteristics gateFragments
    simp only [Bool.or_eq_true, Bool.and_eq_true, decide_eq_true_eq, gt_iff_lt,
      List.mem_cons, List.mem_singleton, exists_eq_or_imp, exists_eq_left, List.not_mem_nil,
      false_and, exists_false, or_false]
    tauto

/-- C27, as worded, fails: the text of the four lines `a`, `b`, `c` and `https://a.com`
followed by a carriage return has more than three lines and a URL on its final line, but
a line terminator stands behind the URL: the pattern of line comments does not match, no
pattern does, detectCode returns NotCode and the message is rendered as a URL. -/
theorem multiline_message_with_carriage_return_is_url :
    splitLength 10 (js "a\nb\nc\nhttps://a.com\r") = 4 ∧
    detectURL (js "a\nb\nc\nhttps://a.com\r") = .single (js "https://a.com") ∧
    lineCommentPattern.test (js "a\nb\nc\nhttps://a.com\r") = false ∧
    detectCode (js "a\nb\nc\nhttps://a.com\r") = NotCode ∧
    addMessage (js "a\nb\nc\nhttps://a.com\r") = .url false := by
  have hu : detectURL (js "a\nb\nc\nhttps://a.com\r") = .single (js "https://a.com") := by
    decide!
  have hc : detectCode (js "a\nb\nc\nhttps://a.com\r") = NotCode :=
    detectCode_of_no_match _ (by decide!)
  have hf : detectFile (js "a\nb\nc\nhttps://a.com\r") = .notFile := by decide!
  refine ⟨by decide, hu, by decide!, hc, ?_⟩
  unfold addMessage
  rw [hf, hc, hu]
  rfl

/-- C27, amended: a text of more than three lines that contains `http://` or `https://`
with no line terminator (line feed, carriage return, U+2028, U+2029) anywhere behind it
is classified as code: the gate holds by the number of lines and the colon, and the
pattern of line comments of Rust, Swift and Kotlin matches from the two slashes to the
end; addMessage never renders such a message as a URL. -/
theorem multiline_message_with_final_url_is_code (pre scheme rest : Text)
    (hlines : 3 < splitLength 10 (pre ++ (scheme ++ rest)))
    (hscheme : scheme = js "http://" ∨ scheme = js "https://")
    (hrest : ∀ c ∈ rest, isLineTerminator c = false) :
    lineCommentPattern.test (pre ++ (scheme ++ rest)) = true ∧
    lineCommentPattern ∈ rustPatterns ∧ lineCommentPattern ∈ swiftPatterns ∧
    lineCommentPattern ∈ kotlinPatterns ∧
    (detectCode (pre ++ (scheme ++ rest))).isCode = true ∧
    ∀ b, addMessage (pre ++ (scheme ++ rest)) ≠ .url b := by
  have hrust : lineCommentPattern ∈ rustPatterns :=
    List.mem_iff_get.mpr ⟨⟨9, by decide⟩, rfl⟩
  have hswift : lineCommentPattern ∈ swiftPatterns :=
    List.mem_iff_get.mpr ⟨⟨7, by decide⟩, rfl⟩
  have hkotlin : lineCommentPattern ∈ kotlinPatterns :=
    List.mem_iff_get.mpr ⟨⟨6, by decide⟩, rfl⟩
  have htest : lineCommentPattern.test (pre ++ (scheme ++ rest)) = true := by
    rcases hscheme with h | h
    · have e : pre ++ (scheme ++ rest) = (pre ++ js "http:") ++ 47 :: 47 :: rest := by
        rw [h]
        have : js "http://" = js "http:" ++ [47, 47] := by decide
        rw [this]; simp
      rw [e]; exact lineComment_test _ rest hrest
    · have e : pre ++ (scheme ++ rest) = (pre ++ js "https:") ++ 47 :: 47 :: rest := by
        rw [h]
        have : js "https://" = js "https:" ++ [47, 47] := by decide
        rw [this]; simp
      rw [e]; exact lineComment_test _ rest hrest
  have hcolon : 58 ∈ pre ++ (scheme ++ rest) := by
    have : 58 ∈ scheme := by rcases hscheme with h | h <;> rw [h] <;> decide
    simp [this]
  have hgate : hasCodeCharacteristics (pre ++ (scheme ++ rest)) = true := by
    have h1 : includes (js ":") (pre ++ (scheme ++ rest)) = true := includes_of_mem 58 _ hcolon
    unfold hasCodeCharacteristics
    simp [h1, hlines]
  have hcode : (detectCode (pre ++ (scheme ++ rest))).isCode = true := by
    rw [detectCode_isCode, collect_ne_nil_iff]
    exact ⟨hgate, ("Rust", rustPatterns), List.mem_iff_get.mpr ⟨⟨12, by decide⟩, rfl⟩,
      lineCommentPattern, hrust, htest⟩
  exact ⟨htest, hrust, hswift, hkotlin, hcode, addMessage_of_code _ hcode⟩

theorem multiline_message_with_final_url_is_code_witness :
    js "a\nb\nc\n" ++ (js "https://" ++ js "a.com") = js "a\nb\nc\nhttps://a.com" ∧
    detectURL (js "a\nb\nc\nhttps://a.com") = .single (js "https://a.com") ∧
    (detectCode (js "a\nb\nc\n" ++ (js "https://" ++ js "a.com"))).isCode = true ∧
    ∀ b, addMessage (js "a\nb\nc\n" ++ (js "https://" ++ js "a.com")) ≠ .url b :=
  have h := multiline_message_with_final_url_is_code (js "a\nb\nc\n") (js "https://") (js "a.com")
    (by decide) (Or.inr rfl) (by decide)
  ⟨by decide, by decide!, h.2.2.2.2.1, h.2.2.2.2.2⟩

/-- C24, as worded, fails: in `éhttps://a.com;` the URL `https://a.com;` first occurs at
index 1, the character before it is the letter `é` and the window has a semicolon, so the
claim discards the URL; the class `\w` of the code has the ASCII letters only and
detectURL returns the URL. -/
theorem detectURL_keeps_url_after_non_ascii_letter :
    indexOf (js "https://a.com;") (js "éhttps://a.com;") = some 1 ∧
    (js "éhttps://a.com;").get? 0 = some 233 ∧
    isLetter 233 = true ∧
    discardedWithAnyLetter (js "éhttps://a.com;") (js "https://a.com;") = true ∧
    keepUrl (js "éhttps://a.com;") (js "https://a.com;") = true ∧
    detectURL (js "éhttps://a.com;") = .single (js "https://a.com;") := by
  decide!

/-- C24, amended: the filter of detectURL discards a URL exactly when the first occurrence
of the URL in the text is at an index greater than 0, the character right before it is an
ASCII letter, an ASCII digit, an underscore, `.` or `=`, and the part of the text from 10
characters before that index to 10 characters behind the end of the URL contains one of
the words function, const, let, var, class, public, private, protected, import, require,
include as a whole word or one of the characters `{ } ( ) ;`; every other URL is kept, so
the URLs detectURL returns are the cleaned matches that are not discarded. -/
theorem detectURL_filter_as_worded :
    (∀ text url : Text, keepUrl text url = !discardedAsWorded text url) ∧
    (∀ text : Text, (detectURL text).urls =
      ((matchAll urlPattern true false text).map cleanUrl).filter
        (fun url => !discardedAsWorded text url)) ∧
    discardedAsWorded (js "x=https://a.com;") (js "https://a.com;") = true ∧
    discardedAsWorded (js "let x=https://a.com") (js "https://a.com") = true ∧
    discardedAsWorded (js "letx=https://a.com") (js "https://a.com") = false ∧
    discardedAsWorded (js "let https://a.com;") (js "https://a.com;") = false := by
  refine ⟨keepUrl_eq_not_discarded, fun text => ?_, by decide, by decide, by decide, by decide⟩
  rw [detectURL_urls]
  congr 1
  funext url
  exact keepUrl_eq_not_discarded text url

end Chat
